import Mathlib

/-!
wantarr: PVR clients, paginated fetch, command polling and the search driver.

A shallow embedding of the PVR adapters of `src/pvr` (SonarrV4, LidarrV2,
ReadarrV0, WhisparrV2, RadarrV5), of the factory `Get` and of the command
`missing` of `src/cmd`.

* The HTTP transport (`web.GetResponse`) lives outside `src/`; it is taken as
  an oracle: a function from the requests issued so far and the current
  request to what the call yields.  Every operation threads the list of
  requests it issued, so that the number and order of requests is observable.
* Go `for { ... }` loops that wait on the server carry a fuel argument; running
  out of fuel is `none`, which is not a return of the Go function.
* A Go result pair `(value, error)` is a Lean pair whose second component is
  `Option String` (`none` is `nil`).
-/

namespace Wantarr

/-! ## Time -/

/-- Go `time.Time` without a monotonic reading: whole seconds elapsed since
January 1, year 1, 00:00:00 UTC (negative before it) and nanoseconds within
the second. -/
structure Time where
  sec : Int
  nsec : Nat
deriving DecidableEq, Repr

/-- The zero value `time.Time{}`. -/
def Time.zero : Time := ⟨0, 0⟩

/-- Go `Time.IsZero`. -/
def Time.IsZero (t : Time) : Bool := t.sec == 0 && t.nsec == 0

/-- Go `Time.After`: `ts > us || ts == us && t.nsec() > u.nsec()`. -/
def Time.After (t u : Time) : Bool :=
  decide (t.sec > u.sec) || (t.sec == u.sec && decide (t.nsec > u.nsec))

/-! ## pvr.go -/

def pvrDefaultPageSize : Nat := 1000

structure MediaItem where
  ItemId : Int
  AirDateUtc : Time
  LastSearch : Time
deriving DecidableEq, Repr

/-! ## Transport -/

/-- Query parameters of a wanted-list request (`req.QueryParam`). -/
structure WantedParams where
  sortKey : String
  pageSize : Nat
  monitored : String
  page : Nat
deriving DecidableEq, Repr

/-- The requests an adapter hands to `web.GetResponse`.  The base url, the
api-key header, the timeout and the retry policy are fixed per client and are
left out; `path` is the suffix joined to the api url. -/
inductive Request where
  | get (path : String)
  | getPaged (path : String) (params : WantedParams)
  | postCommand (path : String) (name : String) (idsField : String) (ids : List Int)
deriving DecidableEq, Repr

/-- A response as the adapters look at it: the status code, the status line and
what decoding the body into the caller's target type yields. -/
structure Response (α : Type) where
  StatusCode : Int
  Status : String
  json : Except String α

/-- The pair `(resp, err)` of `web.GetResponse`. -/
abbrev Reply (α : Type) := Except String (Response α)

/-- The server as seen through `web.GetResponse`: given the requests issued so
far (oldest first) and the current request, the reply. -/
abbrev Oracle (α : Type) := List Request → Request → Reply α

/-- Text of `errors.WithMessage(err, msg)` and `errors.Wrap(err, msg)`. -/
def withMessage (err msg : String) : String := msg ++ ": " ++ err

/-! ## Paginated adapters -/

/-- The `...Wanted` structs: one page of the wanted list. -/
structure Wanted (ρ : Type) where
  Page : Int
  PageSize : Int
  SortKey : String
  SortDirection : String
  TotalRecords : Int
  Records : List ρ

/-- The three error texts of one paginated fetch function. -/
structure WantedErrors where
  retrieving : String
  invalid : String
  decoding : String

/-- The shared body of the `for` loop of every paginated `GetWantedMissing` and
`GetWantedCutoff`; the adapters differ in the path, the error texts and the
conversion of a record to a `MediaItem`. -/
def wantedLoop {ρ : Type} (srv : Oracle (Wanted ρ)) (path : String) (errs : WantedErrors)
    (store : ρ → MediaItem) :
    Nat → Nat → Nat → List MediaItem → List Request →
      Option ((List MediaItem × Option String) × List Request)
  | 0, _, lastPageSize, wanted, hist =>
    -- break loop when all pages retrieved
    if lastPageSize < pvrDefaultPageSize then some ((wanted, none), hist) else none
  | fuel + 1, page, lastPageSize, wanted, hist =>
    if lastPageSize < pvrDefaultPageSize then some ((wanted, none), hist)
    else
      -- set page, send request
      let r := Request.getPaged path ⟨"airDateUtc", pvrDefaultPageSize, "true", page⟩
      match srv hist r with
      | .error err => some (([], some (withMessage err errs.retrieving)), hist ++ [r])
      | .ok resp =>
        -- validate response
        if resp.StatusCode ≠ 200 then
          some (([], some (errs.invalid ++ ": " ++ resp.Status)), hist ++ [r])
        else
          -- decode response
          match resp.json with
          | .error err => some (([], some (withMessage err errs.decoding)), hist ++ [r])
          | .ok m =>
            -- process response
            wantedLoop srv path errs store fuel (page + 1) m.Records.length
              (wanted ++ m.Records.map store) (hist ++ [r])

/-- Error texts of a `GetWantedMissing` of the adapter that calls itself `app`. -/
def missingErrors (app : String) : WantedErrors :=
  ⟨"failed retrieving wanted missing api response from " ++ app,
   "failed retrieving valid wanted missing api response from " ++ app,
   "failed decoding wanted missing api response from " ++ app⟩

/-- Error texts of a `GetWantedCutoff` of the adapter that calls itself `app`. -/
def cutoffErrors (app : String) : WantedErrors :=
  ⟨"failed retrieving wanted cutotff unmet api response from " ++ app,
   "failed retrieving valid wanted cutoff unmet api response from " ++ app,
   "failed decoding wanted cutoff unmet api response from " ++ app⟩

structure SonarrV4Episode where
  Id : Int
  AirDateUtc : Time
  Monitored : Bool
deriving DecidableEq, Repr

structure LidarrV2Album where
  Id : Int
  ReleaseDate : Time
  Monitored : Bool
deriving DecidableEq, Repr

structure ReadarrV0Album where
  Id : Int
  ReleaseDate : Time
  Monitored : Bool
deriving DecidableEq, Repr

/-- The release date of a Whisparr record arrives as a bare string. -/
structure WhisparrV2Episode where
  Id : Int
  AirDateUtc : String
  Monitored : Bool
deriving DecidableEq, Repr

/-! ### `time.Parse("2006-01-02", value)` -/

/-- Go `isLeap`. -/
def isLeap (year : Nat) : Bool := year % 4 == 0 && (year % 100 != 0 || year % 400 == 0)

/-- Go `daysBefore[m]`: days of a non-leap year before month `m + 1`. -/
def daysBefore (m : Nat) : Nat :=
  [0, 31, 59, 90, 120, 151, 181, 212, 243, 273, 304, 334, 365].getD m 0

/-- Go `daysIn`. -/
def daysIn (month year : Nat) : Nat :=
  if month = 2 ∧ isLeap year then 29 else daysBefore month - daysBefore (month - 1)

/-- Days from January 1 of year 1 to January 1 of `year` in the proleptic
Gregorian calendar (negative for year 0). -/
def daysSinceYearOne (year : Nat) : Int :=
  let y : Int := (year : Int) - 1
  365 * y + y / 4 - y / 100 + y / 400

/-- Go `time.Date(year, month, day, 0, 0, 0, 0, time.UTC)` on an in-range date. -/
def dateUTC (year month day : Nat) : Time :=
  let d : Int := daysSinceYearOne year + (daysBefore (month - 1) : Int)
    + (if isLeap year ∧ month ≥ 3 then 1 else 0) + ((day : Int) - 1)
  ⟨d * 86400, 0⟩

/-- Value of a decimal digit, `c - 48`. -/
def digitVal (c : Char) : Nat := c.toNat - 48

/-- Go `time.Parse("2006-01-02", value)`: four digits, `-`, two digits, `-`, two
digits and nothing more; the month in 1..12 and the day within the month.
`none` stands for a parse error. -/
def parseDate (value : String) : Option Time :=
  match value.data with
  | [y1, y2, y3, y4, s1, m1, m2, s2, d1, d2] =>
    if y1.isDigit ∧ y2.isDigit ∧ y3.isDigit ∧ y4.isDigit ∧ s1 = Char.ofNat 45
        ∧ m1.isDigit ∧ m2.isDigit ∧ s2 = Char.ofNat 45 ∧ d1.isDigit ∧ d2.isDigit then
      let year := digitVal y1 * 1000 + digitVal y2 * 100 + digitVal y3 * 10 + digitVal y4
      let month := digitVal m1 * 10 + digitVal m2
      let day := digitVal d1 * 10 + digitVal d2
      if month ≤ 0 ∨ 12 < month then none
      else if day < 1 ∨ day > daysIn month year then none
      else some (dateUTC year month day)
    else none
  | _ => none

/-- `airDate, _ := time.Parse("2006-01-02", s)`: the error is dropped and the
zero time stands in on failure. -/
def parseDateOrZero (s : String) : Time := (parseDate s).getD Time.zero

/-! ### The eight paginated fetch functions

Each takes the oracle for its endpoint, the fuel of its loop and the requests
issued before the call; it yields the Go result pair and the requests issued
up to its return. -/

def SonarrV4.GetWantedMissing (srv : Oracle (Wanted SonarrV4Episode)) (fuel : Nat)
    (hist : List Request) : Option ((List MediaItem × Option String) × List Request) :=
  wantedLoop srv "/wanted/missing" (missingErrors "sonarr")
    (fun episode => ⟨episode.Id, episode.AirDateUtc, Time.zero⟩) fuel 1 pvrDefaultPageSize [] hist

def SonarrV4.GetWantedCutoff (srv : Oracle (Wanted SonarrV4Episode)) (fuel : Nat)
    (hist : List Request) : Option ((List MediaItem × Option String) × List Request) :=
  wantedLoop srv "/wanted/cutoff" (cutoffErrors "sonarr")
    (fun episode => ⟨episode.Id, episode.AirDateUtc, Time.zero⟩) fuel 1 pvrDefaultPageSize [] hist

def LidarrV2.GetWantedMissing (srv : Oracle (Wanted LidarrV2Album)) (fuel : Nat)
    (hist : List Request) : Option ((List MediaItem × Option String) × List Request) :=
  wantedLoop srv "/wanted/missing" (missingErrors "lidarr")
    (fun episode => ⟨episode.Id, episode.ReleaseDate, Time.zero⟩) fuel 1 pvrDefaultPageSize [] hist

def LidarrV2.GetWantedCutoff (srv : Oracle (Wanted LidarrV2Album)) (fuel : Nat)
    (hist : List Request) : Option ((List MediaItem × Option String) × List Request) :=
  wantedLoop srv "/wanted/cutoff" (cutoffErrors "lidarr")
    (fun episode => ⟨episode.Id, episode.ReleaseDate, Time.zero⟩) fuel 1 pvrDefaultPageSize [] hist

def ReadarrV0.GetWantedMissing (srv : Oracle (Wanted ReadarrV0Album)) (fuel : Nat)
    (hist : List Request) : Option ((List MediaItem × Option String) × List Request) :=
  wantedLoop srv "/wanted/missing" (missingErrors "readarr")
    (fun episode => ⟨episode.Id, episode.ReleaseDate, Time.zero⟩) fuel 1 pvrDefaultPageSize [] hist

def ReadarrV0.GetWantedCutoff (srv : Oracle (Wanted ReadarrV0Album)) (fuel : Nat)
    (hist : List Request) : Option ((List MediaItem × Option String) × List Request) :=
  wantedLoop srv "/wanted/cutoff" (cutoffErrors "readarr")
    (fun episode => ⟨episode.Id, episode.ReleaseDate, Time.zero⟩) fuel 1 pvrDefaultPageSize [] hist

def WhisparrV2.GetWantedMissing (srv : Oracle (Wanted WhisparrV2Episode)) (fuel : Nat)
    (hist : List Request) : Option ((List MediaItem × Option String) × List Request) :=
  wantedLoop srv "/wanted/missing" (missingErrors "whisparr")
    (fun episode => ⟨episode.Id, parseDateOrZero episode.AirDateUtc, Time.zero⟩)
    fuel 1 pvrDefaultPageSize [] hist

def WhisparrV2.GetWantedCutoff (srv : Oracle (Wanted WhisparrV2Episode)) (fuel : Nat)
    (hist : List Request) : Option ((List MediaItem × Option String) × List Request) :=
  wantedLoop srv "/wanted/cutoff" (cutoffErrors "whisparr")
    (fun episode => ⟨episode.Id, parseDateOrZero episode.AirDateUtc, Time.zero⟩)
    fuel 1 pvrDefaultPageSize [] hist

/-! ## RadarrV5: one unpaged listing, filtered client-side -/

structure RadarrV5MovieFile where
  QualityCutoffNotMet : Bool
deriving DecidableEq, Repr

structure RadarrV5Movie where
  Id : Int
  /-- Field `AirDateUtc`, decoded from `inCinemas`. -/
  AirDateUtc : Time
  /-- Decoded from `digitalRelease`. -/
  DigitalUtc : Time
  /-- Decoded from `physicalRelease`. -/
  PhysicalUtc : Time
  Status : String
  Monitored : Bool
  HasFile : Bool
  MovieFile : RadarrV5MovieFile
deriving DecidableEq, Repr

/-- The block "lets find the highest date" that both Radarr fetch functions run
on an admitted movie. -/
def RadarrV5.highestDate (movie : RadarrV5Movie) : Time :=
  let airDate := movie.AirDateUtc
  -- Compare and update if necessary
  let airDate :=
    if !movie.PhysicalUtc.IsZero && movie.PhysicalUtc.After airDate then movie.PhysicalUtc
    else airDate
  let airDate :=
    if !movie.DigitalUtc.IsZero && movie.DigitalUtc.After airDate then movie.DigitalUtc
    else airDate
  airDate

/-- The body of `for _, movie := range records` of `RadarrV5.GetWantedMissing`. -/
def RadarrV5.missingStep (wantedMissing : List MediaItem) (movie : RadarrV5Movie) :
    List MediaItem :=
  -- is this movie released?
  if !movie.Monitored || movie.Status != "released" || movie.HasFile then wantedMissing
  else wantedMissing ++ [⟨movie.Id, RadarrV5.highestDate movie, Time.zero⟩]

/-- The body of `for _, movie := range records` of `RadarrV5.GetWantedCutoff`. -/
def RadarrV5.cutoffStep (wantedCutoff : List MediaItem) (movie : RadarrV5Movie) :
    List MediaItem :=
  if !movie.MovieFile.QualityCutoffNotMet then wantedCutoff
  else wantedCutoff ++ [⟨movie.Id, RadarrV5.highestDate movie, Time.zero⟩]

/-- The request, the checks and the decoding shared by both Radarr fetch
functions; a failure of `io.ReadAll` or of `json.Unmarshal` is the `error` of
`json`, both reported under the same text. -/
def RadarrV5.fetchMovies (srv : Oracle (List RadarrV5Movie)) (hist : List Request) :
    Except String (List RadarrV5Movie) × List Request :=
  let r := Request.get "/movie"
  match srv hist r with
  | .error err =>
    (.error (withMessage err "failed retrieving movies api response from radarr"), hist ++ [r])
  | .ok resp =>
    if resp.StatusCode ≠ 200 then
      (.error ("failed retrieving valid movies api response from radarr: " ++ resp.Status),
        hist ++ [r])
    else
      match resp.json with
      | .error err =>
        (.error (withMessage err "failed decoding movies api response from radarr"), hist ++ [r])
      | .ok records => (.ok records, hist ++ [r])

def RadarrV5.GetWantedMissing (srv : Oracle (List RadarrV5Movie)) (hist : List Request) :
    (List MediaItem × Option String) × List Request :=
  match RadarrV5.fetchMovies srv hist with
  | (.error err, hist1) => (([], some err), hist1)
  | (.ok records, hist1) => ((records.foldl RadarrV5.missingStep [], none), hist1)

def RadarrV5.GetWantedCutoff (srv : Oracle (List RadarrV5Movie)) (hist : List Request) :
    (List MediaItem × Option String) × List Request :=
  match RadarrV5.fetchMovies srv hist with
  | (.error err, hist1) => (([], some err), hist1)
  | (.ok records, hist1) => ((records.foldl RadarrV5.cutoffStep [], none), hist1)

/-! ## Formatting with `%q` -/

/-- Go `strconv.IsPrint`: the Latin-1 fast path is spelled out; above `0xFF` the
standard library consults its Unicode tables, which are the argument `table`. -/
def IsPrint (table : Char → Bool) (r : Char) : Bool :=
  if r.toNat ≤ 0xFF then
    if 0x20 ≤ r.toNat ∧ r.toNat ≤ 0x7E then true
    else if 0xA1 ≤ r.toNat then r.toNat != 0xAD
    else false
  else table r

/-- Go `lowerhex[n]`. -/
def lowerhex (n : Nat) : Char :=
  if n < 10 then Char.ofNat (48 + n) else Char.ofNat (87 + n)

/-- The backslash. -/
def backslash : Char := Char.ofNat 92

/-- The double quote. -/
def dquote : Char := Char.ofNat 34

/-- Go `appendEscapedRune` with the double quote as quote character, neither
ASCII-only nor graphic-only.  Every `Char` is a valid rune. -/
def appendEscapedRune (table : Char → Bool) (r : Char) : List Char :=
  if r = dquote ∨ r = backslash then [backslash, r]
  else if IsPrint table r then [r]
  else
    match r.toNat with
    | 7 => [backslash, Char.ofNat 97]
    | 8 => [backslash, Char.ofNat 98]
    | 12 => [backslash, Char.ofNat 102]
    | 10 => [backslash, Char.ofNat 110]
    | 13 => [backslash, Char.ofNat 114]
    | 9 => [backslash, Char.ofNat 116]
    | 11 => [backslash, Char.ofNat 118]
    | n =>
      if n < 0x20 ∨ n = 0x7F then [backslash, Char.ofNat 120, lowerhex (n / 16), lowerhex (n % 16)]
      else if n < 0x10000 then
        backslash :: Char.ofNat 117 :: [12, 8, 4, 0].map (fun s => lowerhex ((n >>> s) % 16))
      else
        backslash :: Char.ofNat 85 ::
          [28, 24, 20, 16, 12, 8, 4, 0].map (fun s => lowerhex ((n >>> s) % 16))

/-- Go `strconv.Quote`, which is what the verb `%q` prints for a string. -/
def quote (table : Char → Bool) (s : String) : String :=
  String.mk (dquote :: (s.data.flatMap (appendEscapedRune table) ++ [dquote]))

/-! ## Command trigger and status polling -/

structure CommandStatus where
  Name : String
  Message : String
  Started : Time
  Ended : Time
  Status : String
deriving DecidableEq, Repr

structure CommandResponse where
  Id : Int
deriving DecidableEq, Repr

/-- The method `getCommandStatus` of the adapter that calls itself `app`.  The
transport error is dropped (`errors.New`). -/
def getCommandStatus (srv : Oracle CommandStatus) (app : String) (id : Int)
    (hist : List Request) : Except String CommandStatus × List Request :=
  let r := Request.get ("/command/" ++ toString id)
  match srv hist r with
  | .error _ =>
    (.error ("failed retrieving command status api response from " ++ app), hist ++ [r])
  | .ok resp =>
    if resp.StatusCode ≠ 200 then
      (.error ("failed retrieving valid command status api response from " ++ app ++ ": "
        ++ resp.Status), hist ++ [r])
    else
      match resp.json with
      | .error err =>
        (.error (withMessage err ("failed decoding command status api response from " ++ app)),
          hist ++ [r])
      | .ok s => (.ok s, hist ++ [r])

/-- The loop "monitor search status" of `SearchMediaItems`; one unit of fuel per
status poll, `time.Sleep` between polls is not modelled. -/
def monitorLoop (table : Char → Bool) (srv : Oracle CommandStatus) (app : String) (id : Int) :
    Nat → List Request → Option ((Bool × Option String) × List Request)
  | 0, _ => none
  | fuel + 1, hist =>
    -- retrieve command status
    match getCommandStatus srv app id hist with
    | (.error err, hist1) =>
      some ((false, some (withMessage err
        ("failed retrieving command status from " ++ app ++ " for: " ++ toString id))), hist1)
    | (.ok searchStatus, hist1) =>
      -- is status complete?
      if searchStatus.Status = "completed" then some ((true, none), hist1)
      else if searchStatus.Status = "failed" then
        some ((false, some ("search failed with message: "
          ++ quote table searchStatus.Message)), hist1)
      else if searchStatus.Status ≠ "started" ∧ searchStatus.Status ≠ "queued" then
        some ((false, some ("search failed with unexpected status "
          ++ quote table searchStatus.Status ++ ", message: "
          ++ quote table searchStatus.Message)), hist1)
      else monitorLoop table srv app id fuel hist1

/-- The shared body of every `SearchMediaItems`; the adapters differ in the name
they call themselves, the command name and the JSON field of the ids. -/
def searchMediaItems (table : Char → Bool) (cmd : Oracle CommandResponse)
    (srv : Oracle CommandStatus) (app name idsField : String) (mediaItemIds : List Int)
    (fuel : Nat) (hist : List Request) : Option ((Bool × Option String) × List Request) :=
  -- set request data, send request
  let r := Request.postCommand "/command" name idsField mediaItemIds
  match cmd hist r with
  | .error err =>
    some ((false, some (withMessage err ("failed retrieving command api response from " ++ app))),
      hist ++ [r])
  | .ok resp =>
    -- validate response
    if resp.StatusCode ≠ 201 then
      some ((false, some ("failed retrieving valid command api response from " ++ app ++ ": "
        ++ resp.Status)), hist ++ [r])
    else
      -- decode response
      match resp.json with
      | .error err =>
        some ((false, some (withMessage err
          ("failed decoding command api response from " ++ app))), hist ++ [r])
      | .ok q => monitorLoop table srv app q.Id fuel (hist ++ [r])

def SonarrV4.SearchMediaItems (table : Char → Bool) (cmd : Oracle CommandResponse)
    (srv : Oracle CommandStatus) (mediaItemIds : List Int) (fuel : Nat) (hist : List Request) :
    Option ((Bool × Option String) × List Request) :=
  searchMediaItems table cmd srv "sonarr" "EpisodeSearch" "episodeIds" mediaItemIds fuel hist

def RadarrV5.SearchMediaItems (table : Char → Bool) (cmd : Oracle CommandResponse)
    (srv : Oracle CommandStatus) (mediaItemIds : List Int) (fuel : Nat) (hist : List Request) :
    Option ((Bool × Option String) × List Request) :=
  searchMediaItems table cmd srv "radarr" "moviesSearch" "movieIds" mediaItemIds fuel hist

def LidarrV2.SearchMediaItems (table : Char → Bool) (cmd : Oracle CommandResponse)
    (srv : Oracle CommandStatus) (mediaItemIds : List Int) (fuel : Nat) (hist : List Request) :
    Option ((Bool × Option String) × List Request) :=
  searchMediaItems table cmd srv "lidarr" "AlbumSearch" "albumIds" mediaItemIds fuel hist

def ReadarrV0.SearchMediaItems (table : Char → Bool) (cmd : Oracle CommandResponse)
    (srv : Oracle CommandStatus) (mediaItemIds : List Int) (fuel : Nat) (hist : List Request) :
    Option ((Bool × Option String) × List Request) :=
  searchMediaItems table cmd srv "readarr" "BookSearch" "BookIds" mediaItemIds fuel hist

def WhisparrV2.SearchMediaItems (table : Char → Bool) (cmd : Oracle CommandResponse)
    (srv : Oracle CommandStatus) (mediaItemIds : List Int) (fuel : Nat) (hist : List Request) :
    Option ((Bool × Option String) × List Request) :=
  searchMediaItems table cmd srv "whisparr" "EpisodeSearch" "episodeIds" mediaItemIds fuel hist

/-! ## Vocabulary of the statements -/

/-- The request for page `page` of the wanted list at `path`. -/
def pageRequest (path : String) (page : Nat) : Request :=
  Request.getPaged path ⟨"airDateUtc", pvrDefaultPageSize, "true", page⟩

/-- The requests for the `n` consecutive pages `first`, `first + 1`, ... -/
def pageRequests (path : String) (first n : Nat) : List Request :=
  (List.range n).map (fun j => pageRequest path (first + j))

/-- The records of a reply that a paginated fetch accepts as a page: the call
succeeded, the status code is 200 and the body decoded. -/
def pageOf {ρ : Type} (reply : Reply (Wanted ρ)) : Option (List ρ) :=
  match reply with
  | .error _ => none
  | .ok resp =>
    if resp.StatusCode = 200 then
      match resp.json with
      | .error _ => none
      | .ok m => some m.Records
    else none

/-- The four adapters that fetch their wanted lists page by page. -/
inductive PagedAdapter where
  | sonarrV4
  | lidarrV2
  | readarrV0
  | whisparrV2
deriving DecidableEq, Repr

/-- The two wanted lists. -/
inductive ListKind where
  | missing
  | cutoff
deriving DecidableEq, Repr

/-- The record type an adapter decodes a page into. -/
def PagedAdapter.Record : PagedAdapter → Type
  | .sonarrV4 => SonarrV4Episode
  | .lidarrV2 => LidarrV2Album
  | .readarrV0 => ReadarrV0Album
  | .whisparrV2 => WhisparrV2Episode

/-- The id the server gave a record. -/
def PagedAdapter.recordId : (a : PagedAdapter) → a.Record → Int
  | .sonarrV4, r => SonarrV4Episode.Id r
  | .lidarrV2, r => LidarrV2Album.Id r
  | .readarrV0, r => ReadarrV0Album.Id r
  | .whisparrV2, r => WhisparrV2Episode.Id r

/-- The path a wanted list is requested at. -/
def ListKind.path : ListKind → String
  | .missing => "/wanted/missing"
  | .cutoff => "/wanted/cutoff"

/-- Dispatch to `GetWantedMissing` or `GetWantedCutoff` of an adapter. -/
def PagedAdapter.GetWanted : (a : PagedAdapter) → ListKind → Oracle (Wanted a.Record) → Nat →
    List Request → Option ((List MediaItem × Option String) × List Request)
  | .sonarrV4, .missing => SonarrV4.GetWantedMissing
  | .sonarrV4, .cutoff => SonarrV4.GetWantedCutoff
  | .lidarrV2, .missing => LidarrV2.GetWantedMissing
  | .lidarrV2, .cutoff => LidarrV2.GetWantedCutoff
  | .readarrV0, .missing => ReadarrV0.GetWantedMissing
  | .readarrV0, .cutoff => ReadarrV0.GetWantedCutoff
  | .whisparrV2, .missing => WhisparrV2.GetWantedMissing
  | .whisparrV2, .cutoff => WhisparrV2.GetWantedCutoff

/-- A page of `n` Sonarr episodes with the ids `first`, `first + 1`, ... -/
def episodesFrom (first n : Nat) : List SonarrV4Episode :=
  (List.range n).map (fun j => ⟨((first + j : Nat) : Int), Time.zero, true⟩)

/-- A reply with status 200 whose body decodes to a page with the given records. -/
def pageReply {ρ : Type} (records : List ρ) : Reply (Wanted ρ) :=
  .ok ⟨200, "200 OK", .ok ⟨0, 0, "", "", 0, records⟩⟩

/-- A Sonarr server holding exactly one page size of episodes: a full first
page, then empty pages. -/
def fullThenEmpty : Oracle (Wanted SonarrV4Episode) := fun hist _ =>
  if hist.length = 0 then pageReply (episodesFrom 0 pvrDefaultPageSize) else pageReply []

/-- A Sonarr server holding three episodes, all on the first page. -/
def threeEpisodes : Oracle (Wanted SonarrV4Episode) := fun _ _ =>
  pageReply (episodesFrom 7 3)

/-- The movies the Radarr fetch functions get to see: the decoded body of a
reply with status 200, and nothing on any failure. -/
def servedMovies (reply : Reply (List RadarrV5Movie)) : List RadarrV5Movie :=
  match reply with
  | .error _ => []
  | .ok resp =>
    if resp.StatusCode = 200 then
      match resp.json with
      | .error _ => []
      | .ok records => records
    else []

/-- The item both Radarr fetch functions store for an admitted movie. -/
def RadarrV5.store (movie : RadarrV5Movie) : MediaItem :=
  ⟨movie.Id, RadarrV5.highestDate movie, Time.zero⟩

/-- The non-zero instants of a list. -/
def nonZero (ts : List Time) : List Time := ts.filter (fun t => !t.IsZero)

/-- Instant `r` is the latest of `cands`: it is one of them and none of them is
after it. -/
def IsLatestOf (r : Time) (cands : List Time) : Prop :=
  r ∈ cands ∧ ∀ c ∈ cands, c.After r = false

/-- A released, monitored movie without a file and with a cutoff-unmet flag,
whose only release date is `0001-01-01T00:00:00+01:00`, one hour before the
zero timestamp. -/
def earlyMovie : RadarrV5Movie :=
  ⟨1, Time.zero, Time.zero, ⟨-3600, 0⟩, "released", true, false, ⟨true⟩⟩

/-- A movie that fails every admission test of the missing list and has no
cutoff-unmet flag. -/
def idleMovie : RadarrV5Movie :=
  ⟨2, ⟨63000000000, 0⟩, Time.zero, Time.zero, "announced", false, true, ⟨false⟩⟩

/-- A movie with three release dates, the digital one being the latest. -/
def datedMovie : RadarrV5Movie :=
  ⟨3, ⟨63000000000, 0⟩, ⟨63900000000, 5⟩, ⟨63900000000, 0⟩, "released", true, false, ⟨true⟩⟩

/-- A Radarr server listing the three movies above. -/
def movieServer : Oracle (List RadarrV5Movie) := fun _ _ =>
  .ok ⟨200, "200 OK", .ok [earlyMovie, idleMovie, datedMovie]⟩

/-- The five adapters. -/
inductive Adapter where
  | sonarrV4
  | radarrV5
  | lidarrV2
  | readarrV0
  | whisparrV2
deriving DecidableEq, Repr

/-- Dispatch to `SearchMediaItems` of an adapter. -/
def Adapter.SearchMediaItems : Adapter → (Char → Bool) → Oracle CommandResponse →
    Oracle CommandStatus → List Int → Nat → List Request →
    Option ((Bool × Option String) × List Request)
  | .sonarrV4 => SonarrV4.SearchMediaItems
  | .radarrV5 => RadarrV5.SearchMediaItems
  | .lidarrV2 => LidarrV2.SearchMediaItems
  | .readarrV0 => ReadarrV0.SearchMediaItems
  | .whisparrV2 => WhisparrV2.SearchMediaItems

/-- The name an adapter calls its server in error texts. -/
def Adapter.app : Adapter → String
  | .sonarrV4 => "sonarr"
  | .radarrV5 => "radarr"
  | .lidarrV2 => "lidarr"
  | .readarrV0 => "readarr"
  | .whisparrV2 => "whisparr"

/-- The request that triggers a search for `ids`. -/
def Adapter.triggerRequest : Adapter → List Int → Request
  | .sonarrV4, ids => Request.postCommand "/command" "EpisodeSearch" "episodeIds" ids
  | .radarrV5, ids => Request.postCommand "/command" "moviesSearch" "movieIds" ids
  | .lidarrV2, ids => Request.postCommand "/command" "AlbumSearch" "albumIds" ids
  | .readarrV0, ids => Request.postCommand "/command" "BookSearch" "BookIds" ids
  | .whisparrV2, ids => Request.postCommand "/command" "EpisodeSearch" "episodeIds" ids

/-- The status poll for command `id`. -/
def pollRequest (id : Int) : Request := Request.get ("/command/" ++ toString id)

/-- The command id of a trigger reply that `SearchMediaItems` accepts: the call
succeeded, the status code is 201 and the body decoded. -/
def acceptedId (reply : Reply CommandResponse) : Option Int :=
  match reply with
  | .error _ => none
  | .ok resp =>
    if resp.StatusCode = 201 then
      match resp.json with
      | .error _ => none
      | .ok q => some q.Id
    else none

/-- The command status a poll reports: the call succeeded, the status code is
200 and the body decoded. -/
def statusOf (reply : Reply CommandStatus) : Option CommandStatus :=
  match reply with
  | .error _ => none
  | .ok resp =>
    if resp.StatusCode = 200 then
      match resp.json with
      | .error _ => none
      | .ok s => some s
    else none

/-- Poll number `j` (from 0) of a search reports a pending status, given the
requests before the search, the trigger request and the command id. -/
def pendingAt (srv : Oracle CommandStatus) (before : List Request) (id : Int) (j : Nat) : Prop :=
  ∃ st, statusOf (srv (before ++ List.replicate j (pollRequest id)) (pollRequest id)) = some st
    ∧ (st.Status = "queued" ∨ st.Status = "started")

/-- Text `t` contains text `m` as a contiguous piece. -/
def containsText (t m : String) : Prop := m.data <:+: t.data

/-- A trigger oracle that accepts every command under the id `id`. -/
def acceptAs (id : Int) : Oracle CommandResponse := fun _ _ =>
  .ok ⟨201, "201 Created", .ok ⟨id⟩⟩

/-- A status oracle for one search started on an empty history: poll `j`
reports entry `j` of the script (status, message); past the script the
connection fails. -/
def scripted (script : List (String × String)) : Oracle CommandStatus := fun hist _ =>
  match script[hist.length - 1]? with
  | some (status, message) => .ok ⟨200, "200 OK", .ok ⟨"", message, Time.zero, Time.zero, status⟩⟩
  | none => .error "connection refused"

/-- The message `no results for "Dune"`. -/
def duneMessage : String :=
  "no results for " ++ String.mk [dquote] ++ "Dune" ++ String.mk [dquote]

/-! ## Init and GetQueueSize -/

/-- The `...SystemStatus` structs. -/
structure SystemStatus where
  Version : String
deriving DecidableEq, Repr

/-- The `...Queue` structs of the paginated adapters; `Size` is decoded from
`totalRecords`. -/
structure Queue where
  Size : Int
deriving DecidableEq, Repr

/-- How a Go call that can abort the program on a run-time error ends. -/
inductive Outcome (α : Type) where
  | returned (value : α)
  | panicked
deriving DecidableEq, Repr

/-- The method `getSystemStatus` of the adapter that calls itself `app`.  The
transport error is dropped (`errors.New`). -/
def getSystemStatus (srv : Oracle SystemStatus) (app : String) (hist : List Request) :
    Except String SystemStatus × List Request :=
  let r := Request.get "/system/status"
  match srv hist r with
  | .error _ =>
    (.error ("failed retrieving system status api response from " ++ app), hist ++ [r])
  | .ok resp =>
    if resp.StatusCode ≠ 200 then
      (.error ("failed retrieving valid system status api response from " ++ app ++ ": "
        ++ resp.Status), hist ++ [r])
    else
      match resp.json with
      | .error err =>
        (.error (withMessage err ("failed decoding system status api response from " ++ app)),
          hist ++ [r])
      | .ok s => (.ok s, hist ++ [r])

/-- The shared body of every `Init`; the adapters differ in the name they call
themselves and in the digit `major` they compare `status.Version[0:1]` with.
Slicing `[0:1]` out of the empty string is a run-time error; on a non-empty
string the one-byte slice equals the one-byte string of an ASCII digit exactly
when the first character is that digit. -/
def init (srv : Oracle SystemStatus) (app : String) (major : Char) (hist : List Request) :
    Outcome (Option String) × List Request :=
  -- retrieve system status
  match getSystemStatus srv app hist with
  | (.error err, hist1) =>
    (.returned (some (withMessage err ("failed initializing " ++ app ++ " pvr"))), hist1)
  | (.ok status, hist1) =>
    -- determine version
    match status.Version.data with
    | [] => (.panicked, hist1)
    | c :: _ =>
      if c = major then (.returned none, hist1)
      else
        (.returned (some ("unsupported version of " ++ app ++ " pvr: " ++ status.Version)), hist1)

def SonarrV4.Init (srv : Oracle SystemStatus) (hist : List Request) :
    Outcome (Option String) × List Request :=
  init srv "sonarr" '4' hist

def RadarrV5.Init (srv : Oracle SystemStatus) (hist : List Request) :
    Outcome (Option String) × List Request :=
  init srv "radarr" '5' hist

def LidarrV2.Init (srv : Oracle SystemStatus) (hist : List Request) :
    Outcome (Option String) × List Request :=
  init srv "lidarr" '2' hist

def ReadarrV0.Init (srv : Oracle SystemStatus) (hist : List Request) :
    Outcome (Option String) × List Request :=
  init srv "readarr" '0' hist

def WhisparrV2.Init (srv : Oracle SystemStatus) (hist : List Request) :
    Outcome (Option String) × List Request :=
  init srv "whisparr" '2' hist

/-- The shared body of `GetQueueSize` of the four paginated adapters. -/
def getQueueSize (srv : Oracle Queue) (app : String) (hist : List Request) :
    (Int × Option String) × List Request :=
  let r := Request.get "/queue"
  match srv hist r with
  | .error err =>
    ((0, some (withMessage err ("failed retrieving queue api response from " ++ app))),
      hist ++ [r])
  | .ok resp =>
    if resp.StatusCode ≠ 200 then
      ((0, some ("failed retrieving valid queue api response from " ++ app ++ ": "
        ++ resp.Status)), hist ++ [r])
    else
      match resp.json with
      | .error err =>
        ((0, some (withMessage err ("failed decoding queue api response from " ++ app))),
          hist ++ [r])
      | .ok q => ((q.Size, none), hist ++ [r])

def SonarrV4.GetQueueSize (srv : Oracle Queue) (hist : List Request) :
    (Int × Option String) × List Request :=
  getQueueSize srv "sonarr" hist

def LidarrV2.GetQueueSize (srv : Oracle Queue) (hist : List Request) :
    (Int × Option String) × List Request :=
  getQueueSize srv "lidarr" hist

def ReadarrV0.GetQueueSize (srv : Oracle Queue) (hist : List Request) :
    (Int × Option String) × List Request :=
  getQueueSize srv "readarr" hist

def WhisparrV2.GetQueueSize (srv : Oracle Queue) (hist : List Request) :
    (Int × Option String) × List Request :=
  getQueueSize srv "whisparr" hist

/-- `RadarrV5.GetQueueSize`: the body is decoded into a list of arbitrary
values and its length is the queue size. -/
def RadarrV5.GetQueueSize {ι : Type} (srv : Oracle (List ι)) (hist : List Request) :
    (Int × Option String) × List Request :=
  let r := Request.get "/queue"
  match srv hist r with
  | .error err =>
    ((0, some (withMessage err "failed retrieving queue api response from radarr")), hist ++ [r])
  | .ok resp =>
    if resp.StatusCode ≠ 200 then
      ((0, some ("failed retrieving valid queue api response from radarr: " ++ resp.Status)),
        hist ++ [r])
    else
      match resp.json with
      | .error err =>
        ((0, some (withMessage err "failed decoding queue api response from radarr")),
          hist ++ [r])
      | .ok q => (((q.length : Int), none), hist ++ [r])

/-! ## The factory `Get` -/

/-- The configuration of one PVR (`config.Pvr`), with the fields the code reads;
`Type'` is the field `Type`. -/
structure config.Pvr where
  URL : String
  ApiKey : String
  Type' : String
deriving DecidableEq, Repr

/-- A client as a constructor of the package applied to its arguments.  The
first six are the ones `Get` calls (`NewSonarrV3`, `NewRadarrV2`, `NewRadarrV3`
and `NewRadarrV4` are declared outside `src/`); the last three are declared in
`src/pvr`. -/
inductive Client where
  | NewSonarrV3 (name : String) (c : config.Pvr)
  | NewSonarrV4 (name : String) (c : config.Pvr)
  | NewRadarrV2 (name : String) (c : config.Pvr)
  | NewRadarrV3 (name : String) (c : config.Pvr)
  | NewRadarrV4 (name : String) (c : config.Pvr)
  | NewRadarrV5 (name : String) (c : config.Pvr)
  | NewLidarrV2 (name : String) (c : config.Pvr)
  | NewReadarrV0 (name : String) (c : config.Pvr)
  | NewWhisparrV2 (name : String) (c : config.Pvr)
deriving DecidableEq, Repr

/-- Go `unicode.ToLower`: ASCII is spelled out; above it the standard library
consults its Unicode tables, which are the argument `table`. -/
def lowerChar (table : Char → Char) (r : Char) : Char :=
  if r.toNat ≤ 0x7F then
    if 65 ≤ r.toNat ∧ r.toNat ≤ 90 then Char.ofNat (r.toNat + 32) else r
  else table r

/-- Go `strings.ToLower`. -/
def ToLower (table : Char → Char) (s : String) : String :=
  String.mk (s.data.map (lowerChar table))

/-- `Get` of pvr.go; the `switch` is a chain of comparisons. -/
def Get (printTable : Char → Bool) (lowerTable : Char → Char) (pvrName pvrType : String)
    (pvrConfig : config.Pvr) : Option Client × Option String :=
  let t := ToLower lowerTable pvrType
  if t = "sonarr_v3" then (some (Client.NewSonarrV3 pvrName pvrConfig), none)
  else if t = "sonarr_v4" then (some (Client.NewSonarrV4 pvrName pvrConfig), none)
  else if t = "radarr_v2" then (some (Client.NewRadarrV2 pvrName pvrConfig), none)
  else if t = "radarr_v3" then (some (Client.NewRadarrV3 pvrName pvrConfig), none)
  else if t = "radarr_v4" then (some (Client.NewRadarrV4 pvrName pvrConfig), none)
  else if t = "radarr_v5" then (some (Client.NewRadarrV5 pvrName pvrConfig), none)
  else (none, some ("unsupported pvr type provided: " ++ quote printTable pvrType))

/-- `parseValidateInputs` of missing.go on the single argument that
`cobra.ExactArgs(1)` lets through; `Config` is the map `config.Config.Pvr`.  It
yields the error, or the values it leaves in the package variables
`lowerPvrName`, `pvrConfig` and `pvr` (`none` is the nil interface). -/
def parseValidateInputs (printTable : Char → Bool) (lowerTable : Char → Char)
    (Config : String → Option config.Pvr) (pvrName : String) :
    Except String (String × config.Pvr × Option Client) :=
  -- validate pvr exists in config
  let lowerPvrName := ToLower lowerTable pvrName
  match Config pvrName with
  | none => .error ("no pvr configuration found for: " ++ quote printTable pvrName)
  | some pvrConfig =>
    -- init pvrObj
    match Get printTable lowerTable pvrName pvrConfig.Type' pvrConfig with
    | (_, some err) => .error (withMessage err "failed loading pvr object")
    | (pvr, none) => .ok (lowerPvrName, pvrConfig, pvr)

/-! ## Vocabulary: versions, tags and families -/

/-- Dispatch to `Init` of an adapter. -/
def Adapter.Init : Adapter → Oracle SystemStatus → List Request →
    Outcome (Option String) × List Request
  | .sonarrV4 => SonarrV4.Init
  | .radarrV5 => RadarrV5.Init
  | .lidarrV2 => LidarrV2.Init
  | .readarrV0 => ReadarrV0.Init
  | .whisparrV2 => WhisparrV2.Init

/-- The version an adapter is written for. -/
def Adapter.major : Adapter → Nat
  | .sonarrV4 => 4
  | .radarrV5 => 5
  | .lidarrV2 => 2
  | .readarrV0 => 0
  | .whisparrV2 => 2

/-- The decimal digit of `Adapter.major`. -/
def Adapter.majorChar (a : Adapter) : Char := Char.ofNat (48 + a.major)

/-- The request for the system status. -/
def statusRequest : Request := Request.get "/system/status"

/-- The version a system status reply reports: the call succeeded, the status
code is 200 and the body decoded. -/
def reportedVersion (reply : Reply SystemStatus) : Option String :=
  match reply with
  | .error _ => none
  | .ok resp =>
    if resp.StatusCode = 200 then
      match resp.json with
      | .error _ => none
      | .ok s => some s.Version
    else none

/-- The major version of a version string as the claim reads it: the decimal
integer standing before the first dot, if there is one. -/
def majorVersion (v : String) : Option Nat :=
  let digits := v.data.takeWhile (fun c => c != Char.ofNat 46)
  if digits ≠ [] ∧ digits.all Char.isDigit = true then
    some (digits.foldl (fun n c => 10 * n + digitVal c) 0)
  else none

/-- A server that reports the version `v`. -/
def versionServer (v : String) : Oracle SystemStatus := fun _ _ =>
  .ok ⟨200, "200 OK", .ok ⟨v⟩⟩

/-- A server whose queue holds `n` entries. -/
def queueServer (n : Int) : Oracle Queue := fun _ _ =>
  .ok ⟨200, "200 OK", .ok ⟨n⟩⟩

/-- A trigger oracle that answers with the status code `code`. -/
def answerWith (code : Int) (status : String) : Oracle CommandResponse := fun _ _ =>
  .ok ⟨code, status, .ok ⟨1⟩⟩

/-- The type tags `Get` knows. -/
def supportedTags : List String :=
  ["sonarr_v3", "sonarr_v4", "radarr_v2", "radarr_v3", "radarr_v4", "radarr_v5"]

/-- ASCII lower-casing of one character. -/
def asciiLower (r : Char) : Char :=
  if 65 ≤ r.toNat ∧ r.toNat ≤ 90 then Char.ofNat (r.toNat + 32) else r

/-- ASCII upper-casing of one character. -/
def asciiUpper (r : Char) : Char :=
  if 97 ≤ r.toNat ∧ r.toNat ≤ 122 then Char.ofNat (r.toNat - 32) else r

/-- Text `s` is `tag` in some letter case: character by character it is the
character of `tag` or its ASCII upper-case form. -/
def CaseVariant (s tag : String) : Prop :=
  List.Forall₂ (fun c d => c = d ∨ c = asciiUpper d) s.data tag.data

/-- The characters of the supported tags. -/
def tagChars : List Char := "sonarr_v3sonarr_v4radarr_v2radarr_v3radarr_v4radarr_v5".data

/-- The backend families the specification names. -/
inductive Family where
  | episode
  | movie
  | library
deriving DecidableEq, Repr

/-- The family of a client: Sonarr and Whisparr manage episodes, Radarr
movies, Lidarr and Readarr libraries of albums and books. -/
def Client.family : Client → Family
  | .NewSonarrV3 _ _ => .episode
  | .NewSonarrV4 _ _ => .episode
  | .NewWhisparrV2 _ _ => .episode
  | .NewRadarrV2 _ _ => .movie
  | .NewRadarrV3 _ _ => .movie
  | .NewRadarrV4 _ _ => .movie
  | .NewRadarrV5 _ _ => .movie
  | .NewLidarrV2 _ _ => .library
  | .NewReadarrV0 _ _ => .library

/-- A configuration entry of the given type. -/
def sampleConfig (type : String) : config.Pvr := ⟨"http://localhost:8989", "key", type⟩

/-! ## The driver (cmd/missing.go)

Package `database` and the clock are outside `src/`: the functions of the
package the driver calls are the fields of `Database`, acting on a state the
driver never looks into, and `time.Now()` is a sequence of readings.  The
client is any implementation of `Interface`; a call into it returns, aborts
the program, or never returns.  `log.Fatal` ends the run on the spot. -/

/-- A row as `database.GetMediaItems` hands it back, with the fields the driver
reads. -/
structure database.MediaItem where
  Id : Int
  AirDateUtc : Time
deriving DecidableEq, Repr

/-- The functions of package `database` the driver calls, on a cache state `σ`;
the two readers leave the state alone. -/
structure Database (σ : Type) where
  Init : σ → String → Option String × σ
  GetItemsCount : σ → String → String → Int
  SetMediaItems : σ → String → String → List MediaItem → Option String × σ
  DeleteMissingItems : σ → String → String → List MediaItem → (Int × Option String) × σ
  GetMediaItems : σ → String → String → List database.MediaItem × Option String

/-- How a call into a client ends: it returns a value and leaves the client's
surroundings in a new state, or it aborts the program, or it never returns. -/
inductive Call (α : Type) (π : Type) where
  | done (value : α) (next : π)
  | panic
  | hang

/-- The interface `Interface` of pvr.go over the state `π` of the client's
surroundings. -/
structure Interface (π : Type) where
  Init : π → Call (Option String) π
  GetQueueSize : π → Call (Int × Option String) π
  GetWantedMissing : π → Call (List MediaItem × Option String) π
  GetWantedCutoff : π → Call (List MediaItem × Option String) π
  SearchMediaItems : π → List Int → Call (Bool × Option String) π

/-- What the driver does to the outside, in the order it does it. -/
inductive Event where
  | Init
  | GetQueueSize
  | GetWantedMissing
  | GetWantedCutoff
  | SearchMediaItems (ids : List Int)
  | databaseInit (file : String)
  | GetItemsCount (pvr wantedType : String)
  | SetMediaItems (pvr wantedType : String) (items : List MediaItem)
  | DeleteMissingItems (pvr wantedType : String) (items : List MediaItem)
  | GetMediaItems (pvr wantedType : String)
  | Now (t : Time)
deriving DecidableEq, Repr

/-- The outside at one moment of a run: the cache, the client's surroundings,
the number of clock readings taken, and the events so far. -/
structure St (σ π : Type) where
  db : σ
  pvr : π
  clock : Nat
  events : List Event

/-- How a run ends: it returns, it dies in `log.Fatal` with a message and
possibly an error, it aborts in a run-time error, or it waits for ever. -/
inductive Exit where
  | ok
  | fatal (msg : String) (err : Option String)
  | panic
  | hang
deriving DecidableEq, Repr

/-- The end of a run. -/
structure RunResult (σ π : Type) where
  exit : Exit
  st : St σ π

def batchSize : Nat := 10

/-- The loop "start searching" of `Run` over the rows read from the cache;
`searchItems` is the batch under construction. -/
def searchBatches {σ π : Type} (db : Database σ) (pvr : Interface π) (clock : Nat → Time)
    (lowerPvrName : String) :
    List database.MediaItem → List MediaItem → St σ π → RunResult σ π
  | [], _, st => ⟨Exit.ok, st⟩
  | item :: rest, searchItems, st =>
    -- add item to batch
    let searchItems := searchItems ++ [⟨item.Id, item.AirDateUtc, Time.zero⟩]
    -- not enough items batched yet
    if searchItems.length < batchSize then
      searchBatches db pvr clock lowerPvrName rest searchItems st
    else
      -- generate slice of search item ids
      let searchItemIds := searchItems.map MediaItem.ItemId
      -- do search
      let searchTime := clock st.clock
      let events := st.events ++ [Event.Now searchTime, Event.SearchMediaItems searchItemIds]
      match pvr.SearchMediaItems st.pvr searchItemIds with
      | .panic => ⟨Exit.panic, ⟨st.db, st.pvr, st.clock + 1, events⟩⟩
      | .hang => ⟨Exit.hang, ⟨st.db, st.pvr, st.clock + 1, events⟩⟩
      | .done (_, some err) p =>
        ⟨Exit.fatal "Failed searching for items" (some err), ⟨st.db, p, st.clock + 1, events⟩⟩
      | .done (false, none) p =>
        ⟨Exit.fatal "Failed searching for items!" none, ⟨st.db, p, st.clock + 1, events⟩⟩
      | .done (true, none) p =>
        -- update search items with lastsearch time
        let searchItems := searchItems.map (fun x => { x with LastSearch := searchTime })
        let events := events ++ [Event.SetMediaItems lowerPvrName "missing" searchItems]
        match db.SetMediaItems st.db lowerPvrName "missing" searchItems with
        | (some err, s) =>
          ⟨Exit.fatal "Failed updating search items in database" (some err),
            ⟨s, p, st.clock + 1, events⟩⟩
        | (none, s) =>
          -- reset batch
          searchBatches db pvr clock lowerPvrName rest [] ⟨s, p, st.clock + 1, events⟩

/-- The block "retrieve missing records from pvr and stash in database" of
`Run`; `none` lets the run go on. -/
def refreshCache {σ π : Type} (db : Database σ) (pvr : Interface π) (flagRefreshCache : Bool)
    (lowerPvrName : String) (st : St σ π) : Option Exit × St σ π :=
  let existingItemsCount := db.GetItemsCount st.db lowerPvrName "missing"
  let events := st.events ++ [Event.GetItemsCount lowerPvrName "missing"]
  if flagRefreshCache = true ∨ existingItemsCount < 1 then
    let events := events ++ [Event.GetWantedMissing]
    match pvr.GetWantedMissing st.pvr with
    | .panic => (some Exit.panic, ⟨st.db, st.pvr, st.clock, events⟩)
    | .hang => (some Exit.hang, ⟨st.db, st.pvr, st.clock, events⟩)
    | .done (_, some err) p =>
      (some (Exit.fatal "Failed retrieving wanted missing pvr items..." (some err)),
        ⟨st.db, p, st.clock, events⟩)
    | .done (missingRecords, none) p =>
      -- stash missing media in database
      let events := events ++ [Event.SetMediaItems lowerPvrName "missing" missingRecords]
      match db.SetMediaItems st.db lowerPvrName "missing" missingRecords with
      | (some err, s) =>
        (some (Exit.fatal "Failed stashing media items in database" (some err)),
          ⟨s, p, st.clock, events⟩)
      | (none, s) =>
        -- remove media no longer missing
        if existingItemsCount ≥ 1 then
          let events :=
            events ++ [Event.DeleteMissingItems lowerPvrName "missing" missingRecords]
          match db.DeleteMissingItems s lowerPvrName "missing" missingRecords with
          | ((_, some err), s2) =>
            (some (Exit.fatal
              "Failed removing media items from database that are no longer missing..."
              (some err)), ⟨s2, p, st.clock, events⟩)
          | ((_, none), s2) => (none, ⟨s2, p, st.clock, events⟩)
        else (none, ⟨s, p, st.clock, events⟩)
  else (none, ⟨st.db, st.pvr, st.clock, events⟩)

/-- The rest of `Run` after the refresh block: read the rows, search them. -/
def readAndSearch {σ π : Type} (db : Database σ) (pvr : Interface π) (clock : Nat → Time)
    (lowerPvrName : String) (st : St σ π) : RunResult σ π :=
  -- get media items from database
  let events := st.events ++ [Event.GetMediaItems lowerPvrName "missing"]
  match db.GetMediaItems st.db lowerPvrName "missing" with
  | (_, some err) =>
    ⟨Exit.fatal "Failed retrieving media items from database..." (some err),
      ⟨st.db, st.pvr, st.clock, events⟩⟩
  | (mediaItems, none) =>
    searchBatches db pvr clock lowerPvrName mediaItems [] ⟨st.db, st.pvr, st.clock, events⟩

/-- The function `Run` of `missingCmd`.  `Config` is the map of configured PVRs,
`bind` gives each client `Get` can construct its methods, and the deferred
`database.Close()` is left out. -/
def Run {σ π : Type} (printTable : Char → Bool) (lowerTable : Char → Char)
    (Config : String → Option config.Pvr) (bind : Client → Interface π) (db : Database σ)
    (clock : Nat → Time) (flagDatabaseFile : String) (flagRefreshCache : Bool)
    (pvrName : String) (st : St σ π) : RunResult σ π :=
  -- validate inputs
  match parseValidateInputs printTable lowerTable Config pvrName with
  | .error err => ⟨Exit.fatal "Failed validating inputs" (some err), st⟩
  | .ok (_, _, none) =>
    -- a method call on the nil interface
    ⟨Exit.panic, st⟩
  | .ok (lowerPvrName, _, some client) =>
    let pvr := bind client
    -- init pvr object
    let events := st.events ++ [Event.Init]
    match pvr.Init st.pvr with
    | .panic => ⟨Exit.panic, ⟨st.db, st.pvr, st.clock, events⟩⟩
    | .hang => ⟨Exit.hang, ⟨st.db, st.pvr, st.clock, events⟩⟩
    | .done (some err) p =>
      ⟨Exit.fatal ("Failed initializing pvr object for: " ++ pvrName) (some err),
        ⟨st.db, p, st.clock, events⟩⟩
    | .done none p =>
      -- load database
      let events := events ++ [Event.databaseInit flagDatabaseFile]
      match db.Init st.db flagDatabaseFile with
      | (some err, s) =>
        ⟨Exit.fatal "Failed opening database file" (some err), ⟨s, p, st.clock, events⟩⟩
      | (none, s) =>
        match refreshCache db pvr flagRefreshCache lowerPvrName ⟨s, p, st.clock, events⟩ with
        | (some exit, st1) => ⟨exit, st1⟩
        | (none, st1) => readAndSearch db pvr clock lowerPvrName st1

/-! ### A client over the request history -/

/-- The oracles of the endpoints a paginated adapter talks to. -/
structure Servers (ρ : Type) where
  status : Oracle SystemStatus
  queue : Oracle Queue
  wanted : Oracle (Wanted ρ)
  command : Oracle CommandResponse
  commandStatus : Oracle CommandStatus

/-- A fuelled result as a call: out of fuel is a call that never returns. -/
def Call.ofOption {α π : Type} : Option (α × π) → Call α π
  | some (a, p) => Call.done a p
  | none => Call.hang

/-- The method set of `*SonarrV4` as an `Interface` over the request history,
with `fuel` for each of its loops. -/
def SonarrV4.client (table : Char → Bool) (s : Servers SonarrV4Episode) (fuel : Nat) :
    Interface (List Request) where
  Init := fun hist =>
    match SonarrV4.Init s.status hist with
    | (Outcome.returned err, hist1) => Call.done err hist1
    | (Outcome.panicked, _) => Call.panic
  GetQueueSize := fun hist =>
    Call.done (SonarrV4.GetQueueSize s.queue hist).1 (SonarrV4.GetQueueSize s.queue hist).2
  GetWantedMissing := fun hist => Call.ofOption (SonarrV4.GetWantedMissing s.wanted fuel hist)
  GetWantedCutoff := fun hist => Call.ofOption (SonarrV4.GetWantedCutoff s.wanted fuel hist)
  SearchMediaItems := fun hist ids =>
    Call.ofOption (SonarrV4.SearchMediaItems table s.command s.commandStatus ids fuel hist)

/-! ### The cache -/

/-- Modelled from the spec: the state of the local cache of package `database`,
which is not under `src/`: per pair of PVR name and list kind an ordered
collection of media items. -/
abbrev Cache := String → String → List MediaItem

/-- Modelled from the spec: writing one partition of the cache. -/
def Cache.setPartition (c : Cache) (pvr wantedType : String) (part : List MediaItem) : Cache :=
  fun p k => if p = pvr ∧ k = wantedType then part else c p k

/-- Modelled from the spec: the operations of package `database` as the
specification words them: bulk read ("get all items for key"), bulk overwrite
(a write replaces the partition wholesale by the items given: "full-list
replacement per fetch, not merge") and delete by absence (the cached items whose
id is not among the given ones are removed and their number is reported). -/
def specDatabase : Database Cache where
  Init := fun c _ => (none, c)
  GetItemsCount := fun c pvr wantedType => ((c pvr wantedType).length : Int)
  SetMediaItems := fun c pvr wantedType items => (none, c.setPartition pvr wantedType items)
  DeleteMissingItems := fun c pvr wantedType items =>
    let kept := (c pvr wantedType).filter (fun x => items.any (fun y => y.ItemId == x.ItemId))
    (((((c pvr wantedType).length - kept.length : Nat) : Int), none),
      c.setPartition pvr wantedType kept)
  GetMediaItems := fun c pvr wantedType =>
    ((c pvr wantedType).map (fun x => ⟨x.ItemId, x.AirDateUtc⟩), none)

/-! ## Vocabulary of the driver statements -/

/-- The item the search loop makes of a cached row. -/
def toSearchItem (item : database.MediaItem) : MediaItem :=
  ⟨item.Id, item.AirDateUtc, Time.zero⟩

/-- Items with their `LastSearch` set to `t`. -/
def stamp (t : Time) (items : List MediaItem) : List MediaItem :=
  items.map (fun x => { x with LastSearch := t })

/-- Batch number `i` (from 0) of the rows read from the cache: the rows at the
positions `10 i .. 10 i + 9`. -/
def batch (mediaItems : List database.MediaItem) (i : Nat) : List database.MediaItem :=
  (mediaItems.drop (batchSize * i)).take batchSize

/-- The events of one batch that is searched and written back: the clock
reading `t`, the search for the ids of the batch, the write of its items stamped
with `t`. -/
def batchEvents (lowerPvrName : String) (t : Time) (b : List database.MediaItem) :
    List Event :=
  [Event.Now t, Event.SearchMediaItems (b.map database.MediaItem.Id),
    Event.SetMediaItems lowerPvrName "missing" (stamp t (b.map toSearchItem))]

/-- The events of the batches `0 .. m - 1`, all searched and written back, when
`k` clock readings were taken before. -/
def batchesEvents (lowerPvrName : String) (clock : Nat → Time) (k : Nat)
    (mediaItems : List database.MediaItem) (m : Nat) : List Event :=
  (List.range m).flatMap (fun i => batchEvents lowerPvrName (clock (k + i)) (batch mediaItems i))

/-- The id lists of the searches among some events. -/
def searchCalls (events : List Event) : List (List Int) :=
  events.filterMap (fun e => match e with
    | Event.SearchMediaItems ids => some ids
    | _ => none)

/-- The item lists of the cache writes among some events. -/
def cacheWrites (events : List Event) : List (List MediaItem) :=
  events.filterMap (fun e => match e with
    | Event.SetMediaItems _ _ items => some items
    | _ => none)

/-- The batches `0 .. m - 1` go through: from the client states `ps` and the
cache states `ss`, the search of batch `i` returns `(true, nil)` and the write of
its stamped items returns no error. -/
def BatchesSucceed {σ π : Type} (db : Database σ) (pvr : Interface π) (clock : Nat → Time)
    (lowerPvrName : String) (mediaItems : List database.MediaItem) (k : Nat)
    (ps : Nat → π) (ss : Nat → σ) (m : Nat) : Prop :=
  ∀ i, i < m →
    pvr.SearchMediaItems (ps i) ((batch mediaItems i).map database.MediaItem.Id)
      = Call.done (true, none) (ps (i + 1))
    ∧ db.SetMediaItems (ss i) lowerPvrName "missing"
        (stamp (clock (k + i)) ((batch mediaItems i).map toSearchItem)) = (none, ss (i + 1))

/-- A client whose every search is accepted and completes; its state counts the
searches. -/
def alwaysFound : Interface Nat where
  Init := fun p => Call.done none p
  GetQueueSize := fun p => Call.done (0, none) p
  GetWantedMissing := fun p => Call.done ([], none) p
  GetWantedCutoff := fun p => Call.done ([], none) p
  SearchMediaItems := fun p _ => Call.done (true, none) (p + 1)

/-- A client whose searches complete until `good` of them have, and fail with
the error `indexer down` from then on. -/
def failsAfter (good : Nat) : Interface Nat where
  Init := fun p => Call.done none p
  GetQueueSize := fun p => Call.done (0, none) p
  GetWantedMissing := fun p => Call.done ([], none) p
  GetWantedCutoff := fun p => Call.done ([], none) p
  SearchMediaItems := fun p _ =>
    if p < good then Call.done (true, none) (p + 1)
    else Call.done (false, some "indexer down") (p + 1)

/-- A cache that accepts every write and counts them; it holds no rows. -/
def countingDb : Database Nat where
  Init := fun s _ => (none, s)
  GetItemsCount := fun _ _ _ => 0
  SetMediaItems := fun s _ _ _ => (none, s + 1)
  DeleteMissingItems := fun s _ _ _ => ((0, none), s)
  GetMediaItems := fun _ _ _ => ([], none)

/-- Rows with the ids `100, 101, ...`, `n` of them. -/
def rows (n : Nat) : List database.MediaItem :=
  (List.range n).map (fun i => ⟨((100 + i : Nat) : Int), Time.zero⟩)

/-- A clock that reads second `1000 + k` at its reading number `k`. -/
def tick (k : Nat) : Time := ⟨((1000 + k : Nat) : Int), 0⟩

/-- A configuration with the single PVR `tv`, a Sonarr of type `sonarr_v4`. -/
def tvConfig : String → Option config.Pvr := fun name =>
  if name = "tv" then some (sampleConfig "sonarr_v4") else none

/-- The oracles of a Sonarr server that reports version `v`, has an empty queue,
lists three wanted episodes and completes every command at its first poll. -/
def sonarrServers (v : String) : Servers SonarrV4Episode :=
  ⟨versionServer v, queueServer 0, threeEpisodes, acceptAs 42, scripted [("completed", "")]⟩

/-- Every client `Get` constructs behaves as the Sonarr v4 adapter against a
server of version `v`. -/
def bindSonarr (v : String) : Client → Interface (List Request) := fun _ =>
  SonarrV4.client (fun _ => false) (sonarrServers v) 5

/-- A client whose wanted-missing list is `items`. -/
def lists (items : List MediaItem) : Interface Nat where
  Init := fun p => Call.done none p
  GetQueueSize := fun p => Call.done (0, none) p
  GetWantedMissing := fun p => Call.done (items, none) (p + 1)
  GetWantedCutoff := fun p => Call.done ([], none) p
  SearchMediaItems := fun p _ => Call.done (true, none) p

/-- Media items with the given ids. -/
def itemsWithIds (ids : List Int) : List MediaItem :=
  ids.map (fun id => ⟨id, Time.zero, Time.zero⟩)

/-- A cache whose partition of `tv` and `missing` holds items with the given
ids and whose other partitions are empty. -/
def cacheWithIds (ids : List Int) : Cache := fun p k =>
  if p = "tv" ∧ k = "missing" then itemsWithIds ids else []

/-- A movie whose only claim to the cutoff list is its cutoff-unmet flag: it is
not monitored, has no file and is not released. -/
def flaggedMovie : RadarrV5Movie :=
  ⟨4, ⟨63000000000, 0⟩, Time.zero, Time.zero, "announced", false, false, ⟨true⟩⟩

/-- A Radarr server listing the idle movie and the flagged movie. -/
def flaggedServer : Oracle (List RadarrV5Movie) := fun _ _ =>
  .ok ⟨200, "200 OK", .ok [idleMovie, flaggedMovie]⟩

/-- A Sonarr server that serves one full page and answers every later request
with status 500. -/
def fullThenBroken : Oracle (Wanted SonarrV4Episode) := fun hist _ =>
  if hist.length = 0 then pageReply (episodesFrom 0 pvrDefaultPageSize)
  else .ok ⟨500, "500 Internal Server Error", .ok ⟨0, 0, "", "", 0, []⟩⟩

/-- An oracle that answers by position only: its reply depends on how many
requests were issued before and on nothing else, as a scripted sequence of
responses does. -/
def IndexScripted {α : Type} (o : Oracle α) : Prop :=
  ∀ (h h1 : List Request) (r r1 : Request), h.length = h1.length → o h r = o h1 r1

/-- What a search came to: the boolean, whether an error came with it, and
the number of requests in the history when it returned. -/
def outcome (res : Option ((Bool × Option String) × List Request)) :
    Option (Bool × Bool × Nat) :=
  res.map (fun x => (x.1.1, x.1.2.isSome, x.2.length))

/-- A status oracle that reports "queued" for ever. -/
def alwaysQueued : Oracle CommandStatus := fun _ _ =>
  .ok ⟨200, "200 OK", .ok ⟨"", "", Time.zero, Time.zero, "queued"⟩⟩

/-- The flags of the command `missing` as `init` binds them: `--queue-size` to
the variable `maxQueueSize`, 5 when the flag is absent, and `--refresh-cache` to
`flagRefreshCache`, false when it is absent. -/
structure Flags where
  maxQueueSize : Int := 5
  flagRefreshCache : Bool := false
deriving DecidableEq, Repr

/-- The command `missing` on its flags: it is its function `Run`, in which
`maxQueueSize` does not occur. -/
def missingCmd {σ π : Type} (flags : Flags) (printTable : Char → Bool)
    (lowerTable : Char → Char) (Config : String → Option config.Pvr)
    (bind : Client → Interface π) (db : Database σ) (clock : Nat → Time)
    (flagDatabaseFile : String) (pvrName : String) (st : St σ π) : RunResult σ π :=
  Run printTable lowerTable Config bind db clock flagDatabaseFile flags.flagRefreshCache
    pvrName st

/-- Two clients that differ at most in what `GetQueueSize` does. -/
def SameButQueue {π : Type} (a b : Interface π) : Prop :=
  a.Init = b.Init ∧ a.GetWantedMissing = b.GetWantedMissing
    ∧ a.GetWantedCutoff = b.GetWantedCutoff ∧ a.SearchMediaItems = b.SearchMediaItems

/-- The oracles of a Sonarr server of version `4.0.0` whose queue holds `n`
records, that lists three wanted episodes and completes every command at its
first poll. -/
def queueServers (n : Int) : Servers SonarrV4Episode :=
  ⟨versionServer "4.0.0", queueServer n, threeEpisodes, acceptAs 42,
    scripted [("completed", "")]⟩

/-- Every client `Get` constructs behaves as the Sonarr v4 adapter against a
server whose queue holds `n` records. -/
def bindQueue (n : Int) : Client → Interface (List Request) := fun _ =>
  SonarrV4.client (fun _ => false) (queueServers n) 5

/-! ### Calendar dates as the specification words them

A second account of "midnight UTC of a calendar date", written from the
calendar itself and not from the arithmetic of `dateUTC`: the days are counted
year by year and month by month. -/

/-- A leap year of the Gregorian calendar: divisible by 4 and not by 100, or
divisible by 400. -/
def leapYear (y : Nat) : Bool := (y % 4 == 0 && y % 100 != 0) || y % 400 == 0

/-- The number of days of the year `y`. -/
def yearLength (y : Nat) : Nat := if leapYear y then 366 else 365

/-- The number of days of month `m` of the year `y`; 0 when there is no such
month. -/
def monthLength (y m : Nat) : Nat :=
  match m with
  | 1 => 31
  | 2 => if leapYear y then 29 else 28
  | 3 => 31
  | 4 => 30
  | 5 => 31
  | 6 => 30
  | 7 => 31
  | 8 => 31
  | 9 => 30
  | 10 => 31
  | 11 => 30
  | 12 => 31
  | _ => 0

/-- The days from 1 January of the year 1 to 1 January of the year `y`, counted
year by year; the year 0 is the leap year before the year 1. -/
def startOfYear : Nat → Int
  | 0 => -366
  | y + 1 => startOfYear y + (yearLength y : Int)

/-- The days from 1 January of the year `y` to the first of its month `m`: the
lengths of the months before `m`. -/
def startOfMonth (y m : Nat) : Nat :=
  ((List.range (m - 1)).map (fun i => monthLength y (i + 1))).sum

/-- Midnight UTC of the calendar date `y`-`m`-`d` as a `Time`: the seconds of
the whole days since midnight of 1 January of the year 1. -/
def midnightUTC (y m d : Nat) : Time :=
  ⟨86400 * (startOfYear y + (startOfMonth y m : Int) + ((d - 1 : Nat) : Int)), 0⟩

/-- A date of the calendar that a bare date string can name: a year of at
most four digits, a month of the year and a day of that month. -/
def ValidDate (y m d : Nat) : Prop :=
  y ≤ 9999 ∧ 1 ≤ m ∧ m ≤ 12 ∧ 1 ≤ d ∧ d ≤ monthLength y m

/-- The decimal digit for the last digit of `n`. -/
def digitChar (n : Nat) : Char := Char.ofNat (48 + n % 10)

/-- The bare date string `YYYY-MM-DD` of a date: year, month and day in
decimal, padded with zeros to four, two and two digits, with hyphens between. -/
def renderDate (y m d : Nat) : String :=
  String.mk [digitChar (y / 1000), digitChar (y / 100), digitChar (y / 10), digitChar y,
    Char.ofNat 45, digitChar (m / 10), digitChar m, Char.ofNat 45, digitChar (d / 10),
    digitChar d]

/-- A well-formed bare date string: the string `YYYY-MM-DD` of a date of the
calendar. -/
def WellFormedDate (s : String) : Prop :=
  ∃ y m d, ValidDate y m d ∧ s = renderDate y m d

/-- A Whisparr server whose only page holds four records: one with a bare
date, one without a date, one with a full timestamp and one with other text. -/
def fourReleases : Oracle (Wanted WhisparrV2Episode) := fun _ _ =>
  pageReply [⟨1, "2024-02-29", true⟩, ⟨2, "", true⟩, ⟨3, "2024-02-29T00:00:00Z", true⟩,
    ⟨4, "soon", true⟩]

/-- A cache that refuses every write with the error `disk full`; it holds no
rows. -/
def refusingDb : Database Nat where
  Init := fun s _ => (none, s)
  GetItemsCount := fun _ _ _ => 0
  SetMediaItems := fun s _ _ _ => (some "disk full", s)
  DeleteMissingItems := fun s _ _ _ => ((0, none), s)
  GetMediaItems := fun _ _ _ => ([], none)

/-- Dispatch to `GetQueueSize` of a paginated adapter. -/
def PagedAdapter.GetQueueSize : PagedAdapter → Oracle Queue → List Request →
    (Int × Option String) × List Request
  | .sonarrV4 => SonarrV4.GetQueueSize
  | .lidarrV2 => LidarrV2.GetQueueSize
  | .readarrV0 => ReadarrV0.GetQueueSize
  | .whisparrV2 => WhisparrV2.GetQueueSize

/-! ## The paginated loop -/

theorem wantedLoop_stop {ρ : Type} (srv : Oracle (Wanted ρ)) (path : String)
    (errs : WantedErrors) (store : ρ → MediaItem) (fuel page last : Nat)
    (wanted : List MediaItem) (hist : List Request) (h : last < pvrDefaultPageSize) :
    wantedLoop srv path errs store fuel page last wanted hist = some ((wanted, none), hist) := by
  cases fuel <;> simp [wantedLoop, h]

theorem wantedLoop_step {ρ : Type} (srv : Oracle (Wanted ρ)) (path : String)
    (errs : WantedErrors) (store : ρ → MediaItem) (fuel page last : Nat)
    (wanted : List MediaItem) (hist : List Request) (recs : List ρ)
    (h : pvrDefaultPageSize ≤ last)
    (hp : pageOf (srv hist (pageRequest path page)) = some recs) :
    wantedLoop srv path errs store (fuel + 1) page last wanted hist
      = wantedLoop srv path errs store fuel (page + 1) recs.length
          (wanted ++ recs.map store) (hist ++ [pageRequest path page]) := by
  have hlt : ¬ last < pvrDefaultPageSize := Nat.not_lt.mpr h
  cases hr : srv hist (pageRequest path page) with
  | error e => simp [pageOf, hr] at hp
  | ok resp =>
    rw [hr] at hp
    simp only [pageOf] at hp
    by_cases hc : resp.StatusCode = 200
    · rw [if_pos hc] at hp
      cases hj : resp.json with
      | error e => simp [hj] at hp
      | ok m =>
        simp only [hj, Option.some.injEq] at hp
        subst hp
        unfold pageRequest at hr
        simp [wantedLoop, hlt, hr, hc, hj, pageRequest]
    · simp [hc] at hp

theorem pageRequests_succ (path : String) (first n : Nat) :
    pageRequests path first (n + 1)
      = pageRequest path first :: pageRequests path (first + 1) n := by
  unfold pageRequests
  rw [List.range_succ_eq_map]
  simp only [List.map_cons, List.map_map, Nat.add_zero, List.cons.injEq, true_and]
  apply List.map_congr_left
  intro j _
  show pageRequest path (first + (j + 1)) = pageRequest path (first + 1 + j)
  congr 1
  omega

theorem pageRequests_zero (path : String) (first : Nat) : pageRequests path first 0 = [] := rfl

theorem pageRequests_length (path : String) (first n : Nat) :
    (pageRequests path first n).length = n := by
  simp [pageRequests]

/-- Forward run of the loop: `n` pages of at least the page size, then a short
page, with enough fuel. -/
theorem wantedLoop_run {ρ : Type} (srv : Oracle (Wanted ρ)) (path : String)
    (errs : WantedErrors) (store : ρ → MediaItem) (n : Nat) :
    ∀ (fuel page last : Nat) (wanted : List MediaItem) (hist : List Request)
      (pages : Nat → List ρ),
      pvrDefaultPageSize ≤ last →
      (∀ i, i ≤ n → pageOf (srv (hist ++ pageRequests path page i)
          (pageRequest path (page + i))) = some (pages i)) →
      (∀ i, i < n → pvrDefaultPageSize ≤ (pages i).length) →
      (pages n).length < pvrDefaultPageSize →
      n + 1 ≤ fuel →
      wantedLoop srv path errs store fuel page last wanted hist
        = some ((wanted ++ (List.range (n + 1)).flatMap (fun i => (pages i).map store), none),
            hist ++ pageRequests path page (n + 1)) := by
  induction n with
  | zero =>
    intro fuel page last wanted hist pages hl hs _ hshort hf
    obtain ⟨f, rfl⟩ : ∃ f, fuel = f + 1 := ⟨fuel - 1, by omega⟩
    have h0 := hs 0 (Nat.le_refl 0)
    simp only [pageRequests_zero, List.append_nil, Nat.add_zero] at h0
    rw [wantedLoop_step srv path errs store f page last wanted hist (pages 0) hl h0]
    rw [wantedLoop_stop _ _ _ _ _ _ _ _ _ hshort]
    simp [pageRequests, List.range_succ]
  | succ n ih =>
    intro fuel page last wanted hist pages hl hs hfull hshort hf
    obtain ⟨f, rfl⟩ : ∃ f, fuel = f + 1 := ⟨fuel - 1, by omega⟩
    have h0 := hs 0 (Nat.zero_le _)
    simp only [pageRequests_zero, List.append_nil, Nat.add_zero] at h0
    rw [wantedLoop_step srv path errs store f page last wanted hist (pages 0) hl h0]
    rw [ih f (page + 1) (pages 0).length (wanted ++ (pages 0).map store)
      (hist ++ [pageRequest path page]) (fun i => pages (i + 1))
      (hfull 0 (Nat.succ_pos _))
      (by
        intro i hi
        have h := hs (i + 1) (by omega)
        rw [pageRequests_succ] at h
        have e : page + 1 + i = page + (i + 1) := by omega
        rw [e]
        simpa [List.append_assoc] using h)
      (fun i hi => hfull (i + 1) (by omega))
      hshort (by omega)]
    rw [pageRequests_succ path page (n + 1)]
    rw [List.range_succ_eq_map (n + 1)]
    simp [List.flatMap_cons, List.flatMap_map, List.append_assoc, Function.comp]

/-- Backward reading of the loop: a return without error went through a list
of accepted pages, requested one after the other, and stored one item per
record in that order. -/
theorem wantedLoop_sound {ρ : Type} (srv : Oracle (Wanted ρ)) (path : String)
    (errs : WantedErrors) (store : ρ → MediaItem) (fuel : Nat) :
    ∀ (page last : Nat) (wanted : List MediaItem) (hist : List Request)
      (items : List MediaItem) (hist1 : List Request),
      wantedLoop srv path errs store fuel page last wanted hist = some ((items, none), hist1) →
      ∃ pgs : List (List ρ),
        hist1 = hist ++ pageRequests path page pgs.length
        ∧ (∀ j, j < pgs.length →
            pageOf (srv (hist ++ pageRequests path page j) (pageRequest path (page + j)))
              = pgs[j]?)
        ∧ items = wanted ++ pgs.flatten.map store := by
  induction fuel with
  | zero =>
    intro page last wanted hist items hist1 h
    by_cases hl : last < pvrDefaultPageSize
    · simp only [wantedLoop, hl, if_true, Option.some.injEq, Prod.mk.injEq, and_true] at h
      refine ⟨[], ?_, ?_, ?_⟩
      · simp [pageRequests_zero, h.2]
      · intro j hj
        simp at hj
      · simp [h.1]
    · simp [wantedLoop, hl] at h
  | succ fuel ih =>
    intro page last wanted hist items hist1 h
    by_cases hl : last < pvrDefaultPageSize
    · simp only [wantedLoop, hl, if_true, Option.some.injEq, Prod.mk.injEq, and_true] at h
      refine ⟨[], ?_, ?_, ?_⟩
      · simp [pageRequests_zero, h.2]
      · intro j hj
        simp at hj
      · simp [h.1]
    · cases hr : srv hist (pageRequest path page) with
      | error e =>
        unfold pageRequest at hr
        simp [wantedLoop, hl, hr] at h
      | ok resp =>
        by_cases hc : resp.StatusCode = 200
        · cases hj : resp.json with
          | error e =>
            unfold pageRequest at hr
            simp [wantedLoop, hl, hr, hc, hj] at h
          | ok m =>
            have hp : pageOf (srv hist (pageRequest path page)) = some m.Records := by
              simp [pageOf, hr, hc, hj]
            rw [wantedLoop_step srv path errs store fuel page last wanted hist m.Records
              (Nat.not_lt.mp hl) hp] at h
            obtain ⟨pgs, h1, h2, h3⟩ := ih _ _ _ _ _ _ h
            refine ⟨m.Records :: pgs, ?_, ?_, ?_⟩
            · rw [h1, List.length_cons, pageRequests_succ]
              simp [List.append_assoc]
            · intro j hj2
              cases j with
              | zero => simpa [pageRequests_zero] using hp
              | succ j =>
                have := h2 j (by simpa using hj2)
                rw [pageRequests_succ]
                have e : page + (j + 1) = page + 1 + j := by omega
                rw [e]
                simpa [List.append_assoc] using this
            · rw [h3]
              simp [List.append_assoc]
        · unfold pageRequest at hr
          simp [wantedLoop, hl, hr, hc] at h

theorem GetWanted_loop (a : PagedAdapter) (kind : ListKind) :
    ∃ (errs : WantedErrors) (store : a.Record → MediaItem),
      (∀ r, (store r).ItemId = a.recordId r)
      ∧ ∀ srv fuel hist, a.GetWanted kind srv fuel hist
          = wantedLoop srv kind.path errs store fuel 1 pvrDefaultPageSize [] hist := by
  cases a <;> cases kind <;> exact ⟨_, _, fun _ => rfl, fun _ _ _ => rfl⟩

theorem length_flatMap_range {α : Type} (f : Nat → List α) (c k : Nat)
    (h : ∀ i, i < k → (f i).length = c) : ((List.range k).flatMap f).length = k * c := by
  induction k with
  | zero => simp
  | succ k ih =>
    rw [List.range_succ, List.flatMap_append, List.length_append,
      ih (fun i hi => h i (Nat.lt_succ_of_lt hi))]
    simp [h k (Nat.lt_succ_self k), Nat.succ_mul]

theorem flatMap_map_range {α β : Type} (f : Nat → List α) (g : α → β) (k : Nat) :
    (List.range k).flatMap (fun i => (f i).map g) = ((List.range k).flatMap f).map g := by
  induction k with
  | zero => simp
  | succ k ih => simp [List.range_succ, List.flatMap_append, ih]

/-! ## Paginated fetch -/

/-- C1: when the server answers the requests for pages 1..k with exactly
`pvrDefaultPageSize` records each and the request for page k+1 with zero
records, every paginated `GetWantedMissing` / `GetWantedCutoff` returns, given
fuel for k+1 iterations, without error after exactly the k+1 requests for pages
1..k+1, with exactly `k * pvrDefaultPageSize` items; if the served record ids
are pairwise distinct, so are the item ids. -/
theorem C1_exact_multiple_of_page_size (a : PagedAdapter) (kind : ListKind)
    (srv : Oracle (Wanted a.Record)) (hist : List Request) (k : Nat)
    (pages : Nat → List a.Record)
    (hfull : ∀ i, i < k →
      pageOf (srv (hist ++ pageRequests kind.path 1 i) (pageRequest kind.path (1 + i)))
        = some (pages i) ∧ (pages i).length = pvrDefaultPageSize)
    (hlast : pageOf (srv (hist ++ pageRequests kind.path 1 k) (pageRequest kind.path (1 + k)))
      = some [])
    (fuel : Nat) (hfuel : k + 1 ≤ fuel) :
    ∃ items, a.GetWanted kind srv fuel hist
        = some ((items, none), hist ++ pageRequests kind.path 1 (k + 1))
      ∧ (pageRequests kind.path 1 (k + 1)).length = k + 1
      ∧ items.length = k * pvrDefaultPageSize
      ∧ ((((List.range k).flatMap pages).map a.recordId).Nodup →
          (items.map MediaItem.ItemId).Nodup) := by
  obtain ⟨errs, store, hid, hloop⟩ := GetWanted_loop a kind
  have hrun := wantedLoop_run srv kind.path errs store k fuel 1 pvrDefaultPageSize [] hist
    (fun i => if i < k then pages i else []) (Nat.le_refl _)
    (by
      intro i hi
      by_cases hik : i < k
      · simpa [hik] using (hfull i hik).1
      · have e : i = k := by omega
        subst e
        simpa using hlast)
    (by
      intro i hi
      simp only [hi, if_true]
      exact Nat.le_of_eq (hfull i hi).2.symm)
    (by simp [pvrDefaultPageSize])
    hfuel
  have hitems : (List.range (k + 1)).flatMap
      (fun i => (if i < k then pages i else []).map store)
      = ((List.range k).flatMap pages).map store := by
    rw [List.range_succ, List.flatMap_append]
    simp only [List.flatMap_cons, List.flatMap_nil, Nat.lt_irrefl, if_false, List.map_nil,
      List.append_nil]
    rw [← flatMap_map_range]
    apply List.flatMap_congr
    intro i hi
    simp [List.mem_range.mp hi]
  rw [hitems, List.nil_append] at hrun
  refine ⟨_, (hloop srv fuel hist).trans hrun, pageRequests_length _ _ _, ?_, ?_⟩
  · rw [List.length_map]
    exact length_flatMap_range pages _ k (fun i hi => (hfull i hi).2)
  · intro hnd
    rw [List.map_map]
    have e : MediaItem.ItemId ∘ store = a.recordId := funext hid
    rw [e]
    exact hnd

/-- Witness of C1: a Sonarr server with exactly one full page. -/
theorem C1_exact_multiple_of_page_size_witness :
    ∃ items, PagedAdapter.sonarrV4.GetWanted .missing fullThenEmpty 2 []
        = some ((items, none), [] ++ pageRequests ListKind.missing.path 1 (1 + 1))
      ∧ (pageRequests ListKind.missing.path 1 (1 + 1)).length = 1 + 1
      ∧ items.length = 1 * pvrDefaultPageSize
      ∧ ((((List.range 1).flatMap (fun _ => episodesFrom 0 pvrDefaultPageSize)).map
            (PagedAdapter.recordId .sonarrV4)).Nodup →
          (items.map MediaItem.ItemId).Nodup) :=
  C1_exact_multiple_of_page_size .sonarrV4 .missing fullThenEmpty [] 1
    (fun _ => episodesFrom 0 pvrDefaultPageSize)
    (by
      intro i hi
      obtain rfl : i = 0 := by omega
      exact ⟨by simp [fullThenEmpty, pageReply, pageOf, pageRequests],
        by simp [episodesFrom]⟩)
    (by simp [fullThenEmpty, pageReply, pageOf, pageRequests]) 2 (by decide)

/-- C2: when the requests for pages 1..n are answered with at least
`pvrDefaultPageSize` records each and the request for page n+1 with fewer,
every paginated fetch returns, given fuel for n+1 iterations, right after that
page: the requests issued are exactly those for pages 1..n+1 (each full page
is followed by the request for the next page, the short page by none) and the
short page's records close the result. -/
theorem C2_stops_after_first_short_page (a : PagedAdapter) (kind : ListKind)
    (srv : Oracle (Wanted a.Record)) (hist : List Request) (n : Nat)
    (pages : Nat → List a.Record)
    (hserved : ∀ i, i ≤ n →
      pageOf (srv (hist ++ pageRequests kind.path 1 i) (pageRequest kind.path (1 + i)))
        = some (pages i))
    (hfull : ∀ i, i < n → pvrDefaultPageSize ≤ (pages i).length)
    (hshort : (pages n).length < pvrDefaultPageSize)
    (fuel : Nat) (hfuel : n + 1 ≤ fuel) :
    ∃ items, a.GetWanted kind srv fuel hist
        = some ((items, none), hist ++ pageRequests kind.path 1 (n + 1))
      ∧ (pageRequests kind.path 1 (n + 1)).length = n + 1
      ∧ items.map MediaItem.ItemId
          = ((List.range n).flatMap pages ++ pages n).map a.recordId := by
  obtain ⟨errs, store, hid, hloop⟩ := GetWanted_loop a kind
  have hrun := wantedLoop_run srv kind.path errs store n fuel 1 pvrDefaultPageSize [] hist
    pages (Nat.le_refl _) hserved hfull hshort hfuel
  refine ⟨_, (hloop srv fuel hist).trans hrun, pageRequests_length _ _ _, ?_⟩
  have e : MediaItem.ItemId ∘ store = a.recordId := funext hid
  rw [List.nil_append, flatMap_map_range, List.map_map, e, List.range_succ,
    List.flatMap_append]
  simp

/-- Witness of C2: a Sonarr server whose first page holds three episodes. -/
theorem C2_stops_after_first_short_page_witness :
    ∃ items, PagedAdapter.sonarrV4.GetWanted .missing threeEpisodes 1 []
        = some ((items, none), [] ++ pageRequests ListKind.missing.path 1 (0 + 1))
      ∧ (pageRequests ListKind.missing.path 1 (0 + 1)).length = 0 + 1
      ∧ items.map MediaItem.ItemId
          = ((List.range 0).flatMap (fun _ => episodesFrom 7 3) ++ episodesFrom 7 3).map
              (PagedAdapter.recordId .sonarrV4) :=
  C2_stops_after_first_short_page .sonarrV4 .missing threeEpisodes [] 0
    (fun _ => episodesFrom 7 3)
    (by
      intro i hi
      obtain rfl : i = 0 := by omega
      rfl)
    (by intro i hi; omega)
    (by decide) 1 (by decide)

/-- C3: whenever a paginated fetch returns without error, it went through a
list of accepted pages requested in the order page 1, 2, 3, ..., and the item
ids it returns are the record ids of those pages concatenated in that order,
one item per record. -/
theorem C3_items_in_server_order (a : PagedAdapter) (kind : ListKind)
    (srv : Oracle (Wanted a.Record)) (fuel : Nat) (hist : List Request)
    (items : List MediaItem) (hist1 : List Request)
    (h : a.GetWanted kind srv fuel hist = some ((items, none), hist1)) :
    ∃ pgs : List (List a.Record),
      hist1 = hist ++ pageRequests kind.path 1 pgs.length
      ∧ (∀ j, j < pgs.length →
          pageOf (srv (hist ++ pageRequests kind.path 1 j) (pageRequest kind.path (1 + j)))
            = pgs[j]?)
      ∧ items.map MediaItem.ItemId = pgs.flatten.map a.recordId
      ∧ items.length = pgs.flatten.length := by
  obtain ⟨errs, store, hid, hloop⟩ := GetWanted_loop a kind
  rw [hloop] at h
  obtain ⟨pgs, h1, h2, h3⟩ := wantedLoop_sound srv kind.path errs store fuel _ _ _ _ _ _ h
  refine ⟨pgs, h1, h2, ?_, ?_⟩
  · have e : MediaItem.ItemId ∘ store = a.recordId := funext hid
    rw [h3, List.nil_append, List.map_map, e]
  · rw [h3, List.nil_append, List.length_map]

/-- Witness of C3: the cutoff list of a Sonarr server with three episodes. -/
theorem C3_items_in_server_order_witness :
    ∃ pgs : List (List SonarrV4Episode),
      [pageRequest "/wanted/cutoff" 1] = [] ++ pageRequests ListKind.cutoff.path 1 pgs.length
      ∧ (∀ j, j < pgs.length →
          pageOf (threeEpisodes ([] ++ pageRequests ListKind.cutoff.path 1 j)
            (pageRequest ListKind.cutoff.path (1 + j))) = pgs[j]?)
      ∧ [(⟨7, Time.zero, Time.zero⟩ : MediaItem), ⟨8, Time.zero, Time.zero⟩,
            ⟨9, Time.zero, Time.zero⟩].map MediaItem.ItemId
          = pgs.flatten.map (PagedAdapter.recordId .sonarrV4)
      ∧ [(⟨7, Time.zero, Time.zero⟩ : MediaItem), ⟨8, Time.zero, Time.zero⟩,
            ⟨9, Time.zero, Time.zero⟩].length = pgs.flatten.length :=
  C3_items_in_server_order .sonarrV4 .cutoff threeEpisodes 1 [] _ _ rfl

/-! ## Radarr -/

theorem foldl_missingStep (records : List RadarrV5Movie) :
    ∀ acc : List MediaItem, records.foldl RadarrV5.missingStep acc
      = acc ++ (records.filter (fun m => m.Monitored && m.Status == "released" && !m.HasFile)).map
          RadarrV5.store := by
  induction records with
  | nil => intro acc; simp
  | cons m rest ih =>
    intro acc
    rw [List.foldl_cons, ih]
    by_cases h1 : m.Monitored = true <;> by_cases h2 : m.Status = "released" <;>
      by_cases h3 : m.HasFile = true <;>
      simp [RadarrV5.missingStep, RadarrV5.store, List.filter_cons, h1, h2, h3]

theorem foldl_cutoffStep (records : List RadarrV5Movie) :
    ∀ acc : List MediaItem, records.foldl RadarrV5.cutoffStep acc
      = acc ++ (records.filter (fun m => m.MovieFile.QualityCutoffNotMet)).map
          RadarrV5.store := by
  induction records with
  | nil => intro acc; simp
  | cons m rest ih =>
    intro acc
    rw [List.foldl_cons, ih]
    by_cases h1 : m.MovieFile.QualityCutoffNotMet = true <;>
      simp [RadarrV5.cutoffStep, RadarrV5.store, List.filter_cons, h1]

theorem GetWantedMissing_items (srv : Oracle (List RadarrV5Movie)) (hist : List Request) :
    (RadarrV5.GetWantedMissing srv hist).1.1
      = ((servedMovies (srv hist (Request.get "/movie"))).filter
          (fun m => m.Monitored && m.Status == "released" && !m.HasFile)).map RadarrV5.store := by
  cases hr : srv hist (Request.get "/movie") with
  | error e => simp [RadarrV5.GetWantedMissing, RadarrV5.fetchMovies, servedMovies, hr]
  | ok resp =>
    by_cases hc : resp.StatusCode = 200
    · cases hj : resp.json with
      | error e => simp [RadarrV5.GetWantedMissing, RadarrV5.fetchMovies, servedMovies, hr, hc, hj]
      | ok records =>
        simp [RadarrV5.GetWantedMissing, RadarrV5.fetchMovies, servedMovies, hr, hc, hj, foldl_missingStep]
    · simp [RadarrV5.GetWantedMissing, RadarrV5.fetchMovies, servedMovies, hr, hc]

theorem GetWantedCutoff_items (srv : Oracle (List RadarrV5Movie)) (hist : List Request) :
    (RadarrV5.GetWantedCutoff srv hist).1.1
      = ((servedMovies (srv hist (Request.get "/movie"))).filter
          (fun m => m.MovieFile.QualityCutoffNotMet)).map RadarrV5.store := by
  cases hr : srv hist (Request.get "/movie") with
  | error e => simp [RadarrV5.GetWantedCutoff, RadarrV5.fetchMovies, servedMovies, hr]
  | ok resp =>
    by_cases hc : resp.StatusCode = 200
    · cases hj : resp.json with
      | error e => simp [RadarrV5.GetWantedCutoff, RadarrV5.fetchMovies, servedMovies, hr, hc, hj]
      | ok records =>
        simp [RadarrV5.GetWantedCutoff, RadarrV5.fetchMovies, servedMovies, hr, hc, hj, foldl_cutoffStep]
    · simp [RadarrV5.GetWantedCutoff, RadarrV5.fetchMovies, servedMovies, hr, hc]

/-- C4: whatever the server answers, the items of `RadarrV5.GetWantedMissing`
are, in order, the items stored for a sublist of the served movie records, and
every record of that sublist is monitored, has no file and has status
"released": no item stems from a record failing one of the three tests. -/
theorem C4_missing_filter (srv : Oracle (List RadarrV5Movie)) (hist : List Request) :
    ∃ kept : List RadarrV5Movie,
      kept.Sublist (servedMovies (srv hist (Request.get "/movie")))
      ∧ (RadarrV5.GetWantedMissing srv hist).1.1 = kept.map RadarrV5.store
      ∧ ∀ m ∈ kept, m.Monitored = true ∧ m.HasFile = false ∧ m.Status = "released" := by
  refine ⟨_, List.filter_sublist _, GetWantedMissing_items srv hist, ?_⟩
  intro m hm
  have h := (List.mem_filter.mp hm).2
  simp only [Bool.and_eq_true, Bool.not_eq_true', beq_iff_eq] at h
  exact ⟨h.1.1, h.2, h.1.2⟩

/-- Witness of C4 on a server listing three movies. -/
theorem C4_missing_filter_witness :
    ∃ kept : List RadarrV5Movie,
      kept.Sublist (servedMovies (movieServer [] (Request.get "/movie")))
      ∧ (RadarrV5.GetWantedMissing movieServer []).1.1 = kept.map RadarrV5.store
      ∧ ∀ m ∈ kept, m.Monitored = true ∧ m.HasFile = false ∧ m.Status = "released" :=
  C4_missing_filter movieServer []

/-- C5: whatever the server answers, the items of `RadarrV5.GetWantedCutoff`
are, in order, the items stored for a sublist of the served movie records, and
every record of that sublist has `MovieFile.QualityCutoffNotMet` set: no item
stems from a record whose flag is false. -/
theorem C5_cutoff_filter (srv : Oracle (List RadarrV5Movie)) (hist : List Request) :
    ∃ kept : List RadarrV5Movie,
      kept.Sublist (servedMovies (srv hist (Request.get "/movie")))
      ∧ (RadarrV5.GetWantedCutoff srv hist).1.1 = kept.map RadarrV5.store
      ∧ ∀ m ∈ kept, m.MovieFile.QualityCutoffNotMet = true := by
  refine ⟨_, List.filter_sublist _, GetWantedCutoff_items srv hist, ?_⟩
  intro m hm
  exact (List.mem_filter.mp hm).2

/-- Witness of C5 on a server listing three movies. -/
theorem C5_cutoff_filter_witness :
    ∃ kept : List RadarrV5Movie,
      kept.Sublist (servedMovies (movieServer [] (Request.get "/movie")))
      ∧ (RadarrV5.GetWantedCutoff movieServer []).1.1 = kept.map RadarrV5.store
      ∧ ∀ m ∈ kept, m.MovieFile.QualityCutoffNotMet = true :=
  C5_cutoff_filter movieServer []

theorem After_eq_true_iff (t u : Time) :
    t.After u = true ↔ (u.sec < t.sec ∨ (t.sec = u.sec ∧ u.nsec < t.nsec)) := by
  simp [Time.After]

theorem After_eq_false_iff (t u : Time) :
    t.After u = false ↔ (t.sec < u.sec ∨ (t.sec = u.sec ∧ t.nsec ≤ u.nsec)) := by
  rw [← Bool.not_eq_true, After_eq_true_iff]
  omega

theorem After_self (t : Time) : t.After t = false := by
  rw [After_eq_false_iff]; omega

theorem After_false_of_true {t u : Time} (h : t.After u = true) : u.After t = false := by
  rw [After_eq_true_iff] at h
  rw [After_eq_false_iff]; omega

theorem After_false_trans {a b c : Time} (h1 : a.After b = false) (h2 : b.After c = false) :
    a.After c = false := by
  rw [After_eq_false_iff] at *
  omega

/-- One "compare and update" step of the date block. -/
theorem update_step (x cur : Time) :
    ((if !x.IsZero && x.After cur then x else cur) = cur
      ∨ ((if !x.IsZero && x.After cur then x else cur) = x ∧ x.IsZero = false))
    ∧ cur.After (if !x.IsZero && x.After cur then x else cur) = false
    ∧ (x.IsZero = false → x.After (if !x.IsZero && x.After cur then x else cur) = false) := by
  by_cases hz : x.IsZero = true
  · simp [hz, After_self]
  · have hz1 : x.IsZero = false := by simpa using hz
    by_cases ha : x.After cur = true
    · simp [hz1, ha, After_self, After_false_of_true ha]
    · have ha1 : x.After cur = false := by simpa using ha
      simp [hz1, ha1, After_self]

/-- The date block of the Radarr fetch functions yields the latest of
`inCinemas` and the non-zero ones among `digitalRelease`, `physicalRelease`. -/
theorem highestDate_isLatest (m : RadarrV5Movie) :
    IsLatestOf (RadarrV5.highestDate m) (m.AirDateUtc :: nonZero [m.DigitalUtc, m.PhysicalUtc]) := by
  obtain ⟨hp1, hp2, hp3⟩ := update_step m.PhysicalUtc m.AirDateUtc
  obtain ⟨hd1, hd2, hd3⟩ := update_step m.DigitalUtc
    (if !m.PhysicalUtc.IsZero && m.PhysicalUtc.After m.AirDateUtc then m.PhysicalUtc
      else m.AirDateUtc)
  have hmem : ∀ x, x ∈ m.AirDateUtc :: nonZero [m.DigitalUtc, m.PhysicalUtc] ↔
      x = m.AirDateUtc ∨ (x = m.DigitalUtc ∧ x.IsZero = false)
        ∨ (x = m.PhysicalUtc ∧ x.IsZero = false) := by
    intro x
    simp only [nonZero, List.mem_cons, List.mem_filter, List.not_mem_nil, or_false,
      Bool.not_eq_true']
    constructor
    · rintro (h | ⟨h | h, hz⟩)
      · exact Or.inl h
      · exact Or.inr (Or.inl ⟨h, hz⟩)
      · exact Or.inr (Or.inr ⟨h, hz⟩)
    · rintro (h | ⟨h, hz⟩ | ⟨h, hz⟩)
      · exact Or.inl h
      · exact Or.inr ⟨Or.inl h, hz⟩
      · exact Or.inr ⟨Or.inr h, hz⟩
  show IsLatestOf
    (if !m.DigitalUtc.IsZero && m.DigitalUtc.After
        (if !m.PhysicalUtc.IsZero && m.PhysicalUtc.After m.AirDateUtc then m.PhysicalUtc
          else m.AirDateUtc) then m.DigitalUtc
      else (if !m.PhysicalUtc.IsZero && m.PhysicalUtc.After m.AirDateUtc then m.PhysicalUtc
          else m.AirDateUtc)) _
  constructor
  · rw [hmem]
    rcases hd1 with h | ⟨h, hz⟩
    · rw [h]
      rcases hp1 with h2 | ⟨h2, hz2⟩
      · exact Or.inl h2
      · exact Or.inr (Or.inr ⟨h2, by rw [h2]; exact hz2⟩)
    · exact Or.inr (Or.inl ⟨h, by rw [h]; exact hz⟩)
  · intro c hc
    rw [hmem] at hc
    rcases hc with h | ⟨h, hz⟩ | ⟨h, hz⟩
    · rw [h]; exact After_false_trans hp2 hd2
    · rw [h]; rw [h] at hz; exact hd3 hz
    · rw [h]; rw [h] at hz; exact After_false_trans (hp3 hz) hd2

/-- The instants the claim takes the maximum of are, for a movie with a
non-zero `inCinemas`, the ones the date block looks at. -/
theorem nonZero_all_three (m : RadarrV5Movie) (h : m.AirDateUtc.IsZero = false) :
    nonZero [m.AirDateUtc, m.DigitalUtc, m.PhysicalUtc]
      = m.AirDateUtc :: nonZero [m.DigitalUtc, m.PhysicalUtc] := by
  simp [nonZero, List.filter_cons, h]

/-- C6, as stated, fails: the missing list and the cutoff list of a server that
lists a movie whose only release date lies one hour before the zero timestamp
carry the zero timestamp for it, which is not among the non-zero release dates
of that movie. -/
theorem C6_latest_nonzero_counterexample :
    (RadarrV5.GetWantedMissing movieServer []).1
        = ([⟨1, Time.zero, Time.zero⟩, ⟨3, ⟨63900000000, 5⟩, Time.zero⟩], none)
    ∧ (RadarrV5.GetWantedCutoff movieServer []).1
        = ([⟨1, Time.zero, Time.zero⟩, ⟨3, ⟨63900000000, 5⟩, Time.zero⟩], none)
    ∧ nonZero [earlyMovie.AirDateUtc, earlyMovie.DigitalUtc, earlyMovie.PhysicalUtc]
        = [⟨-3600, 0⟩]
    ∧ ¬ IsLatestOf Time.zero
        (nonZero [earlyMovie.AirDateUtc, earlyMovie.DigitalUtc, earlyMovie.PhysicalUtc]) := by
  refine ⟨by decide, by decide, by decide, ?_⟩
  intro h
  have h1 := h.1
  revert h1
  decide

/-- C6, amended: the date both Radarr fetch functions emit for a movie is the
latest of `inCinemas` and the non-zero ones among `digitalRelease` and
`physicalRelease`; for a movie with a non-zero `inCinemas` that is the latest of
the non-zero values of all three.  Every item of either list is such an item of
a served record. -/
theorem C6_latest_of_inCinemas_and_nonzero :
    (∀ m : RadarrV5Movie,
      (RadarrV5.store m).ItemId = m.Id
      ∧ IsLatestOf (RadarrV5.store m).AirDateUtc
          (m.AirDateUtc :: nonZero [m.DigitalUtc, m.PhysicalUtc])
      ∧ (m.AirDateUtc.IsZero = false →
          IsLatestOf (RadarrV5.store m).AirDateUtc
            (nonZero [m.AirDateUtc, m.DigitalUtc, m.PhysicalUtc])))
    ∧ (∀ (srv : Oracle (List RadarrV5Movie)) (hist : List Request),
        ∃ kept : List RadarrV5Movie,
          kept.Sublist (servedMovies (srv hist (Request.get "/movie")))
          ∧ (RadarrV5.GetWantedMissing srv hist).1.1 = kept.map RadarrV5.store)
    ∧ (∀ (srv : Oracle (List RadarrV5Movie)) (hist : List Request),
        ∃ kept : List RadarrV5Movie,
          kept.Sublist (servedMovies (srv hist (Request.get "/movie")))
          ∧ (RadarrV5.GetWantedCutoff srv hist).1.1 = kept.map RadarrV5.store) := by
  refine ⟨fun m => ⟨rfl, highestDate_isLatest m, fun h => ?_⟩, fun srv hist => ?_,
    fun srv hist => ?_⟩
  · rw [nonZero_all_three m h]
    exact highestDate_isLatest m
  · exact ⟨_, List.filter_sublist _, GetWantedMissing_items srv hist⟩
  · exact ⟨_, List.filter_sublist _, GetWantedCutoff_items srv hist⟩

/-- Witness of C6 on the movie with three release dates: the digital release
is emitted. -/
theorem C6_latest_of_inCinemas_and_nonzero_witness :
    datedMovie.AirDateUtc.IsZero = false
    ∧ (RadarrV5.store datedMovie).AirDateUtc = datedMovie.DigitalUtc
    ∧ IsLatestOf (RadarrV5.store datedMovie).AirDateUtc
        (nonZero [datedMovie.AirDateUtc, datedMovie.DigitalUtc, datedMovie.PhysicalUtc]) :=
  ⟨by decide, by decide, (C6_latest_of_inCinemas_and_nonzero.1 datedMovie).2.2 (by decide)⟩

/-! ## Command polling -/

theorem SearchMediaItems_eq (a : Adapter) (table : Char → Bool) (cmd : Oracle CommandResponse)
    (srv : Oracle CommandStatus) (ids : List Int) (fuel : Nat) (hist : List Request) :
    ∃ app name idsField,
      a.triggerRequest ids = Request.postCommand "/command" name idsField ids
      ∧ a.SearchMediaItems table cmd srv ids fuel hist
        = searchMediaItems table cmd srv app name idsField ids fuel hist := by
  cases a <;> exact ⟨_, _, _, rfl, rfl⟩

theorem getCommandStatus_snd (srv : Oracle CommandStatus) (app : String) (id : Int)
    (hist : List Request) :
    (getCommandStatus srv app id hist).2 = hist ++ [pollRequest id] := by
  unfold getCommandStatus pollRequest
  simp only []
  split
  · rfl
  · split
    · rfl
    · split <;> rfl

theorem getCommandStatus_fst (srv : Oracle CommandStatus) (app : String) (id : Int)
    (hist : List Request) :
    (∃ st, statusOf (srv hist (pollRequest id)) = some st
      ∧ (getCommandStatus srv app id hist).1 = .ok st)
    ∨ (statusOf (srv hist (pollRequest id)) = none
      ∧ ∃ e, (getCommandStatus srv app id hist).1 = .error e) := by
  unfold getCommandStatus statusOf pollRequest
  simp only []
  cases srv hist (Request.get ("/command/" ++ toString id)) with
  | error e => exact Or.inr ⟨rfl, _, rfl⟩
  | ok resp =>
    by_cases hc : resp.StatusCode = 200
    · cases hj : resp.json with
      | error e => simp [hc, hj]
      | ok st => simp [hc, hj]
    · simp [hc]

theorem getCommandStatus_ok (srv : Oracle CommandStatus) (app : String) (id : Int)
    (hist : List Request) (st : CommandStatus)
    (h : statusOf (srv hist (pollRequest id)) = some st) :
    getCommandStatus srv app id hist = (.ok st, hist ++ [pollRequest id]) := by
  rcases getCommandStatus_fst srv app id hist with ⟨st1, h1, h2⟩ | ⟨h1, _⟩
  · rw [h] at h1
    cases h1
    exact Prod.ext h2 (getCommandStatus_snd srv app id hist)
  · rw [h] at h1
    cases h1

theorem replicate_shift (hist : List Request) (r : Request) (j : Nat) :
    hist ++ [r] ++ List.replicate j r = hist ++ List.replicate (j + 1) r := by
  simp [List.replicate_succ]

theorem monitorLoop_pending_step (table : Char → Bool) (srv : Oracle CommandStatus)
    (app : String) (id : Int) (fuel : Nat) (hist : List Request) (st : CommandStatus)
    (h : statusOf (srv hist (pollRequest id)) = some st)
    (hp : st.Status = "queued" ∨ st.Status = "started") :
    monitorLoop table srv app id (fuel + 1) hist
      = monitorLoop table srv app id fuel (hist ++ [pollRequest id]) := by
  rw [monitorLoop, getCommandStatus_ok srv app id hist st h]
  rcases hp with hp | hp <;> simp [hp]

theorem monitorLoop_completed (table : Char → Bool) (srv : Oracle CommandStatus)
    (app : String) (id : Int) (fuel : Nat) (hist : List Request) (st : CommandStatus)
    (h : statusOf (srv hist (pollRequest id)) = some st) (hp : st.Status = "completed") :
    monitorLoop table srv app id (fuel + 1) hist
      = some ((true, none), hist ++ [pollRequest id]) := by
  rw [monitorLoop, getCommandStatus_ok srv app id hist st h]
  simp [hp]

theorem monitorLoop_failed (table : Char → Bool) (srv : Oracle CommandStatus)
    (app : String) (id : Int) (fuel : Nat) (hist : List Request) (st : CommandStatus)
    (h : statusOf (srv hist (pollRequest id)) = some st) (hp : st.Status = "failed") :
    monitorLoop table srv app id (fuel + 1) hist
      = some ((false, some ("search failed with message: " ++ quote table st.Message)),
          hist ++ [pollRequest id]) := by
  rw [monitorLoop, getCommandStatus_ok srv app id hist st h]
  simp [hp]

theorem monitorLoop_unexpected (table : Char → Bool) (srv : Oracle CommandStatus)
    (app : String) (id : Int) (fuel : Nat) (hist : List Request) (st : CommandStatus)
    (h : statusOf (srv hist (pollRequest id)) = some st)
    (h1 : st.Status ≠ "queued") (h2 : st.Status ≠ "started") (h3 : st.Status ≠ "completed")
    (h4 : st.Status ≠ "failed") :
    monitorLoop table srv app id (fuel + 1) hist
      = some ((false, some ("search failed with unexpected status " ++ quote table st.Status
          ++ ", message: " ++ quote table st.Message)), hist ++ [pollRequest id]) := by
  rw [monitorLoop, getCommandStatus_ok srv app id hist st h]
  simp [h1, h2, h3, h4]

/-- Pending polls only consume fuel and add themselves to the history. -/
theorem monitorLoop_skip (table : Char → Bool) (srv : Oracle CommandStatus)
    (app : String) (id : Int) (n : Nat) :
    ∀ (hist : List Request) (fuel : Nat), (∀ j, j < n → pendingAt srv hist id j) →
      monitorLoop table srv app id (n + fuel) hist
        = monitorLoop table srv app id fuel (hist ++ List.replicate n (pollRequest id)) := by
  induction n with
  | zero => intro hist fuel _; simp
  | succ n ih =>
    intro hist fuel hp
    obtain ⟨st, hst, hpend⟩ := hp 0 (Nat.succ_pos n)
    simp only [List.replicate_zero, List.append_nil] at hst
    have e : n + 1 + fuel = (n + fuel) + 1 := by omega
    rw [e, monitorLoop_pending_step table srv app id (n + fuel) hist st hst hpend,
      ih (hist ++ [pollRequest id]) fuel, replicate_shift]
    intro j hj
    have := hp (j + 1) (by omega)
    unfold pendingAt at this ⊢
    rwa [replicate_shift]

theorem searchMediaItems_accepted (table : Char → Bool) (cmd : Oracle CommandResponse)
    (srv : Oracle CommandStatus) (app name idsField : String) (ids : List Int) (fuel : Nat)
    (hist : List Request) (id : Int)
    (h : acceptedId (cmd hist (Request.postCommand "/command" name idsField ids)) = some id) :
    searchMediaItems table cmd srv app name idsField ids fuel hist
      = monitorLoop table srv app id fuel
          (hist ++ [Request.postCommand "/command" name idsField ids]) := by
  unfold acceptedId at h
  unfold searchMediaItems
  simp only []
  cases hr : cmd hist (Request.postCommand "/command" name idsField ids) with
  | error e => simp [hr] at h
  | ok resp =>
    rw [hr] at h
    by_cases hc : resp.StatusCode = 201
    · cases hj : resp.json with
      | error e => simp [hc, hj] at h
      | ok q =>
        simp only [hc, hj, if_true, Option.some.injEq] at h
        subst h
        simp [hc, hj]
    · simp [hc] at h

theorem searchMediaItems_rejected (table : Char → Bool) (cmd : Oracle CommandResponse)
    (srv : Oracle CommandStatus) (app name idsField : String) (ids : List Int) (fuel : Nat)
    (hist : List Request)
    (h : acceptedId (cmd hist (Request.postCommand "/command" name idsField ids)) = none) :
    ∃ e, searchMediaItems table cmd srv app name idsField ids fuel hist
      = some ((false, some e), hist ++ [Request.postCommand "/command" name idsField ids]) := by
  unfold acceptedId at h
  unfold searchMediaItems
  simp only []
  cases hr : cmd hist (Request.postCommand "/command" name idsField ids) with
  | error e => exact ⟨_, rfl⟩
  | ok resp =>
    rw [hr] at h
    by_cases hc : resp.StatusCode = 201
    · cases hj : resp.json with
      | error e => simp [hc, hj]
      | ok q => simp [hc, hj] at h
    · simp [hc]

/-- What the monitoring loop can do with any amount of fuel: still be polling,
all polls so far pending; or return success right after a poll that reported
"completed"; or return a failure with an error. -/
theorem monitorLoop_shape (table : Char → Bool) (srv : Oracle CommandStatus)
    (app : String) (id : Int) (fuel : Nat) :
    ∀ hist : List Request,
      (monitorLoop table srv app id fuel hist = none
        ∧ ∀ j, j < fuel → pendingAt srv hist id j)
      ∨ (∃ h st, monitorLoop table srv app id fuel hist = some ((true, none), h ++ [pollRequest id])
          ∧ statusOf (srv h (pollRequest id)) = some st ∧ st.Status = "completed")
      ∨ (∃ e hist1, monitorLoop table srv app id fuel hist = some ((false, some e), hist1)) := by
  induction fuel with
  | zero =>
    intro hist
    exact Or.inl ⟨rfl, fun j hj => absurd hj (Nat.not_lt_zero j)⟩
  | succ fuel ih =>
    intro hist
    rcases getCommandStatus_fst srv app id hist with ⟨st, hst, _⟩ | ⟨_, e, he⟩
    · by_cases h3 : st.Status = "completed"
      · exact Or.inr (Or.inl ⟨hist, st, monitorLoop_completed table srv app id fuel hist st hst h3,
          hst, h3⟩)
      · by_cases h4 : st.Status = "failed"
        · exact Or.inr (Or.inr ⟨_, _, monitorLoop_failed table srv app id fuel hist st hst h4⟩)
        · by_cases hp : st.Status = "queued" ∨ st.Status = "started"
          · rw [monitorLoop_pending_step table srv app id fuel hist st hst hp]
            rcases ih (hist ++ [pollRequest id]) with ⟨hnone, hpend⟩ | hdone | hfail
            · refine Or.inl ⟨hnone, ?_⟩
              intro j hj
              cases j with
              | zero => exact ⟨st, by simpa using hst, hp⟩
              | succ j =>
                have := hpend j (by omega)
                unfold pendingAt at this ⊢
                rwa [replicate_shift] at this
            · exact Or.inr (Or.inl hdone)
            · exact Or.inr (Or.inr hfail)
          · have h1 : st.Status ≠ "queued" := fun h => hp (Or.inl h)
            have h2 : st.Status ≠ "started" := fun h => hp (Or.inr h)
            exact Or.inr (Or.inr ⟨_, _,
              monitorLoop_unexpected table srv app id fuel hist st hst h1 h2 h3 h4⟩)
    · have hs : getCommandStatus srv app id hist
          = (.error e, (getCommandStatus srv app id hist).2) := Prod.ext he rfl
      refine Or.inr (Or.inr ⟨withMessage e
        ("failed retrieving command status from " ++ app ++ " for: " ++ toString id),
        (getCommandStatus srv app id hist).2, ?_⟩)
      rw [monitorLoop, hs]

theorem replicate_snoc (hist : List Request) (r : Request) (n : Nat) :
    hist ++ List.replicate n r ++ [r] = hist ++ List.replicate (n + 1) r := by
  rw [List.append_assoc, ← List.replicate_succ']

/-- After an accepted trigger and `n` pending polls, a search with fuel for
`n + 1` polls stands at poll `n` with fuel left. -/
theorem search_reaches_poll (a : Adapter) (table : Char → Bool) (cmd : Oracle CommandResponse)
    (srv : Oracle CommandStatus) (ids : List Int) (hist : List Request) (id : Int) (n : Nat)
    (htrig : acceptedId (cmd hist (a.triggerRequest ids)) = some id)
    (hpend : ∀ j, j < n → pendingAt srv (hist ++ [a.triggerRequest ids]) id j)
    (fuel : Nat) (hfuel : n + 1 ≤ fuel) :
    ∃ app f, a.SearchMediaItems table cmd srv ids fuel hist
      = monitorLoop table srv app id (f + 1)
          (hist ++ [a.triggerRequest ids] ++ List.replicate n (pollRequest id)) := by
  obtain ⟨app, name, idsField, hreq, heq⟩ := SearchMediaItems_eq a table cmd srv ids fuel hist
  refine ⟨app, fuel - n - 1, ?_⟩
  rw [heq]
  rw [hreq] at htrig hpend ⊢
  rw [searchMediaItems_accepted table cmd srv app name idsField ids fuel hist id htrig]
  have e : fuel = n + (fuel - n - 1 + 1) := by omega
  conv_lhs => rw [e]
  exact monitorLoop_skip table srv app id n _ _ hpend

/-- C7: for every server behaviour and every amount of fuel, `SearchMediaItems`
of every adapter either is still polling (the trigger was accepted and every
poll so far reported "queued" or "started"), or has returned `(true, nil)`
right after a poll that reported "completed", or has returned `false` together
with an error; it never returns `false` without an error. -/
theorem C7_search_returns_true_or_error (a : Adapter) (table : Char → Bool)
    (cmd : Oracle CommandResponse) (srv : Oracle CommandStatus) (ids : List Int) (fuel : Nat)
    (hist : List Request) :
    (a.SearchMediaItems table cmd srv ids fuel hist = none
      ∧ ∃ id, acceptedId (cmd hist (a.triggerRequest ids)) = some id
        ∧ ∀ j, j < fuel → pendingAt srv (hist ++ [a.triggerRequest ids]) id j)
    ∨ (∃ h st id, a.SearchMediaItems table cmd srv ids fuel hist
          = some ((true, none), h ++ [pollRequest id])
        ∧ acceptedId (cmd hist (a.triggerRequest ids)) = some id
        ∧ statusOf (srv h (pollRequest id)) = some st ∧ st.Status = "completed")
    ∨ (∃ e hist1, a.SearchMediaItems table cmd srv ids fuel hist
          = some ((false, some e), hist1)) := by
  obtain ⟨app, name, idsField, hreq, heq⟩ := SearchMediaItems_eq a table cmd srv ids fuel hist
  rw [heq, hreq]
  cases hacc : acceptedId (cmd hist (Request.postCommand "/command" name idsField ids)) with
  | none =>
    obtain ⟨e, he⟩ := searchMediaItems_rejected table cmd srv app name idsField ids fuel hist hacc
    exact Or.inr (Or.inr ⟨e, _, he⟩)
  | some id =>
    rw [searchMediaItems_accepted table cmd srv app name idsField ids fuel hist id hacc]
    rcases monitorLoop_shape table srv app id fuel
        (hist ++ [Request.postCommand "/command" name idsField ids]) with
      ⟨hnone, hpend⟩ | ⟨h, st, hres, hst, hdone⟩ | hfail
    · exact Or.inl ⟨hnone, id, rfl, hpend⟩
    · exact Or.inr (Or.inl ⟨h, st, id, hres, rfl, hst, hdone⟩)
    · exact Or.inr (Or.inr hfail)

/-- C8: if the trigger is accepted with command id `id` and the status polls
report `n` times "queued" or "started" and then "completed", `SearchMediaItems`
of every adapter returns `(true, nil)`, given fuel for n+1 polls, after the
trigger and exactly n+1 polls, every one of them for `id`. -/
theorem C8_completed_after_pending (a : Adapter) (table : Char → Bool)
    (cmd : Oracle CommandResponse) (srv : Oracle CommandStatus) (ids : List Int)
    (hist : List Request) (id : Int) (n : Nat) (st : CommandStatus)
    (htrig : acceptedId (cmd hist (a.triggerRequest ids)) = some id)
    (hpend : ∀ j, j < n → pendingAt srv (hist ++ [a.triggerRequest ids]) id j)
    (hlast : statusOf (srv (hist ++ [a.triggerRequest ids] ++ List.replicate n (pollRequest id))
      (pollRequest id)) = some st)
    (hdone : st.Status = "completed")
    (fuel : Nat) (hfuel : n + 1 ≤ fuel) :
    a.SearchMediaItems table cmd srv ids fuel hist
        = some ((true, none),
            hist ++ [a.triggerRequest ids] ++ List.replicate (n + 1) (pollRequest id))
      ∧ (List.replicate (n + 1) (pollRequest id)).length = n + 1 := by
  obtain ⟨app, f, h⟩ := search_reaches_poll a table cmd srv ids hist id n htrig hpend fuel hfuel
  rw [h, monitorLoop_completed table srv app id f _ st hlast hdone, replicate_snoc]
  exact ⟨rfl, List.length_replicate _ _⟩

/-- Witness of C8: the script queued, started, completed takes three polls. -/
theorem C8_completed_after_pending_witness :
    Adapter.sonarrV4.SearchMediaItems (fun _ => false) (acceptAs 42)
        (scripted [("queued", ""), ("started", ""), ("completed", "")]) [11, 12] 3 []
        = some ((true, none),
            [] ++ [Adapter.sonarrV4.triggerRequest [11, 12]]
              ++ List.replicate (2 + 1) (pollRequest 42))
      ∧ (List.replicate (2 + 1) (pollRequest 42)).length = 2 + 1 :=
  C8_completed_after_pending .sonarrV4 (fun _ => false) (acceptAs 42)
    (scripted [("queued", ""), ("started", ""), ("completed", "")]) [11, 12] [] 42 2
    ⟨"", "", Time.zero, Time.zero, "completed"⟩ rfl
    (by
      intro j hj
      obtain rfl | rfl : j = 0 ∨ j = 1 := by omega
      · exact ⟨⟨"", "", Time.zero, Time.zero, "queued"⟩, rfl, Or.inl rfl⟩
      · exact ⟨⟨"", "", Time.zero, Time.zero, "started"⟩, rfl, Or.inr rfl⟩)
    rfl rfl 3 (by decide)

/-- Witness of C7: a Radarr search whose second poll reports "failed". -/
theorem C7_search_returns_true_or_error_witness :
    (Adapter.radarrV5.SearchMediaItems (fun _ => false) (acceptAs 7)
        (scripted [("queued", ""), ("failed", "disk full")]) [1] 2 [] = none
      ∧ ∃ id, acceptedId (acceptAs 7 [] (Adapter.radarrV5.triggerRequest [1])) = some id
        ∧ ∀ j, j < 2 → pendingAt (scripted [("queued", ""), ("failed", "disk full")])
            ([] ++ [Adapter.radarrV5.triggerRequest [1]]) id j)
    ∨ (∃ h st id, Adapter.radarrV5.SearchMediaItems (fun _ => false) (acceptAs 7)
          (scripted [("queued", ""), ("failed", "disk full")]) [1] 2 []
          = some ((true, none), h ++ [pollRequest id])
        ∧ acceptedId (acceptAs 7 [] (Adapter.radarrV5.triggerRequest [1])) = some id
        ∧ statusOf (scripted [("queued", ""), ("failed", "disk full")] h (pollRequest id))
            = some st ∧ st.Status = "completed")
    ∨ (∃ e hist1, Adapter.radarrV5.SearchMediaItems (fun _ => false) (acceptAs 7)
          (scripted [("queued", ""), ("failed", "disk full")]) [1] 2 []
          = some ((false, some e), hist1)) :=
  C7_search_returns_true_or_error .radarrV5 (fun _ => false) (acceptAs 7)
    (scripted [("queued", ""), ("failed", "disk full")]) [1] 2 []

theorem appendEscapedRune_plain (table : Char → Bool) (c : Char)
    (h : c ≠ dquote ∧ c ≠ backslash ∧ IsPrint table c = true) :
    appendEscapedRune table c = [c] := by
  simp [appendEscapedRune, h.1, h.2.1, h.2.2]

theorem flatMap_plain (table : Char → Bool) (l : List Char)
    (h : ∀ c ∈ l, c ≠ dquote ∧ c ≠ backslash ∧ IsPrint table c = true) :
    l.flatMap (appendEscapedRune table) = l := by
  induction l with
  | nil => rfl
  | cons c rest ih =>
    rw [List.flatMap_cons, appendEscapedRune_plain table c (h c (List.mem_cons_self _ _)),
      ih (fun x hx => h x (List.mem_cons_of_mem _ hx))]
    rfl

/-- A text of printable characters without double quote and backslash is
quoted by putting it between double quotes. -/
theorem quote_plain (table : Char → Bool) (m : String)
    (h : ∀ c ∈ m.data, c ≠ dquote ∧ c ≠ backslash ∧ IsPrint table c = true) :
    quote table m = String.mk (dquote :: (m.data ++ [dquote])) := by
  unfold quote
  rw [flatMap_plain table m.data h]

/-- C9, as stated, fails: for the server message `no results for "Dune"` the
error text of the failed search carries the message with its double quotes
escaped and does not contain the message itself.  The message is ASCII, so the
Unicode table handed to `quote` is not consulted. -/
theorem C9_error_contains_message_counterexample :
    Adapter.lidarrV2.SearchMediaItems (fun _ => false) (acceptAs 42)
        (scripted [("queued", ""), ("failed", duneMessage)]) [5] 2 []
      = some ((false, some ("search failed with message: " ++ quote (fun _ => false) duneMessage)),
          [Adapter.lidarrV2.triggerRequest [5], pollRequest 42, pollRequest 42])
    ∧ ¬ containsText ("search failed with message: " ++ quote (fun _ => false) duneMessage)
        duneMessage := by
  refine ⟨rfl, ?_⟩
  unfold containsText
  decide

/-- C9, amended: if the trigger is accepted and the status polls report `n`
pending statuses and then "failed" with message `m`, `SearchMediaItems` of
every adapter returns, given fuel for n+1 polls, after exactly n+1 polls a
failure whose error text is `search failed with message: ` followed by `m` as
`%q` prints it; the text contains `m` itself when `m` consists of printable
characters other than the double quote and the backslash. -/
theorem C9_failed_carries_quoted_message (a : Adapter) (table : Char → Bool)
    (cmd : Oracle CommandResponse) (srv : Oracle CommandStatus) (ids : List Int)
    (hist : List Request) (id : Int) (n : Nat) (st : CommandStatus)
    (htrig : acceptedId (cmd hist (a.triggerRequest ids)) = some id)
    (hpend : ∀ j, j < n → pendingAt srv (hist ++ [a.triggerRequest ids]) id j)
    (hlast : statusOf (srv (hist ++ [a.triggerRequest ids] ++ List.replicate n (pollRequest id))
      (pollRequest id)) = some st)
    (hfailed : st.Status = "failed")
    (fuel : Nat) (hfuel : n + 1 ≤ fuel) :
    a.SearchMediaItems table cmd srv ids fuel hist
        = some ((false, some ("search failed with message: " ++ quote table st.Message)),
            hist ++ [a.triggerRequest ids] ++ List.replicate (n + 1) (pollRequest id))
      ∧ containsText ("search failed with message: " ++ quote table st.Message)
          (quote table st.Message)
      ∧ ((∀ c ∈ st.Message.data, c ≠ dquote ∧ c ≠ backslash ∧ IsPrint table c = true) →
          containsText ("search failed with message: " ++ quote table st.Message) st.Message) := by
  obtain ⟨app, f, h⟩ := search_reaches_poll a table cmd srv ids hist id n htrig hpend fuel hfuel
  rw [h, monitorLoop_failed table srv app id f _ st hlast hfailed, replicate_snoc]
  refine ⟨rfl, ?_, ?_⟩
  · exact ⟨"search failed with message: ".data, [], by simp⟩
  · intro hplain
    rw [quote_plain table st.Message hplain]
    exact ⟨"search failed with message: ".data ++ [dquote], [dquote], by simp⟩

/-- Witness of C9: the script queued, failed with the message `disk full`. -/
theorem C9_failed_carries_quoted_message_witness :
    Adapter.lidarrV2.SearchMediaItems (fun _ => false) (acceptAs 42)
        (scripted [("queued", ""), ("failed", "disk full")]) [5] 2 []
        = some ((false, some ("search failed with message: "
              ++ quote (fun _ => false) "disk full")),
            [] ++ [Adapter.lidarrV2.triggerRequest [5]] ++ List.replicate (1 + 1) (pollRequest 42))
      ∧ containsText ("search failed with message: " ++ quote (fun _ => false) "disk full")
          (quote (fun _ => false) "disk full")
      ∧ containsText ("search failed with message: " ++ quote (fun _ => false) "disk full")
          "disk full" :=
  have h := C9_failed_carries_quoted_message .lidarrV2 (fun _ => false) (acceptAs 42)
    (scripted [("queued", ""), ("failed", "disk full")]) [5] [] 42 1
    ⟨"", "disk full", Time.zero, Time.zero, "failed"⟩ rfl
    (by
      intro j hj
      obtain rfl : j = 0 := by omega
      exact ⟨⟨"", "", Time.zero, Time.zero, "queued"⟩, rfl, Or.inl rfl⟩)
    rfl rfl 2 (by decide)
  ⟨h.1, h.2.1, h.2.2 (by decide)⟩

/-- C10: if the trigger is accepted and, after `n` pending polls, a poll
reports a status that is none of "queued", "started", "completed", "failed",
`SearchMediaItems` of every adapter returns a failure with an error, given fuel
for n+1 polls, right after that poll: the requests issued are the trigger and
exactly n+1 polls. -/
theorem C10_unknown_status_fails_at_once (a : Adapter) (table : Char → Bool)
    (cmd : Oracle CommandResponse) (srv : Oracle CommandStatus) (ids : List Int)
    (hist : List Request) (id : Int) (n : Nat) (st : CommandStatus)
    (htrig : acceptedId (cmd hist (a.triggerRequest ids)) = some id)
    (hpend : ∀ j, j < n → pendingAt srv (hist ++ [a.triggerRequest ids]) id j)
    (hlast : statusOf (srv (hist ++ [a.triggerRequest ids] ++ List.replicate n (pollRequest id))
      (pollRequest id)) = some st)
    (h1 : st.Status ≠ "queued") (h2 : st.Status ≠ "started") (h3 : st.Status ≠ "completed")
    (h4 : st.Status ≠ "failed")
    (fuel : Nat) (hfuel : n + 1 ≤ fuel) :
    a.SearchMediaItems table cmd srv ids fuel hist
        = some ((false, some ("search failed with unexpected status " ++ quote table st.Status
            ++ ", message: " ++ quote table st.Message)),
            hist ++ [a.triggerRequest ids] ++ List.replicate (n + 1) (pollRequest id))
      ∧ (List.replicate (n + 1) (pollRequest id)).length = n + 1 := by
  obtain ⟨app, f, h⟩ := search_reaches_poll a table cmd srv ids hist id n htrig hpend fuel hfuel
  rw [h, monitorLoop_unexpected table srv app id f _ st hlast h1 h2 h3 h4, replicate_snoc]
  exact ⟨rfl, List.length_replicate _ _⟩

/-- Witness of C10: the status "Completed" with a capital letter, after one
pending poll, with plenty of fuel left. -/
theorem C10_unknown_status_fails_at_once_witness :
    Adapter.whisparrV2.SearchMediaItems (fun _ => false) (acceptAs 9)
        (scripted [("queued", ""), ("Completed", ""), ("completed", "")]) [3] 50 []
        = some ((false, some ("search failed with unexpected status "
              ++ quote (fun _ => false) "Completed" ++ ", message: "
              ++ quote (fun _ => false) "")),
            [] ++ [Adapter.whisparrV2.triggerRequest [3]] ++ List.replicate (1 + 1) (pollRequest 9))
      ∧ (List.replicate (1 + 1) (pollRequest 9)).length = 1 + 1 :=
  C10_unknown_status_fails_at_once .whisparrV2 (fun _ => false) (acceptAs 9)
    (scripted [("queued", ""), ("Completed", ""), ("completed", "")]) [3] [] 9 1
    ⟨"", "", Time.zero, Time.zero, "Completed"⟩ rfl
    (by
      intro j hj
      obtain rfl : j = 0 := by omega
      exact ⟨⟨"", "", Time.zero, Time.zero, "queued"⟩, rfl, Or.inl rfl⟩)
    rfl (by decide) (by decide) (by decide) (by decide) 50 (by decide)

/-! ## Init -/

theorem getSystemStatus_snd (srv : Oracle SystemStatus) (app : String) (hist : List Request) :
    (getSystemStatus srv app hist).2 = hist ++ [statusRequest] := by
  unfold getSystemStatus statusRequest
  simp only []
  split
  · rfl
  · split
    · rfl
    · split <;> rfl

theorem getSystemStatus_ok (srv : Oracle SystemStatus) (app : String) (hist : List Request)
    (v : String) (h : reportedVersion (srv hist statusRequest) = some v) :
    getSystemStatus srv app hist = (.ok ⟨v⟩, hist ++ [statusRequest]) := by
  unfold reportedVersion statusRequest at h
  cases hr : srv hist (Request.get "/system/status") with
  | error e => simp [hr] at h
  | ok resp =>
    rw [hr] at h
    by_cases hc : resp.StatusCode = 200
    · cases hj : resp.json with
      | error e => simp [hc, hj] at h
      | ok s =>
        simp only [hc, hj, if_true, Option.some.injEq] at h
        subst h
        simp [getSystemStatus, statusRequest, hr, hc, hj]
    · simp [hc] at h

theorem Init_eq (a : Adapter) (srv : Oracle SystemStatus) (hist : List Request) :
    a.Init srv hist = init srv a.app a.majorChar hist := by
  cases a <;> rfl

/-- On a reported non-empty version `Init` looks at the first character only. -/
theorem init_reported (srv : Oracle SystemStatus) (app : String) (major : Char)
    (hist : List Request) (c : Char) (rest : List Char)
    (h : reportedVersion (srv hist statusRequest) = some (String.mk (c :: rest))) :
    init srv app major hist
      = (if c = major then Outcome.returned none
          else Outcome.returned
            (some ("unsupported version of " ++ app ++ " pvr: " ++ String.mk (c :: rest))),
          hist ++ [statusRequest]) := by
  unfold init
  rw [getSystemStatus_ok srv app hist _ h]
  by_cases hc : c = major <;> simp [hc]

theorem isDigit_eq_iff (c : Char) (n : Nat) (hn : n ≤ 9) (hc : c.isDigit = true) :
    c = Char.ofNat (48 + n) ↔ digitVal c = n := by
  have hr : 48 ≤ c.toNat ∧ c.toNat ≤ 57 := by
    simp only [Char.isDigit, Bool.and_eq_true, decide_eq_true_eq] at hc
    have h1 : (48 : Nat) ≤ c.val.toNat := by
      have := hc.1
      exact this
    have h2 : c.val.toNat ≤ 57 := by
      have := hc.2
      exact this
    exact ⟨h1, h2⟩
  constructor
  · intro h
    have e : c.toNat = 48 + n := by
      rw [h]
      have : ∀ m, m ≤ 9 → (Char.ofNat (48 + m)).toNat = 48 + m := by decide
      exact this n hn
    unfold digitVal
    omega
  · intro h
    unfold digitVal at h
    have e : c.toNat = 48 + n := by omega
    rw [← e, Char.ofNat_toNat]

theorem majorVersion_one_digit (c : Char) (rest : List Char) (hc : c.isDigit = true) :
    majorVersion (String.mk (c :: Char.ofNat 46 :: rest)) = some (digitVal c) := by
  have hne : (c != Char.ofNat 46) = true := by
    rw [bne_iff_ne]
    intro h
    rw [h] at hc
    revert hc
    decide
  simp [majorVersion, List.takeWhile, hne, hc]

/-- C11, as stated, fails: the Sonarr v4 adapter accepts the version `40.1.2`,
whose major version is 40. -/
theorem C11_major_version_counterexample :
    SonarrV4.Init (versionServer "40.1.2") [] = (Outcome.returned none, [statusRequest])
    ∧ majorVersion "40.1.2" = some 40
    ∧ Adapter.sonarrV4.major = 4 := by
  refine ⟨by decide, by decide, rfl⟩

/-- C11, amended: on a reported non-empty version string `Init` of every
adapter succeeds if and only if the first character of the string is the digit
N of the adapter, and otherwise fails with the unsupported-version error that
names the string; when one digit stands before the first dot, that is the case
if and only if the major version equals N. -/
theorem C11_init_compares_first_character (a : Adapter) (srv : Oracle SystemStatus)
    (hist : List Request) (c : Char) (rest : List Char)
    (h : reportedVersion (srv hist statusRequest) = some (String.mk (c :: rest))) :
    ((a.Init srv hist).1 = Outcome.returned none ↔ c = a.majorChar)
    ∧ (c = a.majorChar → a.Init srv hist = (Outcome.returned none, hist ++ [statusRequest]))
    ∧ (c ≠ a.majorChar → a.Init srv hist
        = (Outcome.returned (some ("unsupported version of " ++ a.app ++ " pvr: "
            ++ String.mk (c :: rest))), hist ++ [statusRequest]))
    ∧ (∀ tail, rest = Char.ofNat 46 :: tail → c.isDigit = true →
        ((a.Init srv hist).1 = Outcome.returned none
          ↔ majorVersion (String.mk (c :: rest)) = some a.major)) := by
  have hinit := init_reported srv a.app a.majorChar hist c rest h
  rw [← Init_eq] at hinit
  have hiff : (a.Init srv hist).1 = Outcome.returned none ↔ c = a.majorChar := by
    rw [hinit]
    by_cases hc : c = a.majorChar <;> simp [hc]
  refine ⟨hiff, ?_, ?_, ?_⟩
  · intro hc
    rw [hinit, if_pos hc]
  · intro hc
    rw [hinit, if_neg hc]
  · intro tail htail hdig
    rw [hiff, htail, majorVersion_one_digit c tail hdig, Option.some.injEq]
    have hm : a.major ≤ 9 := by cases a <;> decide
    exact isDigit_eq_iff c a.major hm hdig

/-- Witness of C11: Radarr v5 against the versions `5.2.6` and `4.7.5`. -/
theorem C11_init_compares_first_character_witness :
    RadarrV5.Init (versionServer "5.2.6") [] = (Outcome.returned none, [] ++ [statusRequest])
    ∧ ((Adapter.radarrV5.Init (versionServer "5.2.6") []).1 = Outcome.returned none
        ↔ majorVersion "5.2.6" = some 5)
    ∧ RadarrV5.Init (versionServer "4.7.5") []
        = (Outcome.returned (some ("unsupported version of " ++ "radarr" ++ " pvr: " ++ "4.7.5")),
            [] ++ [statusRequest]) :=
  ⟨(C11_init_compares_first_character .radarrV5 (versionServer "5.2.6") [] '5' ".2.6".data
      rfl).2.1 (by decide),
    (C11_init_compares_first_character .radarrV5 (versionServer "5.2.6") [] '5' ".2.6".data
      rfl).2.2.2 "2.6".data rfl (by decide),
    (C11_init_compares_first_character .radarrV5 (versionServer "4.7.5") [] '4' ".7.5".data
      rfl).2.2.1 (by decide)⟩

/-! ## Trigger -/

theorem SearchMediaItems_eq_app (a : Adapter) (table : Char → Bool)
    (cmd : Oracle CommandResponse) (srv : Oracle CommandStatus) (ids : List Int) (fuel : Nat)
    (hist : List Request) :
    ∃ name idsField,
      a.triggerRequest ids = Request.postCommand "/command" name idsField ids
      ∧ a.SearchMediaItems table cmd srv ids fuel hist
        = searchMediaItems table cmd srv a.app name idsField ids fuel hist := by
  cases a <;> exact ⟨_, _, rfl, rfl⟩

theorem searchMediaItems_not_created (table : Char → Bool) (cmd : Oracle CommandResponse)
    (srv : Oracle CommandStatus) (app name idsField : String) (ids : List Int) (fuel : Nat)
    (hist : List Request) (resp : Response CommandResponse)
    (h : cmd hist (Request.postCommand "/command" name idsField ids) = .ok resp)
    (hc : resp.StatusCode ≠ 201) :
    searchMediaItems table cmd srv app name idsField ids fuel hist
      = some ((false, some ("failed retrieving valid command api response from " ++ app ++ ": "
          ++ resp.Status)), hist ++ [Request.postCommand "/command" name idsField ids]) := by
  simp [searchMediaItems, h, hc]

/-- C17: when the trigger request is answered with a status code other than
201, `SearchMediaItems` of every adapter returns, whatever the fuel, a failure
that names the status line, and the trigger is the only request it issued.
More generally a trigger reply that is not a 201 whose body decodes ends the
call with the trigger as only request, so a call that issued anything beyond
the trigger had such a reply. -/
theorem C17_no_poll_without_created (a : Adapter) (table : Char → Bool)
    (cmd : Oracle CommandResponse) (srv : Oracle CommandStatus) (ids : List Int) (fuel : Nat)
    (hist : List Request) :
    (∀ resp, cmd hist (a.triggerRequest ids) = .ok resp → resp.StatusCode ≠ 201 →
        a.SearchMediaItems table cmd srv ids fuel hist
          = some ((false, some ("failed retrieving valid command api response from " ++ a.app
              ++ ": " ++ resp.Status)), hist ++ [a.triggerRequest ids]))
    ∧ (acceptedId (cmd hist (a.triggerRequest ids)) = none →
        ∃ e, a.SearchMediaItems table cmd srv ids fuel hist
          = some ((false, some e), hist ++ [a.triggerRequest ids]))
    ∧ (∀ r hist1, a.SearchMediaItems table cmd srv ids fuel hist = some (r, hist1) →
        hist1 ≠ hist ++ [a.triggerRequest ids] →
        ∃ id, acceptedId (cmd hist (a.triggerRequest ids)) = some id) := by
  obtain ⟨name, idsField, hreq, heq⟩ := SearchMediaItems_eq_app a table cmd srv ids fuel hist
  rw [heq, hreq]
  refine ⟨?_, ?_, ?_⟩
  · intro resp h hc
    exact searchMediaItems_not_created table cmd srv a.app name idsField ids fuel hist resp h hc
  · intro h
    exact searchMediaItems_rejected table cmd srv a.app name idsField ids fuel hist h
  · intro r hist1 hres hne
    cases hacc : acceptedId (cmd hist (Request.postCommand "/command" name idsField ids)) with
    | some id => exact ⟨id, rfl⟩
    | none =>
      obtain ⟨e, he⟩ :=
        searchMediaItems_rejected table cmd srv a.app name idsField ids fuel hist hacc
      rw [he] at hres
      simp only [Option.some.injEq, Prod.mk.injEq] at hres
      exact absurd hres.2.symm hne

/-- Witness of C17: a trigger answered with 200 instead of 201. -/
theorem C17_no_poll_without_created_witness :
    Adapter.sonarrV4.SearchMediaItems (fun _ => false) (answerWith 200 "200 OK")
        (scripted [("completed", "")]) [4] 9 []
      = some ((false, some ("failed retrieving valid command api response from "
          ++ Adapter.sonarrV4.app ++ ": " ++ "200 OK")),
          [] ++ [Adapter.sonarrV4.triggerRequest [4]]) :=
  (C17_no_poll_without_created .sonarrV4 (fun _ => false) (answerWith 200 "200 OK")
    (scripted [("completed", "")]) [4] 9 []).1 ⟨200, "200 OK", .ok ⟨1⟩⟩ rfl (by decide)

/-! ## The factory -/

theorem lowerChar_ascii (table : Char → Char) (r : Char) (h : r.toNat ≤ 0x7F) :
    lowerChar table r = asciiLower r := by
  simp [lowerChar, asciiLower, h]

theorem tagChars_lower :
    ∀ d ∈ tagChars, d.toNat ≤ 0x7F ∧ (asciiUpper d).toNat ≤ 0x7F
      ∧ asciiLower d = d ∧ asciiLower (asciiUpper d) = d := by
  decide

theorem map_lower_of_variant (table : Char → Char) (s t : List Char)
    (h : List.Forall₂ (fun c d => c = d ∨ c = asciiUpper d) s t)
    (ht : ∀ d ∈ t, d ∈ tagChars) : s.map (lowerChar table) = t := by
  induction h with
  | nil => rfl
  | @cons c d s1 t1 hcd _ ih =>
    obtain ⟨h1, h2, h3, h4⟩ := tagChars_lower d (ht d (List.mem_cons_self _ _))
    rw [List.map_cons, ih (fun x hx => ht x (List.mem_cons_of_mem _ hx))]
    rcases hcd with rfl | rfl
    · rw [lowerChar_ascii table _ h1, h3]
    · rw [lowerChar_ascii table _ h2, h4]

theorem supportedTags_chars : ∀ tag ∈ supportedTags, ∀ d ∈ tag.data, d ∈ tagChars := by
  decide

theorem ToLower_of_variant (table : Char → Char) (s tag : String) (htag : tag ∈ supportedTags)
    (h : CaseVariant s tag) : ToLower table s = tag := by
  unfold ToLower
  rw [map_lower_of_variant table s.data tag.data h (supportedTags_chars tag htag)]

theorem Get_supported (printTable : Char → Bool) (lowerTable : Char → Char)
    (pvrName pvrType : String) (pvrConfig : config.Pvr)
    (h : ToLower lowerTable pvrType ∈ supportedTags) :
    ∃ cl, Get printTable lowerTable pvrName pvrType pvrConfig = (some cl, none) := by
  simp only [supportedTags, List.mem_cons, List.mem_singleton, List.not_mem_nil, or_false] at h
  unfold Get
  rcases h with h | h | h | h | h | h <;> simp [h]

theorem Get_unsupported (printTable : Char → Bool) (lowerTable : Char → Char)
    (pvrName pvrType : String) (pvrConfig : config.Pvr)
    (h : ToLower lowerTable pvrType ∉ supportedTags) :
    Get printTable lowerTable pvrName pvrType pvrConfig
      = (none, some ("unsupported pvr type provided: " ++ quote printTable pvrType)) := by
  simp only [supportedTags, List.mem_cons, List.mem_singleton, List.not_mem_nil, or_false,
    not_or] at h
  obtain ⟨h1, h2, h3, h4, h5, h6⟩ := h
  simp [Get, h1, h2, h3, h4, h5, h6]

/-- C18: when the lower-cased type string is none of the six tags, `Get`
returns no client and the error `unsupported pvr type provided: ` followed by
the type string as `%q` prints it; when it is one of them, and so for each of
the six tags written in any letter case, `Get` returns a client and no error. -/
theorem C18_get_supported_tags (printTable : Char → Bool) (lowerTable : Char → Char)
    (pvrName pvrType : String) (pvrConfig : config.Pvr) :
    (ToLower lowerTable pvrType ∉ supportedTags →
        Get printTable lowerTable pvrName pvrType pvrConfig
          = (none, some ("unsupported pvr type provided: " ++ quote printTable pvrType)))
    ∧ (ToLower lowerTable pvrType ∈ supportedTags →
        ∃ cl, Get printTable lowerTable pvrName pvrType pvrConfig = (some cl, none))
    ∧ (∀ tag ∈ supportedTags, CaseVariant pvrType tag →
        ∃ cl, Get printTable lowerTable pvrName pvrType pvrConfig = (some cl, none)) := by
  refine ⟨Get_unsupported printTable lowerTable pvrName pvrType pvrConfig,
    Get_supported printTable lowerTable pvrName pvrType pvrConfig, ?_⟩
  intro tag htag hvar
  apply Get_supported
  rw [ToLower_of_variant lowerTable pvrType tag htag hvar]
  exact htag

/-- Witness of C18: the tag `Radarr_V5` in mixed case and the unknown tag
`lidarr_v2`. -/
theorem C18_get_supported_tags_witness :
    Get (fun _ => false) (fun c => c) "movies" "lidarr_v2" (sampleConfig "lidarr_v2")
        = (none, some ("unsupported pvr type provided: " ++ quote (fun _ => false) "lidarr_v2"))
    ∧ ∃ cl, Get (fun _ => false) (fun c => c) "movies" "Radarr_V5" (sampleConfig "Radarr_V5")
        = (some cl, none) :=
  ⟨(C18_get_supported_tags (fun _ => false) (fun c => c) "movies" "lidarr_v2"
      (sampleConfig "lidarr_v2")).1 (by decide),
    (C18_get_supported_tags (fun _ => false) (fun c => c) "movies" "Radarr_V5"
      (sampleConfig "Radarr_V5")).2.2 "radarr_v5" (by decide) (by
        unfold CaseVariant
        decide)⟩

/-- C19 fails on the code: whatever the type string, the client `Get` returns
is never of the library family, and the tags `lidarr_v2` and `readarr_v0` are
turned down as unsupported, although `NewLidarrV2` and `NewReadarrV0` exist. -/
theorem C19_get_returns_no_library_client :
    (∀ (printTable : Char → Bool) (lowerTable : Char → Char) (pvrName pvrType : String)
        (pvrConfig : config.Pvr) (cl : Client),
        (Get printTable lowerTable pvrName pvrType pvrConfig).1 = some cl →
        cl.family ≠ Family.library)
    ∧ Get (fun _ => false) (fun c => c) "music" "lidarr_v2" (sampleConfig "lidarr_v2")
        = (none, some ("unsupported pvr type provided: " ++ quote (fun _ => false) "lidarr_v2"))
    ∧ Get (fun _ => false) (fun c => c) "books" "readarr_v0" (sampleConfig "readarr_v0")
        = (none, some ("unsupported pvr type provided: " ++ quote (fun _ => false) "readarr_v0"))
    := by
  refine ⟨?_, by decide, by decide⟩
  intro printTable lowerTable pvrName pvrType pvrConfig cl h
  unfold Get at h
  simp only [] at h
  split_ifs at h <;> simp at h <;> subst h <;> simp [Client.family]

/-- Witness of C19: the client `Get` returns for `Sonarr_V4` manages episodes. -/
theorem C19_get_returns_no_library_client_witness :
    (Client.NewSonarrV4 "tv" (sampleConfig "Sonarr_V4")).family ≠ Family.library :=
  C19_get_returns_no_library_client.1 (fun _ => false) (fun c => c) "tv" "Sonarr_V4"
    (sampleConfig "Sonarr_V4") _ (by decide)

/-! ## The search loop of the driver -/

theorem searchBatches_fill {σ π : Type} (db : Database σ) (pvr : Interface π)
    (clock : Nat → Time) (lowerPvrName : String) (b : List database.MediaItem) :
    ∀ (rest : List database.MediaItem) (acc : List MediaItem) (st : St σ π),
      acc.length + b.length < batchSize →
      searchBatches db pvr clock lowerPvrName (b ++ rest) acc st
        = searchBatches db pvr clock lowerPvrName rest (acc ++ b.map toSearchItem) st := by
  induction b with
  | nil => intro rest acc st _; simp
  | cons item b ih =>
    intro rest acc st h
    have h1 : (acc ++ [toSearchItem item]).length < batchSize := by
      simp only [List.length_append, List.length_cons, List.length_nil] at h ⊢
      omega
    have h2 : (acc ++ [toSearchItem item]).length + b.length < batchSize := by
      simp only [List.length_append, List.length_cons, List.length_nil] at h ⊢
      omega
    rw [List.cons_append, searchBatches]
    simp only []
    rw [if_pos (by simpa [toSearchItem] using h1)]
    have := ih rest (acc ++ [toSearchItem item]) st h2
    simpa [toSearchItem, List.append_assoc] using this

/-- A list shorter than a batch is only collected: nothing is searched. -/
theorem searchBatches_short {σ π : Type} (db : Database σ) (pvr : Interface π)
    (clock : Nat → Time) (lowerPvrName : String) (b : List database.MediaItem)
    (st : St σ π) (h : b.length < batchSize) :
    searchBatches db pvr clock lowerPvrName b [] st = ⟨Exit.ok, st⟩ := by
  have := searchBatches_fill db pvr clock lowerPvrName b [] [] st (by simpa using h)
  rw [List.append_nil] at this
  rw [this, searchBatches]

theorem map_ItemId_toSearchItem (b : List database.MediaItem) :
    (b.map toSearchItem).map MediaItem.ItemId = b.map database.MediaItem.Id := by
  rw [List.map_map]
  rfl

/-- What the loop does with a full batch `b` at the head of the rows. -/
theorem searchBatches_full {σ π : Type} (db : Database σ) (pvr : Interface π)
    (clock : Nat → Time) (lowerPvrName : String) (b rest : List database.MediaItem)
    (st : St σ π) (hb : b.length = batchSize) :
    searchBatches db pvr clock lowerPvrName (b ++ rest) [] st
      = match pvr.SearchMediaItems st.pvr (b.map database.MediaItem.Id) with
        | .panic =>
          ⟨Exit.panic, ⟨st.db, st.pvr, st.clock + 1, st.events ++ [Event.Now (clock st.clock),
            Event.SearchMediaItems (b.map database.MediaItem.Id)]⟩⟩
        | .hang =>
          ⟨Exit.hang, ⟨st.db, st.pvr, st.clock + 1, st.events ++ [Event.Now (clock st.clock),
            Event.SearchMediaItems (b.map database.MediaItem.Id)]⟩⟩
        | .done (_, some err) p =>
          ⟨Exit.fatal "Failed searching for items" (some err),
            ⟨st.db, p, st.clock + 1, st.events ++ [Event.Now (clock st.clock),
              Event.SearchMediaItems (b.map database.MediaItem.Id)]⟩⟩
        | .done (false, none) p =>
          ⟨Exit.fatal "Failed searching for items!" none,
            ⟨st.db, p, st.clock + 1, st.events ++ [Event.Now (clock st.clock),
              Event.SearchMediaItems (b.map database.MediaItem.Id)]⟩⟩
        | .done (true, none) p =>
          match db.SetMediaItems st.db lowerPvrName "missing"
              (stamp (clock st.clock) (b.map toSearchItem)) with
          | (some err, s) =>
            ⟨Exit.fatal "Failed updating search items in database" (some err),
              ⟨s, p, st.clock + 1, st.events ++ batchEvents lowerPvrName (clock st.clock) b⟩⟩
          | (none, s) =>
            searchBatches db pvr clock lowerPvrName rest []
              ⟨s, p, st.clock + 1, st.events ++ batchEvents lowerPvrName (clock st.clock) b⟩ := by
  have hne : b ≠ [] := by
    intro h
    rw [h] at hb
    exact absurd hb (by decide)
  obtain ⟨b0, item, rfl⟩ : ∃ b0 item, b = b0 ++ [item] :=
    ⟨b.dropLast, b.getLast hne, (List.dropLast_append_getLast hne).symm⟩
  have hlen : b0.length + 1 = batchSize := by simpa using hb
  rw [List.append_assoc, List.singleton_append,
    searchBatches_fill db pvr clock lowerPvrName b0 (item :: rest) [] st (by simp; omega),
    searchBatches]
  have hitems : [] ++ b0.map toSearchItem ++ [(⟨item.Id, item.AirDateUtc, Time.zero⟩ : MediaItem)]
      = (b0 ++ [item]).map toSearchItem := by
    simp [toSearchItem]
  simp only [hitems]
  have hfull : ¬ ((b0 ++ [item]).map toSearchItem).length < batchSize := by
    simp only [List.length_map, List.length_append, List.length_cons, List.length_nil]
    omega
  rw [if_neg hfull, map_ItemId_toSearchItem]
  simp only [batchEvents, stamp, List.append_assoc, List.cons_append, List.nil_append]

theorem batch_zero (mediaItems : List database.MediaItem) :
    batch mediaItems 0 = mediaItems.take batchSize := by
  simp [batch]

theorem batch_drop (mediaItems : List database.MediaItem) (i : Nat) :
    batch (mediaItems.drop batchSize) i = batch mediaItems (i + 1) := by
  unfold batch
  rw [List.drop_drop]
  congr 2
  rw [Nat.mul_succ]
  omega

theorem batch_length (mediaItems : List database.MediaItem) (i : Nat)
    (h : batchSize * (i + 1) ≤ mediaItems.length) : (batch mediaItems i).length = batchSize := by
  unfold batch
  rw [List.length_take, List.length_drop]
  rw [Nat.mul_succ] at h
  omega

theorem batchesEvents_succ (lowerPvrName : String) (clock : Nat → Time) (k : Nat)
    (mediaItems : List database.MediaItem) (m : Nat) :
    batchesEvents lowerPvrName clock k mediaItems (m + 1)
      = batchEvents lowerPvrName (clock k) (mediaItems.take batchSize)
        ++ batchesEvents lowerPvrName clock (k + 1) (mediaItems.drop batchSize) m := by
  unfold batchesEvents
  rw [List.range_succ_eq_map, List.flatMap_cons, List.flatMap_map, batch_zero, Nat.add_zero]
  congr 1
  apply List.flatMap_congr
  intro i _
  rw [batch_drop]
  have e : k + 1 + i = k + (i + 1) := by omega
  rw [e]

theorem batchesEvents_snoc (lowerPvrName : String) (clock : Nat → Time) (k : Nat)
    (mediaItems : List database.MediaItem) (m : Nat) :
    batchesEvents lowerPvrName clock k mediaItems (m + 1)
      = batchesEvents lowerPvrName clock k mediaItems m
        ++ batchEvents lowerPvrName (clock (k + m)) (batch mediaItems m) := by
  unfold batchesEvents
  rw [List.range_succ, List.flatMap_append]
  simp

/-- While batches go through, the loop moves on batch by batch. -/
theorem searchBatches_run {σ π : Type} (db : Database σ) (pvr : Interface π)
    (clock : Nat → Time) (lowerPvrName : String) (m : Nat) :
    ∀ (mediaItems : List database.MediaItem) (st : St σ π) (ps : Nat → π) (ss : Nat → σ),
      batchSize * m ≤ mediaItems.length → ps 0 = st.pvr → ss 0 = st.db →
      BatchesSucceed db pvr clock lowerPvrName mediaItems st.clock ps ss m →
      searchBatches db pvr clock lowerPvrName mediaItems [] st
        = searchBatches db pvr clock lowerPvrName (mediaItems.drop (batchSize * m)) []
            ⟨ss m, ps m, st.clock + m,
              st.events ++ batchesEvents lowerPvrName clock st.clock mediaItems m⟩ := by
  induction m with
  | zero =>
    intro mediaItems st ps ss _ hp hs _
    cases st
    simp only [] at hp hs
    simp [batchesEvents, hp, hs]
  | succ m ih =>
    intro mediaItems st ps ss hlen hp hs hok
    have hsplit : mediaItems = mediaItems.take batchSize ++ mediaItems.drop batchSize :=
      (List.take_append_drop _ _).symm
    have htake : (mediaItems.take batchSize).length = batchSize := by
      rw [List.length_take]
      rw [Nat.mul_succ] at hlen
      omega
    obtain ⟨h1, h2⟩ := hok 0 (Nat.succ_pos m)
    rw [batch_zero, hp] at h1
    rw [batch_zero, hs, Nat.add_zero] at h2
    conv_lhs => rw [hsplit]
    rw [searchBatches_full db pvr clock lowerPvrName _ _ st htake, h1]
    simp only [h2]
    rw [ih (mediaItems.drop batchSize) _ (fun i => ps (i + 1)) (fun i => ss (i + 1))
      (by
        rw [List.length_drop]
        rw [Nat.mul_succ] at hlen
        omega)
      rfl rfl
      (by
        intro i hi
        obtain ⟨h3, h4⟩ := hok (i + 1) (by omega)
        rw [batch_drop]
        have e : st.clock + 1 + i = st.clock + (i + 1) := by omega
        simp only [e]
        exact ⟨h3, h4⟩)]
    rw [List.drop_drop, batchesEvents_succ]
    have e1 : batchSize + batchSize * m = batchSize * (m + 1) := by
      rw [Nat.mul_succ]
      omega
    have e2 : st.clock + 1 + m = st.clock + (m + 1) := by omega
    simp only [e1, e2, List.append_assoc]

/-- The loop only ever adds events. -/
theorem searchBatches_events {σ π : Type} (db : Database σ) (pvr : Interface π)
    (clock : Nat → Time) (lowerPvrName : String) (mediaItems : List database.MediaItem) :
    ∀ (acc : List MediaItem) (st : St σ π),
      ∃ tail, (searchBatches db pvr clock lowerPvrName mediaItems acc st).st.events
        = st.events ++ tail := by
  induction mediaItems with
  | nil => intro acc st; exact ⟨[], by simp [searchBatches]⟩
  | cons item rest ih =>
    intro acc st
    rw [searchBatches]
    simp only []
    split
    · exact ih _ _
    · split
      · exact ⟨_, rfl⟩
      · exact ⟨_, rfl⟩
      · exact ⟨_, rfl⟩
      · exact ⟨_, rfl⟩
      · split
        · exact ⟨_, by simp only [List.append_assoc]; rfl⟩
        · obtain ⟨tail, ht⟩ := ih [] ⟨_, _, st.clock + 1, _⟩
          exact ⟨_, by rw [ht]; simp only [List.append_assoc]; rfl⟩

theorem searchCalls_batchesEvents (lowerPvrName : String) (clock : Nat → Time) (k : Nat)
    (mediaItems : List database.MediaItem) (m : Nat) :
    searchCalls (batchesEvents lowerPvrName clock k mediaItems m)
      = (List.range m).map (fun i => (batch mediaItems i).map database.MediaItem.Id) := by
  induction m with
  | zero => rfl
  | succ m ih =>
    rw [batchesEvents_snoc, List.range_succ, List.map_append]
    unfold searchCalls at ih ⊢
    rw [List.filterMap_append, ih]
    simp [batchEvents]

theorem cacheWrites_batchesEvents (lowerPvrName : String) (clock : Nat → Time) (k : Nat)
    (mediaItems : List database.MediaItem) (m : Nat) :
    cacheWrites (batchesEvents lowerPvrName clock k mediaItems m)
      = (List.range m).map
          (fun i => stamp (clock (k + i)) ((batch mediaItems i).map toSearchItem)) := by
  induction m with
  | zero => rfl
  | succ m ih =>
    rw [batchesEvents_snoc, List.range_succ, List.map_append]
    unfold cacheWrites at ih ⊢
    rw [List.filterMap_append, ih]
    simp [batchEvents]

theorem flatten_batches (mediaItems : List database.MediaItem) (m : Nat) :
    ((List.range m).map (fun i => batch mediaItems i)).flatten
      = mediaItems.take (batchSize * m) := by
  induction m with
  | zero => simp
  | succ m ih =>
    rw [List.range_succ, List.map_append, List.flatten_append, ih, Nat.mul_succ, List.take_add]
    simp [batch]

theorem flatten_batch_ids (mediaItems : List database.MediaItem) (m : Nat) :
    ((List.range m).map (fun i => (batch mediaItems i).map database.MediaItem.Id)).flatten
      = (mediaItems.take (batchSize * m)).map database.MediaItem.Id := by
  rw [← flatten_batches, List.map_flatten, List.map_map]
  rfl

theorem stamp_ids (t : Time) (b : List database.MediaItem) :
    (stamp t (b.map toSearchItem)).map MediaItem.ItemId = b.map database.MediaItem.Id := by
  unfold stamp
  rw [List.map_map, List.map_map]
  rfl

theorem stamp_LastSearch (t : Time) (items : List MediaItem) :
    ∀ x ∈ stamp t items, x.LastSearch = t := by
  intro x hx
  unfold stamp at hx
  obtain ⟨y, _, rfl⟩ := List.mem_map.mp hx
  rfl

theorem flatten_written_ids (clock : Nat → Time) (k : Nat)
    (mediaItems : List database.MediaItem) (m : Nat) :
    (((List.range m).map
        (fun i => stamp (clock (k + i)) ((batch mediaItems i).map toSearchItem))).flatten).map
        MediaItem.ItemId
      = (mediaItems.take (batchSize * m)).map database.MediaItem.Id := by
  rw [← flatten_batch_ids, List.map_flatten, List.map_map]
  congr 1
  apply List.map_congr_left
  intro i _
  exact stamp_ids _ _

/-- C14, as stated, fails: that every search succeeds is not enough.  With 23
rows and a client whose every search succeeds, a cache that refuses the write of
the first batch ends the run in `log.Fatal` right after the first search: one
search is issued, not `23 / 10 = 2`. -/
theorem C14_refused_write_counterexample :
    (∀ p ids, alwaysFound.SearchMediaItems p ids = Call.done (true, none) (p + 1))
    ∧ (searchBatches refusingDb alwaysFound tick "tv" (rows 23) [] ⟨0, 0, 0, []⟩).exit
        = Exit.fatal "Failed updating search items in database" (some "disk full")
    ∧ searchCalls (searchBatches refusingDb alwaysFound tick "tv" (rows 23) []
          ⟨0, 0, 0, []⟩).st.events
        = [[100, 101, 102, 103, 104, 105, 106, 107, 108, 109]]
    ∧ (rows 23).length / batchSize = 2 := by
  refine ⟨fun _ _ => rfl, by decide, by decide, by decide⟩

/-- C14, amended: when the searches and the writes of all `n / 10` full batches of the
`n` rows read from the cache go through, the loop returns; its events are
exactly, batch by batch, a clock reading, the search and the write; there are
`n / 10` searches, each for exactly 10 ids, and searches and writes together
cover exactly the first `10 (n / 10)` rows, so that none of them is for the
last `n mod 10` rows. -/
theorem C14_only_full_batches_are_searched {σ π : Type} (db : Database σ) (pvr : Interface π)
    (clock : Nat → Time) (lowerPvrName : String) (mediaItems : List database.MediaItem)
    (st : St σ π) (ps : Nat → π) (ss : Nat → σ) (hp : ps 0 = st.pvr) (hs : ss 0 = st.db)
    (hok : BatchesSucceed db pvr clock lowerPvrName mediaItems st.clock ps ss
      (mediaItems.length / batchSize)) :
    searchBatches db pvr clock lowerPvrName mediaItems [] st
        = ⟨Exit.ok, ⟨ss (mediaItems.length / batchSize), ps (mediaItems.length / batchSize),
            st.clock + mediaItems.length / batchSize,
            st.events ++ batchesEvents lowerPvrName clock st.clock mediaItems
              (mediaItems.length / batchSize)⟩⟩
    ∧ (searchCalls (batchesEvents lowerPvrName clock st.clock mediaItems
          (mediaItems.length / batchSize))).length = mediaItems.length / batchSize
    ∧ (∀ ids ∈ searchCalls (batchesEvents lowerPvrName clock st.clock mediaItems
          (mediaItems.length / batchSize)), ids.length = batchSize)
    ∧ (searchCalls (batchesEvents lowerPvrName clock st.clock mediaItems
          (mediaItems.length / batchSize))).flatten
        = (mediaItems.take (batchSize * (mediaItems.length / batchSize))).map
            database.MediaItem.Id
    ∧ ((cacheWrites (batchesEvents lowerPvrName clock st.clock mediaItems
          (mediaItems.length / batchSize))).flatten).map MediaItem.ItemId
        = (mediaItems.take (batchSize * (mediaItems.length / batchSize))).map
            database.MediaItem.Id
    ∧ (mediaItems.drop (batchSize * (mediaItems.length / batchSize))).length
        = mediaItems.length % batchSize := by
  have hle : batchSize * (mediaItems.length / batchSize) ≤ mediaItems.length :=
    Nat.mul_div_le _ _
  have hrest : (mediaItems.drop (batchSize * (mediaItems.length / batchSize))).length
      = mediaItems.length % batchSize := by
    rw [List.length_drop]
    have := Nat.div_add_mod mediaItems.length batchSize
    omega
  refine ⟨?_, ?_, ?_, ?_, ?_, hrest⟩
  · rw [searchBatches_run db pvr clock lowerPvrName _ mediaItems st ps ss hle hp hs hok]
    apply searchBatches_short
    rw [hrest]
    exact Nat.mod_lt _ (by decide)
  · rw [searchCalls_batchesEvents]
    simp
  · intro ids hids
    rw [searchCalls_batchesEvents] at hids
    obtain ⟨i, hi, rfl⟩ := List.mem_map.mp hids
    rw [List.length_map]
    apply batch_length
    have hi2 : i + 1 ≤ mediaItems.length / batchSize := List.mem_range.mp hi
    exact Nat.le_trans (Nat.mul_le_mul_left _ hi2) hle
  · rw [searchCalls_batchesEvents, flatten_batch_ids]
  · rw [cacheWrites_batchesEvents, flatten_written_ids]

/-- Witness of C14: 23 rows, a client whose searches all complete and a cache
that takes every write: two searches, for the rows 0..19. -/
theorem C14_only_full_batches_are_searched_witness :
    (searchCalls (batchesEvents "tv" tick 0 (rows 23) ((rows 23).length / batchSize))).length
        = (rows 23).length / batchSize
    ∧ (rows 23).length / batchSize = 2
    ∧ (searchCalls (batchesEvents "tv" tick 0 (rows 23)
          ((rows 23).length / batchSize))).flatten
        = ((rows 23).take (batchSize * ((rows 23).length / batchSize))).map
            database.MediaItem.Id :=
  have h := C14_only_full_batches_are_searched countingDb alwaysFound tick "tv" (rows 23)
    ⟨0, 0, 0, []⟩ (fun i => i) (fun i => i) rfl rfl (fun _ _ => ⟨rfl, rfl⟩)
  ⟨h.2.1, by decide, h.2.2.2.1⟩

/-- C15: when the batches before batch `m` went through and the search of batch
`m` returns `(true, nil)`, the events of the run go on, right after those of the
earlier batches, with one clock reading, the search of batch `m` and the write
of its 10 items, every one of them stamped with that reading; whatever else
the run does, a later search included, comes after this write. -/
theorem C15_batch_is_stamped_with_reading_before_search {σ π : Type} (db : Database σ)
    (pvr : Interface π) (clock : Nat → Time) (lowerPvrName : String)
    (mediaItems : List database.MediaItem) (st : St σ π) (ps : Nat → π) (ss : Nat → σ)
    (m : Nat) (p : π) (hlen : batchSize * (m + 1) ≤ mediaItems.length)
    (hp : ps 0 = st.pvr) (hs : ss 0 = st.db)
    (hok : BatchesSucceed db pvr clock lowerPvrName mediaItems st.clock ps ss m)
    (hsearch : pvr.SearchMediaItems (ps m) ((batch mediaItems m).map database.MediaItem.Id)
      = Call.done (true, none) p) :
    (∃ tail, (searchBatches db pvr clock lowerPvrName mediaItems [] st).st.events
        = st.events ++ batchesEvents lowerPvrName clock st.clock mediaItems m
          ++ [Event.Now (clock (st.clock + m)),
              Event.SearchMediaItems ((batch mediaItems m).map database.MediaItem.Id),
              Event.SetMediaItems lowerPvrName "missing"
                (stamp (clock (st.clock + m)) ((batch mediaItems m).map toSearchItem))]
          ++ tail)
    ∧ (stamp (clock (st.clock + m)) ((batch mediaItems m).map toSearchItem)).length = batchSize
    ∧ (∀ x ∈ stamp (clock (st.clock + m)) ((batch mediaItems m).map toSearchItem),
        x.LastSearch = clock (st.clock + m))
    ∧ (stamp (clock (st.clock + m)) ((batch mediaItems m).map toSearchItem)).map MediaItem.ItemId
        = (batch mediaItems m).map database.MediaItem.Id := by
  have hle : batchSize * m ≤ mediaItems.length := by
    rw [Nat.mul_succ] at hlen
    omega
  have hblen : (batch mediaItems m).length = batchSize := batch_length mediaItems m hlen
  refine ⟨?_, ?_, stamp_LastSearch _ _, stamp_ids _ _⟩
  · rw [searchBatches_run db pvr clock lowerPvrName m mediaItems st ps ss hle hp hs hok]
    have hsplit : mediaItems.drop (batchSize * m)
        = batch mediaItems m ++ (mediaItems.drop (batchSize * m)).drop batchSize :=
      (List.take_append_drop _ _).symm
    rw [hsplit, searchBatches_full db pvr clock lowerPvrName _ _ _ hblen]
    simp only [hsearch]
    cases hw : db.SetMediaItems (ss m) lowerPvrName "missing"
        (stamp (clock (st.clock + m)) ((batch mediaItems m).map toSearchItem)) with
    | mk e s =>
      cases e with
      | some err => exact ⟨[], by simp [batchEvents]⟩
      | none =>
        obtain ⟨tail, ht⟩ := searchBatches_events db pvr clock lowerPvrName
          ((mediaItems.drop (batchSize * m)).drop batchSize) []
          ⟨s, p, st.clock + m + 1, st.events ++ batchesEvents lowerPvrName clock st.clock
            mediaItems m ++ batchEvents lowerPvrName (clock (st.clock + m)) (batch mediaItems m)⟩
        exact ⟨tail, by rw [ht]; simp [batchEvents]⟩
  · unfold stamp
    rw [List.length_map, List.length_map, hblen]

/-- Witness of C15: the second batch of 23 rows is stamped with the second
clock reading. -/
theorem C15_batch_is_stamped_with_reading_before_search_witness :
    (∀ x ∈ stamp (tick (0 + 1)) ((batch (rows 23) 1).map toSearchItem),
        x.LastSearch = tick (0 + 1))
    ∧ ∃ tail, (searchBatches countingDb alwaysFound tick "tv" (rows 23) []
          ⟨0, 0, 0, []⟩).st.events
        = [] ++ batchesEvents "tv" tick 0 (rows 23) 1
          ++ [Event.Now (tick (0 + 1)),
              Event.SearchMediaItems ((batch (rows 23) 1).map database.MediaItem.Id),
              Event.SetMediaItems "tv" "missing"
                (stamp (tick (0 + 1)) ((batch (rows 23) 1).map toSearchItem))]
          ++ tail :=
  have h := C15_batch_is_stamped_with_reading_before_search countingDb alwaysFound tick "tv"
    (rows 23) ⟨0, 0, 0, []⟩ (fun i => i) (fun i => i) 1 2 (by decide) rfl rfl
    (fun _ _ => ⟨rfl, rfl⟩) rfl
  ⟨h.2.2.1, h.1⟩

/-- C16: when the batches before batch `j` went through and the search of batch
`j` returns an error or `false`, the run dies in `log.Fatal` right there: its
last event is that search, so no later search is issued and batch `j` is not
written back, and the cache is in the state the writes of the batches before
`j` left it in. -/
theorem C16_failed_search_ends_the_run {σ π : Type} (db : Database σ) (pvr : Interface π)
    (clock : Nat → Time) (lowerPvrName : String) (mediaItems : List database.MediaItem)
    (st : St σ π) (ps : Nat → π) (ss : Nat → σ) (j : Nat) (found : Bool)
    (err : Option String) (p : π) (hlen : batchSize * (j + 1) ≤ mediaItems.length)
    (hp : ps 0 = st.pvr) (hs : ss 0 = st.db)
    (hok : BatchesSucceed db pvr clock lowerPvrName mediaItems st.clock ps ss j)
    (hsearch : pvr.SearchMediaItems (ps j) ((batch mediaItems j).map database.MediaItem.Id)
      = Call.done (found, err) p)
    (hfail : err ≠ none ∨ found = false) :
    searchBatches db pvr clock lowerPvrName mediaItems [] st
        = ⟨(match err with
            | some e => Exit.fatal "Failed searching for items" (some e)
            | none => Exit.fatal "Failed searching for items!" none),
            ⟨ss j, p, st.clock + j + 1,
              st.events ++ batchesEvents lowerPvrName clock st.clock mediaItems j
                ++ [Event.Now (clock (st.clock + j)),
                    Event.SearchMediaItems ((batch mediaItems j).map database.MediaItem.Id)]⟩⟩
    ∧ searchCalls (batchesEvents lowerPvrName clock st.clock mediaItems j
          ++ [Event.Now (clock (st.clock + j)),
              Event.SearchMediaItems ((batch mediaItems j).map database.MediaItem.Id)])
        = (List.range (j + 1)).map (fun i => (batch mediaItems i).map database.MediaItem.Id)
    ∧ cacheWrites (batchesEvents lowerPvrName clock st.clock mediaItems j
          ++ [Event.Now (clock (st.clock + j)),
              Event.SearchMediaItems ((batch mediaItems j).map database.MediaItem.Id)])
        = (List.range j).map
            (fun i => stamp (clock (st.clock + i)) ((batch mediaItems i).map toSearchItem)) := by
  have hle : batchSize * j ≤ mediaItems.length := by
    rw [Nat.mul_succ] at hlen
    omega
  have hblen : (batch mediaItems j).length = batchSize := batch_length mediaItems j hlen
  refine ⟨?_, ?_, ?_⟩
  · rw [searchBatches_run db pvr clock lowerPvrName j mediaItems st ps ss hle hp hs hok]
    have hsplit : mediaItems.drop (batchSize * j)
        = batch mediaItems j ++ (mediaItems.drop (batchSize * j)).drop batchSize :=
      (List.take_append_drop _ _).symm
    rw [hsplit, searchBatches_full db pvr clock lowerPvrName _ _ _ hblen]
    simp only [hsearch]
    cases err with
    | some e => simp
    | none =>
      rcases hfail with h | h
      · exact absurd rfl h
      · subst h
        simp
  · unfold searchCalls
    rw [List.filterMap_append]
    have := searchCalls_batchesEvents lowerPvrName clock st.clock mediaItems j
    unfold searchCalls at this
    rw [this, List.range_succ, List.map_append]
    simp
  · unfold cacheWrites
    rw [List.filterMap_append]
    have := cacheWrites_batchesEvents lowerPvrName clock st.clock mediaItems j
    unfold cacheWrites at this
    rw [this]
    simp

/-- Witness of C16: of 35 rows the third batch fails; two writes were made. -/
theorem C16_failed_search_ends_the_run_witness :
    searchBatches countingDb (failsAfter 2) tick "tv" (rows 35) [] ⟨0, 0, 0, []⟩
      = ⟨Exit.fatal "Failed searching for items" (some "indexer down"),
          ⟨2, 3, 0 + 2 + 1,
            [] ++ batchesEvents "tv" tick 0 (rows 35) 2
              ++ [Event.Now (tick (0 + 2)),
                  Event.SearchMediaItems ((batch (rows 35) 2).map database.MediaItem.Id)]⟩⟩ :=
  (C16_failed_search_ends_the_run countingDb (failsAfter 2) tick "tv" (rows 35)
    ⟨0, 0, 0, []⟩ (fun i => i) (fun i => i) 2 false (some "indexer down") 3 (by decide) rfl rfl
    (by
      intro i hi
      refine ⟨?_, rfl⟩
      have hlt : i < 2 := hi
      simp [failsAfter, hlt])
    rfl (Or.inl (by simp))).1

/-! ## The refresh block and the run -/

theorem refreshCache_keep {σ π : Type} (db : Database σ) (pvr : Interface π)
    (lowerPvrName : String) (st : St σ π)
    (hcount : 1 ≤ db.GetItemsCount st.db lowerPvrName "missing") :
    refreshCache db pvr false lowerPvrName st
      = (none, ⟨st.db, st.pvr, st.clock,
          st.events ++ [Event.GetItemsCount lowerPvrName "missing"]⟩) := by
  have h : ¬ (false = true ∨ db.GetItemsCount st.db lowerPvrName "missing" < 1) := by
    intro h
    rcases h with h | h
    · exact absurd h (by decide)
    · omega
  unfold refreshCache
  simp only []
  rw [if_neg h]

theorem refreshCache_events {σ π : Type} (db : Database σ) (pvr : Interface π)
    (flagRefreshCache : Bool) (lowerPvrName : String) (st : St σ π) :
    ∃ tail, (refreshCache db pvr flagRefreshCache lowerPvrName st).2.events
      = st.events ++ Event.GetItemsCount lowerPvrName "missing" :: tail := by
  unfold refreshCache
  simp only []
  split
  · split
    · exact ⟨_, by simp only [List.append_assoc]; rfl⟩
    · exact ⟨_, by simp only [List.append_assoc]; rfl⟩
    · exact ⟨_, by simp only [List.append_assoc]; rfl⟩
    · split
      · exact ⟨_, by simp only [List.append_assoc]; rfl⟩
      · split
        · split
          · exact ⟨_, by simp only [List.append_assoc]; rfl⟩
          · exact ⟨_, by simp only [List.append_assoc]; rfl⟩
        · exact ⟨_, by simp only [List.append_assoc]; rfl⟩
  · exact ⟨[], rfl⟩

/-- With the gate open the fetch is the next thing the block does, and what it
fetched without error is what it writes next. -/
theorem refreshCache_fetch {σ π : Type} (db : Database σ) (pvr : Interface π)
    (flagRefreshCache : Bool) (lowerPvrName : String) (st : St σ π)
    (hgate : flagRefreshCache = true ∨ db.GetItemsCount st.db lowerPvrName "missing" < 1) :
    (∃ tail, (refreshCache db pvr flagRefreshCache lowerPvrName st).2.events
        = st.events ++ [Event.GetItemsCount lowerPvrName "missing", Event.GetWantedMissing]
          ++ tail)
    ∧ (∀ missingRecords p, pvr.GetWantedMissing st.pvr = Call.done (missingRecords, none) p →
        ∃ tail, (refreshCache db pvr flagRefreshCache lowerPvrName st).2.events
          = st.events ++ [Event.GetItemsCount lowerPvrName "missing", Event.GetWantedMissing,
              Event.SetMediaItems lowerPvrName "missing" missingRecords] ++ tail) := by
  unfold refreshCache
  simp only []
  rw [if_pos hgate]
  constructor
  · split
    · exact ⟨[], by simp⟩
    · exact ⟨[], by simp⟩
    · exact ⟨[], by simp⟩
    · split
      · exact ⟨_, by simp only [List.append_assoc]; rfl⟩
      · split
        · split
          · exact ⟨_, by simp only [List.append_assoc]; rfl⟩
          · exact ⟨_, by simp only [List.append_assoc]; rfl⟩
        · exact ⟨_, by simp only [List.append_assoc]; rfl⟩
  · intro missingRecords p hfetch
    rw [hfetch]
    simp only []
    split
    · exact ⟨[], by simp⟩
    · split
      · split
        · exact ⟨_, by simp only [List.append_assoc]; rfl⟩
        · exact ⟨_, by simp only [List.append_assoc]; rfl⟩
      · exact ⟨[], by simp⟩

/-- C20: the refresh block of the driver fetches only with the gate open.  With
the refresh flag unset and at least one cached item it does nothing but read
the item count: no fetch, no write, cache and client as they were when the rows
are read next.  With the flag set or less than one cached item it issues the
fetch right after reading the count, and what the fetch returns without error
is written to the cache next. -/
theorem C20_fetch_only_on_refresh_or_empty_cache {σ π : Type} (db : Database σ)
    (pvr : Interface π) (flagRefreshCache : Bool) (lowerPvrName : String) (st : St σ π) :
    (flagRefreshCache = false ∧ 1 ≤ db.GetItemsCount st.db lowerPvrName "missing" →
        refreshCache db pvr flagRefreshCache lowerPvrName st
          = (none, ⟨st.db, st.pvr, st.clock,
              st.events ++ [Event.GetItemsCount lowerPvrName "missing"]⟩))
    ∧ (flagRefreshCache = true ∨ db.GetItemsCount st.db lowerPvrName "missing" < 1 →
        (∃ tail, (refreshCache db pvr flagRefreshCache lowerPvrName st).2.events
            = st.events ++ [Event.GetItemsCount lowerPvrName "missing", Event.GetWantedMissing]
              ++ tail)
        ∧ (∀ missingRecords p,
            pvr.GetWantedMissing st.pvr = Call.done (missingRecords, none) p →
            ∃ tail, (refreshCache db pvr flagRefreshCache lowerPvrName st).2.events
              = st.events ++ [Event.GetItemsCount lowerPvrName "missing",
                  Event.GetWantedMissing,
                  Event.SetMediaItems lowerPvrName "missing" missingRecords] ++ tail)) := by
  constructor
  · rintro ⟨hflag, hcount⟩
    rw [hflag]
    exact refreshCache_keep db pvr lowerPvrName st hcount
  · intro hgate
    exact refreshCache_fetch db pvr flagRefreshCache lowerPvrName st hgate

/-- Witness of C20: a cache of three items without the refresh flag, and the
same cache with it. -/
theorem C20_fetch_only_on_refresh_or_empty_cache_witness :
    refreshCache specDatabase (lists (itemsWithIds [2, 3, 4])) false "tv"
        ⟨cacheWithIds [1, 2, 3], 0, 0, []⟩
      = (none, ⟨cacheWithIds [1, 2, 3], 0, 0, [] ++ [Event.GetItemsCount "tv" "missing"]⟩)
    ∧ ∃ tail, (refreshCache specDatabase (lists (itemsWithIds [2, 3, 4])) true "tv"
          ⟨cacheWithIds [1, 2, 3], 0, 0, []⟩).2.events
        = [] ++ [Event.GetItemsCount "tv" "missing", Event.GetWantedMissing,
            Event.SetMediaItems "tv" "missing" (itemsWithIds [2, 3, 4])] ++ tail :=
  ⟨(C20_fetch_only_on_refresh_or_empty_cache specDatabase (lists (itemsWithIds [2, 3, 4]))
      false "tv" ⟨cacheWithIds [1, 2, 3], 0, 0, []⟩).1 ⟨rfl, by decide⟩,
    ((C20_fetch_only_on_refresh_or_empty_cache specDatabase (lists (itemsWithIds [2, 3, 4]))
      true "tv" ⟨cacheWithIds [1, 2, 3], 0, 0, []⟩).2 (Or.inl rfl)).2 _ _ rfl⟩

theorem readAndSearch_events {σ π : Type} (db : Database σ) (pvr : Interface π)
    (clock : Nat → Time) (lowerPvrName : String) (st : St σ π) :
    ∃ tail, (readAndSearch db pvr clock lowerPvrName st).st.events = st.events ++ tail := by
  unfold readAndSearch
  simp only []
  split
  · exact ⟨_, rfl⟩
  · obtain ⟨tail, ht⟩ := searchBatches_events db pvr clock lowerPvrName _ []
      ⟨st.db, st.pvr, st.clock, st.events ++ [Event.GetMediaItems lowerPvrName "missing"]⟩
    exact ⟨_, by rw [ht]; simp only [List.append_assoc]; rfl⟩

/-! ## The cache as the specification describes it -/

theorem GetWantedMissing_served (srv : Oracle (List RadarrV5Movie)) (hist : List Request)
    (resp : Response (List RadarrV5Movie)) (records : List RadarrV5Movie)
    (hr : srv hist (Request.get "/movie") = .ok resp) (hc : resp.StatusCode = 200)
    (hj : resp.json = .ok records) :
    RadarrV5.GetWantedMissing srv hist
      = (((records.filter (fun m => m.Monitored && m.Status == "released" && !m.HasFile)).map
          RadarrV5.store, none), hist ++ [Request.get "/movie"]) := by
  simp [RadarrV5.GetWantedMissing, RadarrV5.fetchMovies, hr, hc, hj, foldl_missingStep]

theorem GetWantedCutoff_served (srv : Oracle (List RadarrV5Movie)) (hist : List Request)
    (resp : Response (List RadarrV5Movie)) (records : List RadarrV5Movie)
    (hr : srv hist (Request.get "/movie") = .ok resp) (hc : resp.StatusCode = 200)
    (hj : resp.json = .ok records) :
    RadarrV5.GetWantedCutoff srv hist
      = (((records.filter (fun m => m.MovieFile.QualityCutoffNotMet)).map RadarrV5.store, none),
          hist ++ [Request.get "/movie"]) := by
  simp [RadarrV5.GetWantedCutoff, RadarrV5.fetchMovies, hr, hc, hj, foldl_cutoffStep]

/-- C28: the item ids of `RadarrV5.GetWantedMissing` are, in the order of the
served records, the ids of the records that are monitored, of status
"released" and without file, one item per such record, each with a zero
`LastSearch`; and a listing served with status 200 and a body that decodes is
answered with exactly these items and no error. -/
theorem C28_missing_is_the_filtered_list (srv : Oracle (List RadarrV5Movie))
    (hist : List Request) :
    (RadarrV5.GetWantedMissing srv hist).1.1.map MediaItem.ItemId
        = ((servedMovies (srv hist (Request.get "/movie"))).filter
            (fun m => m.Monitored && m.Status == "released" && !m.HasFile)).map RadarrV5Movie.Id
    ∧ (RadarrV5.GetWantedMissing srv hist).1.1.length
        = ((servedMovies (srv hist (Request.get "/movie"))).filter
            (fun m => m.Monitored && m.Status == "released" && !m.HasFile)).length
    ∧ (∀ x ∈ (RadarrV5.GetWantedMissing srv hist).1.1, x.LastSearch = Time.zero)
    ∧ (∀ resp records, srv hist (Request.get "/movie") = .ok resp → resp.StatusCode = 200 →
        resp.json = .ok records →
        RadarrV5.GetWantedMissing srv hist
          = (((records.filter
                (fun m => m.Monitored && m.Status == "released" && !m.HasFile)).map
              RadarrV5.store, none), hist ++ [Request.get "/movie"])) := by
  refine ⟨?_, ?_, ?_, fun resp records hr hc hj =>
    GetWantedMissing_served srv hist resp records hr hc hj⟩
  · rw [GetWantedMissing_items, List.map_map]
    rfl
  · rw [GetWantedMissing_items, List.length_map]
  · intro x hx
    rw [GetWantedMissing_items] at hx
    obtain ⟨m, _, rfl⟩ := List.mem_map.mp hx
    rfl

/-- Witness of C28: of the three listed movies the first and the third are
missing. -/
theorem C28_missing_is_the_filtered_list_witness :
    RadarrV5.GetWantedMissing movieServer []
      = ((([earlyMovie, idleMovie, datedMovie].filter
            (fun m => m.Monitored && m.Status == "released" && !m.HasFile)).map
          RadarrV5.store, none), [] ++ [Request.get "/movie"])
    ∧ (RadarrV5.GetWantedMissing movieServer []).1.1.map MediaItem.ItemId = [1, 3] :=
  ⟨(C28_missing_is_the_filtered_list movieServer []).2.2.2
      ⟨200, "200 OK", .ok [earlyMovie, idleMovie, datedMovie]⟩ _ rfl rfl rfl,
    by decide⟩

/-- C29: the items of `RadarrV5.GetWantedCutoff` are, in the order of the served
records, the items of the records whose `MovieFile.QualityCutoffNotMet` is set;
every served record with the flag set has its item in the output, whatever its
`Monitored`, `HasFile` and `Status`. -/
theorem C29_cutoff_admits_on_flag_alone (srv : Oracle (List RadarrV5Movie))
    (hist : List Request) :
    (RadarrV5.GetWantedCutoff srv hist).1.1
        = ((servedMovies (srv hist (Request.get "/movie"))).filter
            (fun m => m.MovieFile.QualityCutoffNotMet)).map RadarrV5.store
    ∧ (∀ m ∈ servedMovies (srv hist (Request.get "/movie")),
        m.MovieFile.QualityCutoffNotMet = true →
        RadarrV5.store m ∈ (RadarrV5.GetWantedCutoff srv hist).1.1
        ∧ m.Id ∈ (RadarrV5.GetWantedCutoff srv hist).1.1.map MediaItem.ItemId)
    ∧ (∀ resp records, srv hist (Request.get "/movie") = .ok resp → resp.StatusCode = 200 →
        resp.json = .ok records →
        RadarrV5.GetWantedCutoff srv hist
          = (((records.filter (fun m => m.MovieFile.QualityCutoffNotMet)).map RadarrV5.store,
              none), hist ++ [Request.get "/movie"])) := by
  refine ⟨GetWantedCutoff_items srv hist, ?_, fun resp records hr hc hj =>
    GetWantedCutoff_served srv hist resp records hr hc hj⟩
  intro m hm hflag
  have hmem : RadarrV5.store m ∈ (RadarrV5.GetWantedCutoff srv hist).1.1 := by
    rw [GetWantedCutoff_items]
    exact List.mem_map_of_mem _ (List.mem_filter.mpr ⟨hm, hflag⟩)
  exact ⟨hmem, List.mem_map.mpr ⟨_, hmem, rfl⟩⟩

/-- Witness of C29: a movie that is not monitored, has no file and is not
released is on the cutoff list because of its flag. -/
theorem C29_cutoff_admits_on_flag_alone_witness :
    flaggedMovie.Monitored = false ∧ flaggedMovie.HasFile = false
    ∧ flaggedMovie.Status ≠ "released"
    ∧ RadarrV5.store flaggedMovie ∈ (RadarrV5.GetWantedCutoff flaggedServer []).1.1
    ∧ flaggedMovie.Id ∈ (RadarrV5.GetWantedCutoff flaggedServer []).1.1.map MediaItem.ItemId :=
  ⟨rfl, rfl, by decide,
    (C29_cutoff_admits_on_flag_alone flaggedServer []).2.1 flaggedMovie (by decide) rfl⟩

/-! ## Init on the empty version -/

/-- C26 fails on the code: when the server reports the empty version string,
`Init` of every adapter aborts the program in the slice `Version[0:1]` instead
of returning. -/
theorem C26_init_aborts_on_empty_version (a : Adapter) (srv : Oracle SystemStatus)
    (hist : List Request) (h : reportedVersion (srv hist statusRequest) = some "") :
    a.Init srv hist = (Outcome.panicked, hist ++ [statusRequest]) := by
  rw [Init_eq]
  unfold init
  rw [getSystemStatus_ok srv a.app hist "" h]

/-- Witness of C26: Sonarr v4 and Radarr v5 against a server that reports the
empty version. -/
theorem C26_init_aborts_on_empty_version_witness :
    SonarrV4.Init (versionServer "") [] = (Outcome.panicked, [] ++ [statusRequest])
    ∧ RadarrV5.Init (versionServer "") [] = (Outcome.panicked, [] ++ [statusRequest]) :=
  ⟨C26_init_aborts_on_empty_version .sonarrV4 (versionServer "") [] rfl,
    C26_init_aborts_on_empty_version .radarrV5 (versionServer "") [] rfl⟩

/-! ## A page that fails -/

theorem wantedLoop_fail {ρ : Type} (srv : Oracle (Wanted ρ)) (path : String)
    (errs : WantedErrors) (store : ρ → MediaItem) (fuel page last : Nat)
    (wanted : List MediaItem) (hist : List Request) (h : pvrDefaultPageSize ≤ last)
    (hp : pageOf (srv hist (pageRequest path page)) = none) :
    ∃ e, wantedLoop srv path errs store (fuel + 1) page last wanted hist
      = some (([], some e), hist ++ [pageRequest path page]) := by
  have hlt : ¬ last < pvrDefaultPageSize := Nat.not_lt.mpr h
  cases hr : srv hist (pageRequest path page) with
  | error e =>
    unfold pageRequest at hr
    exact ⟨withMessage e errs.retrieving, by simp [wantedLoop, hlt, hr, pageRequest]⟩
  | ok resp =>
    rw [hr] at hp
    simp only [pageOf] at hp
    by_cases hc : resp.StatusCode = 200
    · rw [if_pos hc] at hp
      cases hj : resp.json with
      | error e =>
        unfold pageRequest at hr
        exact ⟨withMessage e errs.decoding, by simp [wantedLoop, hlt, hr, hc, hj, pageRequest]⟩
      | ok m => simp [hj] at hp
    · unfold pageRequest at hr
      exact ⟨errs.invalid ++ ": " ++ resp.Status, by simp [wantedLoop, hlt, hr, hc, pageRequest]⟩

/-- Pages of at least the page size only consume fuel, add their items and
lead to the request for the next page. -/
theorem wantedLoop_skip {ρ : Type} (srv : Oracle (Wanted ρ)) (path : String)
    (errs : WantedErrors) (store : ρ → MediaItem) (n : Nat) :
    ∀ (fuel page last : Nat) (wanted : List MediaItem) (hist : List Request)
      (pages : Nat → List ρ),
      pvrDefaultPageSize ≤ last →
      (∀ i, i < n → pageOf (srv (hist ++ pageRequests path page i)
          (pageRequest path (page + i))) = some (pages i)
        ∧ pvrDefaultPageSize ≤ (pages i).length) →
      ∃ last1, pvrDefaultPageSize ≤ last1
        ∧ wantedLoop srv path errs store (n + fuel) page last wanted hist
          = wantedLoop srv path errs store fuel (page + n) last1
              (wanted ++ (List.range n).flatMap (fun i => (pages i).map store))
              (hist ++ pageRequests path page n) := by
  induction n with
  | zero =>
    intro fuel page last wanted hist pages hl _
    exact ⟨last, hl, by simp [pageRequests_zero]⟩
  | succ n ih =>
    intro fuel page last wanted hist pages hl hs
    obtain ⟨h0, h0len⟩ := hs 0 (Nat.succ_pos n)
    simp only [pageRequests_zero, List.append_nil, Nat.add_zero] at h0
    obtain ⟨last1, hl1, hrun⟩ := ih fuel (page + 1) (pages 0).length
      (wanted ++ (pages 0).map store) (hist ++ [pageRequest path page])
      (fun i => pages (i + 1)) h0len
      (by
        intro i hi
        obtain ⟨h, hlen⟩ := hs (i + 1) (by omega)
        rw [pageRequests_succ] at h
        have e : page + 1 + i = page + (i + 1) := by omega
        rw [e]
        exact ⟨by simpa [List.append_assoc] using h, hlen⟩)
    refine ⟨last1, hl1, ?_⟩
    have e : n + 1 + fuel = (n + fuel) + 1 := by omega
    rw [e, wantedLoop_step srv path errs store (n + fuel) page last wanted hist (pages 0) hl h0,
      hrun, pageRequests_succ path page n, List.range_succ_eq_map n]
    have e2 : page + 1 + n = page + (n + 1) := by omega
    simp [List.flatMap_cons, List.flatMap_map, List.append_assoc, Function.comp, e2]

/-- C27: when the requests for the pages 1..n are answered with accepted pages
of at least the page size and the request for page n+1 fails, is answered with
a status other than 200, or with a body that does not decode, every paginated
fetch returns, given fuel for n+1 iterations, an error and no item at all, and
the request for page n+1 is the last one it issued. -/
theorem C27_failed_page_discards_everything (a : PagedAdapter) (kind : ListKind)
    (srv : Oracle (Wanted a.Record)) (hist : List Request) (n : Nat)
    (pages : Nat → List a.Record)
    (hfull : ∀ i, i < n →
      pageOf (srv (hist ++ pageRequests kind.path 1 i) (pageRequest kind.path (1 + i)))
        = some (pages i) ∧ pvrDefaultPageSize ≤ (pages i).length)
    (hfail : pageOf (srv (hist ++ pageRequests kind.path 1 n) (pageRequest kind.path (1 + n)))
      = none)
    (fuel : Nat) (hfuel : n + 1 ≤ fuel) :
    ∃ e, a.GetWanted kind srv fuel hist
      = some (([], some e), hist ++ pageRequests kind.path 1 (n + 1)) := by
  obtain ⟨errs, store, _, hloop⟩ := GetWanted_loop a kind
  obtain ⟨last1, hl1, hrun⟩ := wantedLoop_skip srv kind.path errs store n (fuel - n) 1
    pvrDefaultPageSize [] hist pages (Nat.le_refl _) hfull
  have e : n + (fuel - n) = fuel := by omega
  rw [e] at hrun
  obtain ⟨f, hf⟩ : ∃ f, fuel - n = f + 1 := ⟨fuel - n - 1, by omega⟩
  rw [hf] at hrun
  obtain ⟨err, herr⟩ := wantedLoop_fail srv kind.path errs store f (1 + n) last1
    ([] ++ (List.range n).flatMap (fun i => (pages i).map store))
    (hist ++ pageRequests kind.path 1 n) hl1 hfail
  refine ⟨err, ?_⟩
  rw [hloop, hrun, herr]
  have e3 : pageRequests kind.path 1 (n + 1)
      = pageRequests kind.path 1 n ++ [pageRequest kind.path (1 + n)] := by
    simp [pageRequests, List.range_succ]
  rw [e3, List.append_assoc]

/-- Witness of C27: a full first page, then status 500 for the second. -/
theorem C27_failed_page_discards_everything_witness :
    ∃ e, PagedAdapter.sonarrV4.GetWanted .cutoff fullThenBroken 2 []
      = some (([], some e), [] ++ pageRequests ListKind.cutoff.path 1 (1 + 1)) :=
  C27_failed_page_discards_everything .sonarrV4 .cutoff fullThenBroken [] 1
    (fun _ => episodesFrom 0 pvrDefaultPageSize)
    (by
      intro i hi
      obtain rfl : i = 0 := by omega
      exact ⟨by simp [fullThenBroken, pageReply, pageOf, pageRequests],
        by simp [episodesFrom]⟩)
    (by simp [fullThenBroken, pageOf, pageRequests]) 2 (by decide)

/-! ## Polling without a ceiling, uniformly -/

theorem monitorLoop_status_error (table : Char → Bool) (srv : Oracle CommandStatus)
    (app : String) (id : Int) (fuel : Nat) (hist : List Request)
    (h : statusOf (srv hist (pollRequest id)) = none) :
    ∃ e, monitorLoop table srv app id (fuel + 1) hist
      = some ((false, some e), hist ++ [pollRequest id]) := by
  rcases getCommandStatus_fst srv app id hist with ⟨st, hst, _⟩ | ⟨_, e, he⟩
  · rw [h] at hst
    cases hst
  · have hs : getCommandStatus srv app id hist = (.error e, hist ++ [pollRequest id]) :=
      Prod.ext he (getCommandStatus_snd srv app id hist)
    exact ⟨withMessage e
      ("failed retrieving command status from " ++ app ++ " for: " ++ toString id),
      by rw [monitorLoop, hs]⟩

theorem not_pendingAt_zero (srv : Oracle CommandStatus) (hist : List Request) (id : Int)
    (h : ∀ st, statusOf (srv hist (pollRequest id)) = some st →
      st.Status ≠ "queued" ∧ st.Status ≠ "started") :
    ¬ pendingAt srv hist id 0 := by
  rintro ⟨st, hst, hp⟩
  simp only [List.replicate_zero, List.append_nil] at hst
  obtain ⟨h1, h2⟩ := h st hst
  rcases hp with hp | hp
  · exact h1 hp
  · exact h2 hp

theorem pendingAt_shift (srv : Oracle CommandStatus) (hist : List Request) (id : Int)
    (j : Nat) :
    pendingAt srv (hist ++ [pollRequest id]) id j ↔ pendingAt srv hist id (j + 1) := by
  unfold pendingAt
  rw [replicate_shift]

/-- The monitoring loop returns only at a poll that does not report a pending
status, all polls before it having reported one. -/
theorem monitorLoop_returns (table : Char → Bool) (srv : Oracle CommandStatus)
    (app : String) (id : Int) (fuel : Nat) :
    ∀ (hist : List Request) (r : Bool × Option String) (hist1 : List Request),
      monitorLoop table srv app id fuel hist = some (r, hist1) →
      ∃ j, j < fuel ∧ hist1 = hist ++ List.replicate (j + 1) (pollRequest id)
        ∧ (∀ i, i < j → pendingAt srv hist id i) ∧ ¬ pendingAt srv hist id j := by
  induction fuel with
  | zero =>
    intro hist r hist1 h
    simp [monitorLoop] at h
  | succ fuel ih =>
    intro hist r hist1 h
    cases hs : statusOf (srv hist (pollRequest id)) with
    | none =>
      obtain ⟨e, he⟩ := monitorLoop_status_error table srv app id fuel hist hs
      rw [he] at h
      simp only [Option.some.injEq, Prod.mk.injEq] at h
      refine ⟨0, Nat.succ_pos _, by simp [← h.2], fun i hi => absurd hi (Nat.not_lt_zero i), ?_⟩
      apply not_pendingAt_zero
      intro st hst
      rw [hs] at hst
      cases hst
    | some st =>
      by_cases hp : st.Status = "queued" ∨ st.Status = "started"
      · rw [monitorLoop_pending_step table srv app id fuel hist st hs hp] at h
        obtain ⟨j, hj, hh, hpend, hnot⟩ := ih _ _ _ h
        refine ⟨j + 1, by omega, by rw [hh, replicate_shift], ?_, ?_⟩
        · intro i hi
          cases i with
          | zero => exact ⟨st, by simpa using hs, hp⟩
          | succ i => exact (pendingAt_shift srv hist id i).mp (hpend i (by omega))
        · exact fun hc => hnot ((pendingAt_shift srv hist id j).mpr hc)
      · have h1 : st.Status ≠ "queued" := fun hq => hp (Or.inl hq)
        have h2 : st.Status ≠ "started" := fun hq => hp (Or.inr hq)
        have hnot : ¬ pendingAt srv hist id 0 := by
          apply not_pendingAt_zero
          intro st1 hst1
          rw [hs] at hst1
          cases hst1
          exact ⟨h1, h2⟩
        have hh : hist1 = hist ++ [pollRequest id] := by
          by_cases h3 : st.Status = "completed"
          · rw [monitorLoop_completed table srv app id fuel hist st hs h3] at h
            simp only [Option.some.injEq, Prod.mk.injEq] at h
            exact h.2.symm
          · by_cases h4 : st.Status = "failed"
            · rw [monitorLoop_failed table srv app id fuel hist st hs h4] at h
              simp only [Option.some.injEq, Prod.mk.injEq] at h
              exact h.2.symm
            · rw [monitorLoop_unexpected table srv app id fuel hist st hs h1 h2 h3 h4] at h
              simp only [Option.some.injEq, Prod.mk.injEq] at h
              exact h.2.symm
        exact ⟨0, Nat.succ_pos _, by simp [hh], fun i hi => absurd hi (Nat.not_lt_zero i), hnot⟩

/-- The loop standing at a poll that does not report a pending status returns
right after that poll. -/
theorem monitorLoop_stops (table : Char → Bool) (srv : Oracle CommandStatus)
    (app : String) (id : Int) (fuel : Nat) (hist : List Request)
    (h : ¬ pendingAt srv hist id 0) :
    ∃ r, monitorLoop table srv app id (fuel + 1) hist = some (r, hist ++ [pollRequest id]) := by
  cases hs : statusOf (srv hist (pollRequest id)) with
  | none =>
    obtain ⟨e, he⟩ := monitorLoop_status_error table srv app id fuel hist hs
    exact ⟨_, he⟩
  | some st =>
    have hp : ¬ (st.Status = "queued" ∨ st.Status = "started") :=
      fun hp => h ⟨st, by simpa using hs, hp⟩
    have h1 : st.Status ≠ "queued" := fun hq => hp (Or.inl hq)
    have h2 : st.Status ≠ "started" := fun hq => hp (Or.inr hq)
    by_cases h3 : st.Status = "completed"
    · exact ⟨_, monitorLoop_completed table srv app id fuel hist st hs h3⟩
    · by_cases h4 : st.Status = "failed"
      · exact ⟨_, monitorLoop_failed table srv app id fuel hist st hs h4⟩
      · exact ⟨_, monitorLoop_unexpected table srv app id fuel hist st hs h1 h2 h3 h4⟩

theorem pendingAt_add (srv : Oracle CommandStatus) (hist : List Request) (id : Int)
    (n j : Nat) :
    pendingAt srv (hist ++ List.replicate n (pollRequest id)) id j
      ↔ pendingAt srv hist id (n + j) := by
  unfold pendingAt
  rw [List.append_assoc, ← List.replicate_add]

/-- C24: if the trigger is accepted and the first `n` status polls all report
"queued" or "started", then `SearchMediaItems` of every adapter has not returned
after `n` polls and issues poll `n + 1`: given fuel for it, the search returns
right after poll `n + 1`, with exactly `n + 1` polls issued, when that poll does
not report "queued" or "started"; when it does, the search has still not
returned after it and goes on polling from a history that holds `n + 1` polls;
with any fuel the search either is still polling or has returned with at
least `n + 1` polls issued.  And whenever it returns after an accepted trigger,
it does so right after a poll that did not report "queued" or "started" (another
status, or a status request that failed), all earlier polls having reported one
of the two.  This holds for every `n`: nothing bounds the number of polls. -/
theorem C24_polling_has_no_ceiling (a : Adapter) (table : Char → Bool)
    (cmd : Oracle CommandResponse) (srv : Oracle CommandStatus) (ids : List Int)
    (hist : List Request) (id : Int) (n : Nat)
    (htrig : acceptedId (cmd hist (a.triggerRequest ids)) = some id)
    (hpend : ∀ j, j < n → pendingAt srv (hist ++ [a.triggerRequest ids]) id j) :
    a.SearchMediaItems table cmd srv ids n hist = none
    ∧ (¬ pendingAt srv (hist ++ [a.triggerRequest ids]) id n →
        ∀ fuel, n + 1 ≤ fuel →
          ∃ r, a.SearchMediaItems table cmd srv ids fuel hist
            = some (r, hist ++ [a.triggerRequest ids]
                ++ List.replicate (n + 1) (pollRequest id)))
    ∧ (pendingAt srv (hist ++ [a.triggerRequest ids]) id n →
        a.SearchMediaItems table cmd srv ids (n + 1) hist = none
        ∧ ∀ fuel, n + 1 ≤ fuel →
            a.SearchMediaItems table cmd srv ids fuel hist
              = monitorLoop table srv a.app id (fuel - (n + 1))
                  (hist ++ [a.triggerRequest ids] ++ List.replicate (n + 1) (pollRequest id)))
    ∧ (∀ fuel, n + 1 ≤ fuel →
        a.SearchMediaItems table cmd srv ids fuel hist = none
        ∨ ∃ r tail, a.SearchMediaItems table cmd srv ids fuel hist
            = some (r, hist ++ [a.triggerRequest ids]
                ++ List.replicate (n + 1) (pollRequest id) ++ tail))
    ∧ (∀ fuel r hist1, a.SearchMediaItems table cmd srv ids fuel hist = some (r, hist1) →
        ∃ j, n ≤ j ∧ j < fuel
          ∧ hist1 = hist ++ [a.triggerRequest ids] ++ List.replicate (j + 1) (pollRequest id)
          ∧ (∀ i, i < j → pendingAt srv (hist ++ [a.triggerRequest ids]) id i)
          ∧ ¬ pendingAt srv (hist ++ [a.triggerRequest ids]) id j) := by
  have hret : ∀ fuel r hist1, a.SearchMediaItems table cmd srv ids fuel hist = some (r, hist1) →
      ∃ j, n ≤ j ∧ j < fuel
        ∧ hist1 = hist ++ [a.triggerRequest ids] ++ List.replicate (j + 1) (pollRequest id)
        ∧ (∀ i, i < j → pendingAt srv (hist ++ [a.triggerRequest ids]) id i)
        ∧ ¬ pendingAt srv (hist ++ [a.triggerRequest ids]) id j := by
    intro fuel r hist1 hres
    obtain ⟨name, idsField, hreq, heq⟩ := SearchMediaItems_eq_app a table cmd srv ids fuel hist
    rw [heq] at hres
    rw [hreq] at htrig
    rw [searchMediaItems_accepted table cmd srv a.app name idsField ids fuel hist id htrig,
      ← hreq] at hres
    obtain ⟨j, hjf, hh, hp, hnot⟩ := monitorLoop_returns table srv a.app id fuel _ _ _ hres
    refine ⟨j, ?_, hjf, hh, hp, hnot⟩
    by_contra hlt
    exact hnot (hpend j (by omega))
  refine ⟨?_, ?_, ?_, ?_, hret⟩
  · cases hres : a.SearchMediaItems table cmd srv ids n hist with
    | none => rfl
    | some x =>
      obtain ⟨j, hj, hjn, _⟩ := hret n x.1 x.2 hres
      omega
  · intro hnot fuel hfuel
    obtain ⟨app, f, hreach⟩ := search_reaches_poll a table cmd srv ids hist id n htrig hpend
      fuel hfuel
    have hnot0 : ¬ pendingAt srv
        (hist ++ [a.triggerRequest ids] ++ List.replicate n (pollRequest id)) id 0 :=
      fun hc => hnot ((pendingAt_add srv _ id n 0).mp hc)
    obtain ⟨r, hr⟩ := monitorLoop_stops table srv app id f _ hnot0
    exact ⟨r, by rw [hreach, hr, replicate_snoc]⟩
  · intro hp
    constructor
    · cases hres : a.SearchMediaItems table cmd srv ids (n + 1) hist with
      | none => rfl
      | some x =>
        obtain ⟨j, hj, hjn, _, _, hnot⟩ := hret (n + 1) x.1 x.2 hres
        have e : j = n := by omega
        rw [e] at hnot
        exact absurd hp hnot
    · intro fuel hfuel
      obtain ⟨name, idsField, hreq, heq⟩ :=
        SearchMediaItems_eq_app a table cmd srv ids fuel hist
      have htrig1 := htrig
      rw [hreq] at htrig1
      rw [heq, searchMediaItems_accepted table cmd srv a.app name idsField ids fuel hist id
        htrig1, ← hreq]
      have e : fuel = (n + 1) + (fuel - (n + 1)) := by omega
      conv_lhs => rw [e]
      apply monitorLoop_skip
      intro j hj
      by_cases hjn : j < n
      · exact hpend j hjn
      · have e2 : j = n := by omega
        rw [e2]
        exact hp
  · intro fuel _
    cases hres : a.SearchMediaItems table cmd srv ids fuel hist with
    | none => exact Or.inl rfl
    | some x =>
      obtain ⟨j, hj, _, hh, _, _⟩ := hret fuel x.1 x.2 hres
      refine Or.inr ⟨x.1, List.replicate (j - n) (pollRequest id), ?_⟩
      have hx : x = (x.1, x.2) := rfl
      rw [hx, hh, List.append_assoc _ (List.replicate (n + 1) _), ← List.replicate_add]
      have e : n + 1 + (j - n) = j + 1 := by omega
      rw [e]

/-- Witness of C24: against a server that reports "queued" for ever, a search
with fuel for seven polls has not returned; against a server that reports
"queued", "started", "queued" and then "failed", a search has not returned after
three polls and returns right after the fourth. -/
theorem C24_polling_has_no_ceiling_witness :
    Adapter.lidarrV2.SearchMediaItems (fun _ => false) (acceptAs 3) alwaysQueued [1] 7 []
        = none
    ∧ Adapter.lidarrV2.SearchMediaItems (fun _ => false) (acceptAs 3)
          (scripted [("queued", ""), ("started", ""), ("queued", ""), ("failed", "")]) [1] 3 []
        = none
    ∧ ∃ r, Adapter.lidarrV2.SearchMediaItems (fun _ => false) (acceptAs 3)
          (scripted [("queued", ""), ("started", ""), ("queued", ""), ("failed", "")]) [1] 9 []
        = some (r, [] ++ [Adapter.lidarrV2.triggerRequest [1]]
            ++ List.replicate (3 + 1) (pollRequest 3)) :=
  have h := C24_polling_has_no_ceiling .lidarrV2 (fun _ => false) (acceptAs 3)
    (scripted [("queued", ""), ("started", ""), ("queued", ""), ("failed", "")]) [1] [] 3 3
    rfl
    (by
      intro j hj
      obtain rfl | rfl | rfl : j = 0 ∨ j = 1 ∨ j = 2 := by omega
      · exact ⟨⟨"", "", Time.zero, Time.zero, "queued"⟩, rfl, Or.inl rfl⟩
      · exact ⟨⟨"", "", Time.zero, Time.zero, "started"⟩, rfl, Or.inr rfl⟩
      · exact ⟨⟨"", "", Time.zero, Time.zero, "queued"⟩, rfl, Or.inl rfl⟩)
  ⟨(C24_polling_has_no_ceiling .lidarrV2 (fun _ => false) (acceptAs 3) alwaysQueued [1] [] 3 7
      rfl (fun _ _ => ⟨⟨"", "", Time.zero, Time.zero, "queued"⟩, rfl, Or.inl rfl⟩)).1,
    h.1,
    h.2.1
      (by
        rintro ⟨st, hst, hp⟩
        have e : st = ⟨"", "", Time.zero, Time.zero, "failed"⟩ :=
          (Option.some.inj hst).symm
        rw [e] at hp
        rcases hp with hp | hp
        · exact absurd hp (by decide)
        · exact absurd hp (by decide))
      9 (by decide)⟩

theorem monitorLoop_uniform (table : Char → Bool) (srv : Oracle CommandStatus)
    (hsrv : IndexScripted srv) (app1 app2 : String) (id : Int) (fuel : Nat) :
    ∀ (h1 h2 : List Request), h1.length = h2.length →
      outcome (monitorLoop table srv app1 id fuel h1)
        = outcome (monitorLoop table srv app2 id fuel h2) := by
  induction fuel with
  | zero => intro h1 h2 _; rfl
  | succ fuel ih =>
    intro h1 h2 hlen
    have hsame : srv h1 (pollRequest id) = srv h2 (pollRequest id) := hsrv _ _ _ _ hlen
    have hlen1 : (h1 ++ [pollRequest id]).length = (h2 ++ [pollRequest id]).length := by
      simp [hlen]
    cases hs : statusOf (srv h1 (pollRequest id)) with
    | none =>
      have hs2 : statusOf (srv h2 (pollRequest id)) = none := by rw [← hsame]; exact hs
      obtain ⟨e1, he1⟩ := monitorLoop_status_error table srv app1 id fuel h1 hs
      obtain ⟨e2, he2⟩ := monitorLoop_status_error table srv app2 id fuel h2 hs2
      rw [he1, he2]
      simp [outcome, hlen]
    | some st =>
      have hs2 : statusOf (srv h2 (pollRequest id)) = some st := by rw [← hsame]; exact hs
      by_cases hp : st.Status = "queued" ∨ st.Status = "started"
      · rw [monitorLoop_pending_step table srv app1 id fuel h1 st hs hp,
          monitorLoop_pending_step table srv app2 id fuel h2 st hs2 hp]
        exact ih _ _ hlen1
      · have hq : st.Status ≠ "queued" := fun hq => hp (Or.inl hq)
        have hst : st.Status ≠ "started" := fun hq => hp (Or.inr hq)
        by_cases h3 : st.Status = "completed"
        · rw [monitorLoop_completed table srv app1 id fuel h1 st hs h3,
            monitorLoop_completed table srv app2 id fuel h2 st hs2 h3]
          simp [outcome, hlen]
        · by_cases h4 : st.Status = "failed"
          · rw [monitorLoop_failed table srv app1 id fuel h1 st hs h4,
              monitorLoop_failed table srv app2 id fuel h2 st hs2 h4]
            simp [outcome, hlen]
          · rw [monitorLoop_unexpected table srv app1 id fuel h1 st hs hq hst h3 h4,
              monitorLoop_unexpected table srv app2 id fuel h2 st hs2 hq hst h3 h4]
            simp [outcome, hlen]

/-- C23: against a trigger oracle and a status oracle that answer by position
only, `SearchMediaItems` of any two of the five adapters come to the same
outcome: both are still polling, or both returned the same boolean, both with or
both without an error, after the same number of requests, that is after the
same number of polls. -/
theorem C23_search_is_uniform_across_adapters (a b : Adapter) (table : Char → Bool)
    (cmd : Oracle CommandResponse) (srv : Oracle CommandStatus) (hcmd : IndexScripted cmd)
    (hsrv : IndexScripted srv) (ids : List Int) (fuel : Nat) (hist : List Request) :
    outcome (a.SearchMediaItems table cmd srv ids fuel hist)
      = outcome (b.SearchMediaItems table cmd srv ids fuel hist) := by
  obtain ⟨name1, field1, hreq1, heq1⟩ := SearchMediaItems_eq_app a table cmd srv ids fuel hist
  obtain ⟨name2, field2, hreq2, heq2⟩ := SearchMediaItems_eq_app b table cmd srv ids fuel hist
  rw [heq1, heq2]
  have hsame : cmd hist (Request.postCommand "/command" name1 field1 ids)
      = cmd hist (Request.postCommand "/command" name2 field2 ids) := hcmd _ _ _ _ rfl
  cases hacc : acceptedId (cmd hist (Request.postCommand "/command" name1 field1 ids)) with
  | none =>
    have hacc2 : acceptedId (cmd hist (Request.postCommand "/command" name2 field2 ids))
        = none := by rw [← hsame]; exact hacc
    obtain ⟨e1, he1⟩ :=
      searchMediaItems_rejected table cmd srv a.app name1 field1 ids fuel hist hacc
    obtain ⟨e2, he2⟩ :=
      searchMediaItems_rejected table cmd srv b.app name2 field2 ids fuel hist hacc2
    rw [he1, he2]
    simp [outcome]
  | some id =>
    have hacc2 : acceptedId (cmd hist (Request.postCommand "/command" name2 field2 ids))
        = some id := by rw [← hsame]; exact hacc
    rw [searchMediaItems_accepted table cmd srv a.app name1 field1 ids fuel hist id hacc,
      searchMediaItems_accepted table cmd srv b.app name2 field2 ids fuel hist id hacc2]
    exact monitorLoop_uniform table srv hsrv a.app b.app id fuel _ _ (by simp)

/-- Witness of C23: Sonarr v4 and Radarr v5 on the script queued, failed. -/
theorem C23_search_is_uniform_across_adapters_witness :
    outcome (Adapter.sonarrV4.SearchMediaItems (fun _ => false) (acceptAs 42)
        (scripted [("queued", ""), ("failed", "disk full")]) [5] 4 [])
      = outcome (Adapter.radarrV5.SearchMediaItems (fun _ => false) (acceptAs 42)
        (scripted [("queued", ""), ("failed", "disk full")]) [5] 4 [])
    ∧ outcome (Adapter.radarrV5.SearchMediaItems (fun _ => false) (acceptAs 42)
        (scripted [("queued", ""), ("failed", "disk full")]) [5] 4 []) = some (false, true, 3) :=
  ⟨C23_search_is_uniform_across_adapters .sonarrV4 .radarrV5 (fun _ => false) (acceptAs 42)
      (scripted [("queued", ""), ("failed", "disk full")]) (fun _ _ _ _ _ => rfl)
      (by
        intro h h1 _ _ hlen
        simp only [scripted, hlen])
      [5] 4 [],
    by decide⟩

/-! ## The batches, position by position -/

theorem searchCalls_append (a b : List Event) :
    searchCalls (a ++ b) = searchCalls a ++ searchCalls b := by
  unfold searchCalls
  rw [List.filterMap_append]

/-- A full batch at the head of the rows is searched, whatever the search comes
to. -/
theorem searchBatches_full_events {σ π : Type} (db : Database σ) (pvr : Interface π)
    (clock : Nat → Time) (lowerPvrName : String) (b rest : List database.MediaItem)
    (st : St σ π) (hb : b.length = batchSize) :
    ∃ tail, (searchBatches db pvr clock lowerPvrName (b ++ rest) [] st).st.events
      = st.events ++ [Event.Now (clock st.clock),
          Event.SearchMediaItems (b.map database.MediaItem.Id)] ++ tail := by
  rw [searchBatches_full db pvr clock lowerPvrName b rest st hb]
  split
  · exact ⟨[], by simp⟩
  · exact ⟨[], by simp⟩
  · exact ⟨[], by simp⟩
  · exact ⟨[], by simp⟩
  · split
    · exact ⟨_, by simp only [batchEvents, List.append_assoc]; rfl⟩
    · obtain ⟨tail, ht⟩ := searchBatches_events db pvr clock lowerPvrName rest []
        ⟨_, _, st.clock + 1, st.events ++ batchEvents lowerPvrName (clock st.clock) b⟩
      exact ⟨_, by rw [ht]; simp only [batchEvents, List.append_assoc]; rfl⟩

/-- The searches of the loop are, in order, searches for the batches `0, 1, ...`
of the rows: the id lists searched are an initial part of the list of the id
lists of all full batches. -/
theorem searchBatches_calls {σ π : Type} (db : Database σ) (pvr : Interface π)
    (clock : Nat → Time) (lowerPvrName : String) (n : Nat) :
    ∀ (mediaItems : List database.MediaItem) (st : St σ π),
      mediaItems.length / batchSize = n →
      ∃ tail, (searchBatches db pvr clock lowerPvrName mediaItems [] st).st.events
          = st.events ++ tail
        ∧ searchCalls tail
          <+: (List.range n).map (fun i => (batch mediaItems i).map database.MediaItem.Id) := by
  induction n with
  | zero =>
    intro mediaItems st hn
    have hlt : mediaItems.length < batchSize := by
      have := Nat.div_add_mod mediaItems.length batchSize
      have := Nat.mod_lt mediaItems.length (show 0 < batchSize by decide)
      rw [hn] at *
      omega
    rw [searchBatches_short db pvr clock lowerPvrName mediaItems st hlt]
    exact ⟨[], by simp, by simp [searchCalls]⟩
  | succ n ih =>
    intro mediaItems st hn
    have hlen : batchSize ≤ mediaItems.length := by
      have := Nat.div_add_mod mediaItems.length batchSize
      rw [hn, Nat.mul_succ] at this
      omega
    have hdrop : (mediaItems.drop batchSize).length / batchSize = n := by
      rw [List.length_drop]
      have h1 : mediaItems.length = (mediaItems.length - batchSize) + batchSize := by omega
      rw [h1, Nat.add_div_right _ (show 0 < batchSize by decide)] at hn
      exact Nat.succ.inj hn
    have hrange : (List.range (n + 1)).map
          (fun i => (batch mediaItems i).map database.MediaItem.Id)
        = (mediaItems.take batchSize).map database.MediaItem.Id
          :: (List.range n).map
            (fun i => (batch (mediaItems.drop batchSize) i).map database.MediaItem.Id) := by
      rw [List.range_succ_eq_map, List.map_cons, List.map_map, batch_zero]
      congr 1
      apply List.map_congr_left
      intro i _
      simp only [Function.comp, batch_drop]
    rw [hrange]
    generalize hb : mediaItems.take batchSize = b at *
    generalize hr : mediaItems.drop batchSize = rest at *
    have hsplit : mediaItems = b ++ rest := by
      rw [← hb, ← hr]
      exact (List.take_append_drop _ _).symm
    have htake : b.length = batchSize := by
      rw [← hb, List.length_take]
      omega
    have hone : ∀ (l : List Event),
        searchCalls ([Event.Now (clock st.clock),
          Event.SearchMediaItems (b.map database.MediaItem.Id)] ++ l)
        = b.map database.MediaItem.Id :: searchCalls l := by
      intro l
      rw [searchCalls_append]
      rfl
    have hnil : searchCalls [Event.Now (clock st.clock),
          Event.SearchMediaItems (b.map database.MediaItem.Id)]
        <+: b.map database.MediaItem.Id :: (List.range n).map
            (fun i => (batch rest i).map database.MediaItem.Id) :=
      ⟨_, rfl⟩
    rw [hsplit, searchBatches_full db pvr clock lowerPvrName _ _ st htake]
    split
    · exact ⟨_, rfl, hnil⟩
    · exact ⟨_, rfl, hnil⟩
    · exact ⟨_, rfl, hnil⟩
    · exact ⟨_, rfl, hnil⟩
    · split
      · exact ⟨batchEvents lowerPvrName (clock st.clock) b, rfl, ⟨_, rfl⟩⟩
      · obtain ⟨tail, ht, hpre⟩ := ih rest
          ⟨_, _, st.clock + 1, st.events ++ batchEvents lowerPvrName (clock st.clock) b⟩ hdrop
        refine ⟨batchEvents lowerPvrName (clock st.clock) b ++ tail,
          by rw [ht]; simp only [List.append_assoc], ?_⟩
        have : batchEvents lowerPvrName (clock st.clock) b ++ tail
            = [Event.Now (clock st.clock),
                Event.SearchMediaItems (b.map database.MediaItem.Id)]
              ++ (Event.SetMediaItems lowerPvrName "missing"
                    (stamp (clock st.clock) (b.map toSearchItem)) :: tail) := rfl
        rw [this, hone]
        have hskip : searchCalls (Event.SetMediaItems lowerPvrName "missing"
              (stamp (clock st.clock) (b.map toSearchItem)) :: tail)
            = searchCalls tail := rfl
        rw [hskip]
        exact (List.prefix_cons_inj _).mpr hpre

theorem batch_getElem? (mediaItems : List database.MediaItem) (i k : Nat)
    (hk : k < batchSize) :
    ((batch mediaItems i).map database.MediaItem.Id)[k]?
      = (mediaItems.map database.MediaItem.Id)[batchSize * i + k]? := by
  unfold batch
  rw [List.getElem?_map, List.getElem?_map, List.getElem?_take_of_lt hk, List.getElem?_drop]

/-- C25: when the rows are read from the cache without error, search number
`i` of the run (from 0), if the run gets to it, is for exactly the ids of the
rows at the positions `10 i .. 10 i + 9` in the order they were read; the id
lists of all searches of the run, one after the other, are an initial part of
the ids of the rows read, so that no row is in two batches; and the run does
get to search number `i` when the rows `10 i .. 10 i + 9` exist and the searches
and writes of the batches before it went through. -/
theorem C25_search_i_takes_rows_10i_to_10i_plus_9 {σ π : Type} (db : Database σ)
    (pvr : Interface π) (clock : Nat → Time) (lowerPvrName : String) (st : St σ π)
    (mediaItems : List database.MediaItem)
    (hread : db.GetMediaItems st.db lowerPvrName "missing" = (mediaItems, none)) :
    ∃ tail, (readAndSearch db pvr clock lowerPvrName st).st.events
        = st.events ++ Event.GetMediaItems lowerPvrName "missing" :: tail
      ∧ (∀ i ids, (searchCalls tail)[i]? = some ids →
          ids = (batch mediaItems i).map database.MediaItem.Id
          ∧ ids.length = batchSize
          ∧ ∀ k, k < batchSize →
              ids[k]? = (mediaItems.map database.MediaItem.Id)[batchSize * i + k]?)
      ∧ (searchCalls tail).flatten <+: mediaItems.map database.MediaItem.Id
      ∧ (∀ (ps : Nat → π) (ss : Nat → σ) (i : Nat), ps 0 = st.pvr → ss 0 = st.db →
          batchSize * (i + 1) ≤ mediaItems.length →
          BatchesSucceed db pvr clock lowerPvrName mediaItems st.clock ps ss i →
          (searchCalls tail)[i]? = some ((batch mediaItems i).map database.MediaItem.Id)) := by
  have hrs : readAndSearch db pvr clock lowerPvrName st
      = searchBatches db pvr clock lowerPvrName mediaItems []
          ⟨st.db, st.pvr, st.clock, st.events ++ [Event.GetMediaItems lowerPvrName "missing"]⟩ := by
    unfold readAndSearch
    rw [hread]
  obtain ⟨tail, ht, r, hr⟩ := searchBatches_calls db pvr clock lowerPvrName
    (mediaItems.length / batchSize) mediaItems
    ⟨st.db, st.pvr, st.clock, st.events ++ [Event.GetMediaItems lowerPvrName "missing"]⟩ rfl
  have hle : batchSize * (mediaItems.length / batchSize) ≤ mediaItems.length :=
    Nat.mul_div_le _ _
  refine ⟨tail, by rw [hrs, ht]; simp, ?_, ?_, ?_⟩
  · intro i ids h
    have hi : i < (searchCalls tail).length := by
      by_contra hc
      rw [List.getElem?_eq_none (by omega)] at h
      cases h
    have h2 : ((List.range (mediaItems.length / batchSize)).map
        (fun i => (batch mediaItems i).map database.MediaItem.Id))[i]? = some ids := by
      rw [← hr, List.getElem?_append_left hi]
      exact h
    have hin : i < mediaItems.length / batchSize := by
      have := congrArg List.length hr
      simp only [List.length_append, List.length_map, List.length_range] at this
      omega
    rw [List.getElem?_map, List.getElem?_range hin] at h2
    have hids : ids = (batch mediaItems i).map database.MediaItem.Id := by
      simpa using h2.symm
    refine ⟨hids, ?_, ?_⟩
    · rw [hids, List.length_map]
      apply batch_length
      have hi2 : i + 1 ≤ mediaItems.length / batchSize := hin
      exact Nat.le_trans (Nat.mul_le_mul_left _ hi2) hle
    · intro k hk
      rw [hids]
      exact batch_getElem? mediaItems i k hk
  · have hfl := congrArg List.flatten hr
    rw [List.flatten_append, flatten_batch_ids] at hfl
    exact List.IsPrefix.trans ⟨_, hfl⟩ (List.IsPrefix.map _ (List.take_prefix _ _))
  · intro ps ss i hp hs hlen hok
    have hle2 : batchSize * i ≤ mediaItems.length := by
      rw [Nat.mul_succ] at hlen
      omega
    have hblen : (batch mediaItems i).length = batchSize := batch_length mediaItems i hlen
    have hsplit : mediaItems.drop (batchSize * i)
        = batch mediaItems i ++ (mediaItems.drop (batchSize * i)).drop batchSize :=
      (List.take_append_drop _ _).symm
    have hrun := searchBatches_run db pvr clock lowerPvrName i mediaItems
      ⟨st.db, st.pvr, st.clock, st.events ++ [Event.GetMediaItems lowerPvrName "missing"]⟩
      ps ss hle2 hp hs hok
    rw [hsplit] at hrun
    obtain ⟨tail2, ht2⟩ := searchBatches_full_events db pvr clock lowerPvrName
      (batch mediaItems i) ((mediaItems.drop (batchSize * i)).drop batchSize)
      ⟨ss i, ps i, st.clock + i,
        st.events ++ [Event.GetMediaItems lowerPvrName "missing"]
          ++ batchesEvents lowerPvrName clock st.clock mediaItems i⟩ hblen
    rw [← hrun, ht] at ht2
    simp only [List.append_assoc] at ht2
    have htail := List.append_cancel_left (List.append_cancel_left ht2)
    rw [htail, searchCalls_append, searchCalls_batchesEvents]
    have hlen2 : ((List.range i).map
        (fun i => (batch mediaItems i).map database.MediaItem.Id)).length = i := by simp
    rw [List.getElem?_append_right (by omega), hlen2, Nat.sub_self]
    simp [searchCalls]

/-- Witness of C25: 23 rows with the ids 100 .. 122 in the cache; the second
search is for the ids 110 .. 119. -/
theorem C25_search_i_takes_rows_10i_to_10i_plus_9_witness :
    ∃ tail, (readAndSearch specDatabase alwaysFound tick "tv"
          ⟨cacheWithIds ((List.range 23).map (fun i => ((100 + i : Nat) : Int))), 0, 0, []⟩).st.events
        = [] ++ Event.GetMediaItems "tv" "missing" :: tail
      ∧ (searchCalls tail)[1]? = some [110, 111, 112, 113, 114, 115, 116, 117, 118, 119] := by
  obtain ⟨tail, h1, _, _, h4⟩ := C25_search_i_takes_rows_10i_to_10i_plus_9 specDatabase
    alwaysFound tick "tv"
    ⟨cacheWithIds ((List.range 23).map (fun i => ((100 + i : Nat) : Int))), 0, 0, []⟩
    (rows 23) (by decide)
  refine ⟨tail, h1, ?_⟩
  have h := h4 (fun i => i)
    (fun i => Nat.rec (cacheWithIds ((List.range 23).map (fun i => ((100 + i : Nat) : Int))))
      (fun j c => (specDatabase.SetMediaItems c "tv" "missing"
        (stamp (tick j) ((batch (rows 23) j).map toSearchItem))).2) i)
    1 rfl rfl (by decide)
    (by
      intro i hi
      have hi0 : i = 0 := by omega
      subst hi0
      exact ⟨rfl, rfl⟩)
  rw [h]
  decide

/-! ## The queue is never looked at -/

theorem searchBatches_congr {σ π : Type} (db : Database σ) (pvr pvr1 : Interface π)
    (clock : Nat → Time) (lowerPvrName : String)
    (h : pvr.SearchMediaItems = pvr1.SearchMediaItems)
    (mediaItems : List database.MediaItem) :
    ∀ (acc : List MediaItem) (st : St σ π),
      searchBatches db pvr clock lowerPvrName mediaItems acc st
        = searchBatches db pvr1 clock lowerPvrName mediaItems acc st := by
  induction mediaItems with
  | nil => intro acc st; simp [searchBatches]
  | cons item rest ih =>
    intro acc st
    simp only [searchBatches, h, ih]

theorem refreshCache_congr {σ π : Type} (db : Database σ) (pvr pvr1 : Interface π)
    (flagRefreshCache : Bool) (lowerPvrName : String) (st : St σ π)
    (h : pvr.GetWantedMissing = pvr1.GetWantedMissing) :
    refreshCache db pvr flagRefreshCache lowerPvrName st
      = refreshCache db pvr1 flagRefreshCache lowerPvrName st := by
  unfold refreshCache
  rw [h]

theorem readAndSearch_congr {σ π : Type} (db : Database σ) (pvr pvr1 : Interface π)
    (clock : Nat → Time) (lowerPvrName : String) (st : St σ π)
    (h : pvr.SearchMediaItems = pvr1.SearchMediaItems) :
    readAndSearch db pvr clock lowerPvrName st
      = readAndSearch db pvr1 clock lowerPvrName st := by
  unfold readAndSearch
  simp only [searchBatches_congr db pvr pvr1 clock lowerPvrName h]

theorem Run_congr {σ π : Type} (printTable : Char → Bool) (lowerTable : Char → Char)
    (Config : String → Option config.Pvr) (bind bind1 : Client → Interface π)
    (db : Database σ) (clock : Nat → Time) (flagDatabaseFile : String)
    (flagRefreshCache : Bool) (pvrName : String) (st : St σ π)
    (h : ∀ client, SameButQueue (bind client) (bind1 client)) :
    Run printTable lowerTable Config bind db clock flagDatabaseFile flagRefreshCache pvrName st
      = Run printTable lowerTable Config bind1 db clock flagDatabaseFile flagRefreshCache
          pvrName st := by
  unfold Run
  cases hparse : parseValidateInputs printTable lowerTable Config pvrName with
  | error err => rfl
  | ok v =>
    obtain ⟨lowerPvrName, pvrConfig, client⟩ := v
    cases client with
    | none => rfl
    | some client =>
      obtain ⟨hI, hM, _, hS⟩ := h client
      simp only [hI, refreshCache_congr db (bind client) (bind1 client) flagRefreshCache
        lowerPvrName _ hM, readAndSearch_congr db (bind client) (bind1 client) clock
        lowerPvrName _ hS]

theorem count_queue_append (a b : List Event) :
    (a ++ b).count Event.GetQueueSize
      = a.count Event.GetQueueSize + b.count Event.GetQueueSize :=
  List.count_append _ _ _

theorem searchBatches_queue {σ π : Type} (db : Database σ) (pvr : Interface π)
    (clock : Nat → Time) (lowerPvrName : String) (mediaItems : List database.MediaItem) :
    ∀ (acc : List MediaItem) (st : St σ π),
      (searchBatches db pvr clock lowerPvrName mediaItems acc st).st.events.count
          Event.GetQueueSize
        = st.events.count Event.GetQueueSize := by
  induction mediaItems with
  | nil => intro acc st; simp [searchBatches]
  | cons item rest ih =>
    intro acc st
    rw [searchBatches]
    simp only []
    split
    · exact ih _ _
    · split
      · simp [List.count_cons]
      · simp [List.count_cons]
      · simp [List.count_cons]
      · simp [List.count_cons]
      · split
        · simp [List.count_cons]
        · rw [ih]
          simp [List.count_cons]

theorem refreshCache_queue {σ π : Type} (db : Database σ) (pvr : Interface π)
    (flagRefreshCache : Bool) (lowerPvrName : String) (st : St σ π) :
    (refreshCache db pvr flagRefreshCache lowerPvrName st).2.events.count Event.GetQueueSize
      = st.events.count Event.GetQueueSize := by
  unfold refreshCache
  simp only []
  split
  · split
    · simp [List.count_cons]
    · simp [List.count_cons]
    · simp [List.count_cons]
    · split
      · simp [List.count_cons]
      · split
        · split
          · simp [List.count_cons]
          · simp [List.count_cons]
        · simp [List.count_cons]
  · simp [List.count_cons]

theorem readAndSearch_queue {σ π : Type} (db : Database σ) (pvr : Interface π)
    (clock : Nat → Time) (lowerPvrName : String) (st : St σ π) :
    (readAndSearch db pvr clock lowerPvrName st).st.events.count Event.GetQueueSize
      = st.events.count Event.GetQueueSize := by
  unfold readAndSearch
  simp only []
  split
  · simp [List.count_cons]
  · rw [searchBatches_queue]
    simp [List.count_cons]

theorem Run_queue {σ π : Type} (printTable : Char → Bool) (lowerTable : Char → Char)
    (Config : String → Option config.Pvr) (bind : Client → Interface π)
    (db : Database σ) (clock : Nat → Time) (flagDatabaseFile : String)
    (flagRefreshCache : Bool) (pvrName : String) (st : St σ π) :
    (Run printTable lowerTable Config bind db clock flagDatabaseFile flagRefreshCache pvrName
        st).st.events.count Event.GetQueueSize
      = st.events.count Event.GetQueueSize := by
  unfold Run
  split
  · rfl
  · rfl
  · rename_i lowerPvrName pvrConfig client hparse
    simp only []
    split
    · simp [List.count_cons]
    · simp [List.count_cons]
    · simp [List.count_cons]
    · split
      · simp [List.count_cons]
      · rename_i p hinit x s hs
        split
        · rename_i exit st1 hr
          have h := refreshCache_queue db (bind client) flagRefreshCache lowerPvrName
            ⟨s, p, st.clock, st.events ++ [Event.Init]
              ++ [Event.databaseInit flagDatabaseFile]⟩
          rw [hr] at h
          simp only [] at h
          rw [h]
          simp [List.count_cons]
        · rename_i st1 hr
          have h := refreshCache_queue db (bind client) flagRefreshCache lowerPvrName
            ⟨s, p, st.clock, st.events ++ [Event.Init]
              ++ [Event.databaseInit flagDatabaseFile]⟩
          rw [hr] at h
          simp only [] at h
          rw [readAndSearch_queue, h]
          simp [List.count_cons]

theorem Run_events {σ π : Type} (printTable : Char → Bool) (lowerTable : Char → Char)
    (Config : String → Option config.Pvr) (bind : Client → Interface π)
    (db : Database σ) (clock : Nat → Time) (flagDatabaseFile : String)
    (flagRefreshCache : Bool) (pvrName : String) (st : St σ π) :
    ∃ tail, (Run printTable lowerTable Config bind db clock flagDatabaseFile flagRefreshCache
        pvrName st).st.events = st.events ++ tail := by
  unfold Run
  split
  · exact ⟨[], by simp⟩
  · exact ⟨[], by simp⟩
  · rename_i lowerPvrName pvrConfig client hparse
    simp only []
    split
    · exact ⟨_, rfl⟩
    · exact ⟨_, rfl⟩
    · exact ⟨_, rfl⟩
    · split
      · exact ⟨_, by simp only [List.append_assoc]; rfl⟩
      · rename_i s hs
        split
        · rename_i exit st1 hr
          obtain ⟨tail, ht⟩ := refreshCache_events db (bind client) flagRefreshCache
            lowerPvrName ⟨s, _, st.clock, st.events ++ [Event.Init]
              ++ [Event.databaseInit flagDatabaseFile]⟩
          rw [hr] at ht
          simp only [] at ht
          exact ⟨_, by rw [ht]; simp only [List.append_assoc]; rfl⟩
        · rename_i st1 hr
          obtain ⟨tail, ht⟩ := refreshCache_events db (bind client) flagRefreshCache
            lowerPvrName ⟨s, _, st.clock, st.events ++ [Event.Init]
              ++ [Event.databaseInit flagDatabaseFile]⟩
          rw [hr] at ht
          obtain ⟨tail2, ht2⟩ := readAndSearch_events db (bind client) clock lowerPvrName st1
          simp only [] at ht
          exact ⟨_, by rw [ht2, ht]; simp only [List.append_assoc]; rfl⟩

/-- C22: two runs of the command `missing` that differ only in the flag
`--queue-size` and in what `GetQueueSize` of the client would do, so in the queue
size the server would report, end the same way, with the same cache, the same
client state and the same events: the same searches and the same cache writes
in the same order.  And a run never calls `GetQueueSize`: no event it adds is
a call of it. -/
theorem C22_run_ignores_queue_size {σ π : Type} (flags flags1 : Flags)
    (printTable : Char → Bool) (lowerTable : Char → Char)
    (Config : String → Option config.Pvr) (bind bind1 : Client → Interface π)
    (db : Database σ) (clock : Nat → Time) (flagDatabaseFile : String) (pvrName : String)
    (st : St σ π) (hflag : flags.flagRefreshCache = flags1.flagRefreshCache)
    (hsame : ∀ client, SameButQueue (bind client) (bind1 client)) :
    missingCmd flags printTable lowerTable Config bind db clock flagDatabaseFile pvrName st
        = missingCmd flags1 printTable lowerTable Config bind1 db clock flagDatabaseFile
            pvrName st
    ∧ searchCalls (missingCmd flags printTable lowerTable Config bind db clock
          flagDatabaseFile pvrName st).st.events
        = searchCalls (missingCmd flags1 printTable lowerTable Config bind1 db clock
          flagDatabaseFile pvrName st).st.events
    ∧ cacheWrites (missingCmd flags printTable lowerTable Config bind db clock
          flagDatabaseFile pvrName st).st.events
        = cacheWrites (missingCmd flags1 printTable lowerTable Config bind1 db clock
          flagDatabaseFile pvrName st).st.events
    ∧ ∃ tail, (missingCmd flags printTable lowerTable Config bind db clock
          flagDatabaseFile pvrName st).st.events = st.events ++ tail
        ∧ Event.GetQueueSize ∉ tail := by
  have heq : missingCmd flags printTable lowerTable Config bind db clock flagDatabaseFile
        pvrName st
      = missingCmd flags1 printTable lowerTable Config bind1 db clock flagDatabaseFile
          pvrName st := by
    unfold missingCmd
    rw [hflag]
    exact Run_congr printTable lowerTable Config bind bind1 db clock flagDatabaseFile
      flags1.flagRefreshCache pvrName st hsame
  refine ⟨heq, by rw [heq], by rw [heq], ?_⟩
  unfold missingCmd
  obtain ⟨tail, ht⟩ := Run_events printTable lowerTable Config bind db clock flagDatabaseFile
    flags.flagRefreshCache pvrName st
  have hq := Run_queue printTable lowerTable Config bind db clock flagDatabaseFile
    flags.flagRefreshCache pvrName st
  rw [ht, count_queue_append] at hq
  refine ⟨tail, ht, ?_⟩
  apply List.count_eq_zero.mp
  omega

/-- Witness of C22: the run against a Sonarr with an empty queue and the flag
at 5, and the run against a Sonarr with 99 records in its queue and the flag at
0. -/
theorem C22_run_ignores_queue_size_witness :
    (SonarrV4.GetQueueSize (queueServer 0) []).1 = (0, none)
    ∧ (SonarrV4.GetQueueSize (queueServer 99) []).1 = (99, none)
    ∧ missingCmd ⟨5, true⟩ (fun _ => false) (fun c => c) tvConfig (bindQueue 0) specDatabase
          tick "vault.db" "tv" ⟨cacheWithIds [1, 2, 3], [], 0, []⟩
        = missingCmd ⟨0, true⟩ (fun _ => false) (fun c => c) tvConfig (bindQueue 99)
            specDatabase tick "vault.db" "tv" ⟨cacheWithIds [1, 2, 3], [], 0, []⟩ :=
  ⟨by decide, by decide,
    (C22_run_ignores_queue_size ⟨5, true⟩ ⟨0, true⟩ (fun _ => false) (fun c => c) tvConfig
      (bindQueue 0) (bindQueue 99) specDatabase tick "vault.db" "tv"
      ⟨cacheWithIds [1, 2, 3], [], 0, []⟩ rfl (fun _ => ⟨rfl, rfl, rfl, rfl⟩)).1⟩

/-! ## Bare dates -/

theorem leapYear_iff (y : Nat) :
    leapYear y = true ↔ (y % 4 = 0 ∧ y % 100 ≠ 0) ∨ y % 400 = 0 := by
  simp only [leapYear, Bool.and_eq_true, Bool.or_eq_true, beq_iff_eq, bne_iff_ne, ne_eq]

theorem isLeap_eq_leapYear (y : Nat) : isLeap y = leapYear y := by
  rw [Bool.eq_iff_iff]
  simp only [isLeap, leapYear, Bool.and_eq_true, Bool.or_eq_true, beq_iff_eq, bne_iff_ne, ne_eq]
  omega

theorem daysSinceYearOne_eq (y : Nat) : daysSinceYearOne y = startOfYear y := by
  induction y with
  | zero => decide
  | succ y ih =>
    rw [startOfYear, ← ih]
    unfold daysSinceYearOne yearLength
    simp only [Nat.cast_add, Nat.cast_one]
    by_cases hl : leapYear y = true
    · rw [if_pos hl]
      rw [leapYear_iff] at hl
      simp only [Nat.cast_ofNat]
      omega
    · rw [if_neg hl]
      rw [leapYear_iff] at hl
      simp only [Nat.cast_ofNat]
      omega

theorem daysIn_eq (y m : Nat) (h1 : 1 ≤ m) (h12 : m ≤ 12) : daysIn m y = monthLength y m := by
  unfold daysIn
  rw [isLeap_eq_leapYear]
  cases hl : leapYear y <;> interval_cases m <;> simp [daysBefore, monthLength, hl]

theorem daysBefore_eq (y m : Nat) (h1 : 1 ≤ m) (h12 : m ≤ 12) :
    (daysBefore (m - 1) : Int) + (if isLeap y = true ∧ m ≥ 3 then 1 else 0)
      = (startOfMonth y m : Int) := by
  rw [isLeap_eq_leapYear]
  cases hl : leapYear y <;> interval_cases m <;>
    simp [daysBefore, startOfMonth, monthLength, List.range_succ, hl]

theorem dateUTC_eq (y m d : Nat) (h1 : 1 ≤ m) (h12 : m ≤ 12) (hd : 1 ≤ d) :
    dateUTC y m d = midnightUTC y m d := by
  unfold dateUTC midnightUTC
  simp only []
  rw [daysSinceYearOne_eq, ← daysBefore_eq y m h1 h12]
  have e : (((d - 1 : Nat) : Int)) = (d : Int) - 1 := by omega
  rw [e]
  congr 1
  ring

theorem digitChar_isDigit (n : Nat) : (digitChar n).isDigit = true := by
  have h : ∀ k, k < 10 → (Char.ofNat (48 + k)).isDigit = true := by decide
  exact h _ (Nat.mod_lt _ (by decide))

theorem digitVal_digitChar (n : Nat) : digitVal (digitChar n) = n % 10 := by
  have h : ∀ k, k < 10 → digitVal (Char.ofNat (48 + k)) = k := by decide
  exact h _ (Nat.mod_lt _ (by decide))

theorem monthLength_le (y m : Nat) : monthLength y m ≤ 31 := by
  unfold monthLength
  split <;> try split
  all_goals omega

/-- The bare date string of a date parses to midnight UTC of that date. -/
theorem parseDate_renderDate (y m d : Nat) (h : ValidDate y m d) :
    parseDate (renderDate y m d) = some (midnightUTC y m d) := by
  obtain ⟨hy, hm1, hm12, hd1, hd⟩ := h
  have hd31 := monthLength_le y m
  have ey : (y / 1000 % 10) * 1000 + (y / 100 % 10) * 100 + (y / 10 % 10) * 10 + y % 10 = y := by
    omega
  have em : (m / 10 % 10) * 10 + m % 10 = m := by omega
  have ed : (d / 10 % 10) * 10 + d % 10 = d := by omega
  have hmo : ¬ (m ≤ 0 ∨ 12 < m) := by omega
  have hda : ¬ (d < 1 ∨ d > daysIn m y) := by
    rw [daysIn_eq y m hm1 hm12]
    omega
  simp only [parseDate, renderDate, digitChar_isDigit, digitVal_digitChar, and_self, if_true,
    ey, em, ed, if_neg hmo, if_neg hda]
  rw [dateUTC_eq y m d hm1 hm12 hd1]

theorem digitVal_le (c : Char) (hc : c.isDigit = true) : digitVal c ≤ 9 := by
  simp only [Char.isDigit, Bool.and_eq_true, decide_eq_true_eq] at hc
  have h2 : c.val.toNat ≤ 57 := hc.2
  have e : c.toNat = c.val.toNat := rfl
  unfold digitVal
  omega

theorem digit_render (c : Char) (hc : c.isDigit = true) (n : Nat)
    (hn : n % 10 = digitVal c) : c = digitChar n := by
  unfold digitChar
  rw [hn]
  exact (isDigit_eq_iff c (digitVal c) (digitVal_le c hc) hc).mpr rfl

/-- What `parseDate` accepts is the bare date string of a date. -/
theorem parseDate_some (s : String) (t : Time) (h : parseDate s = some t) :
    WellFormedDate s := by
  unfold parseDate at h
  split at h
  · rename_i y1 y2 y3 y4 s1 m1 m2 s2 d1 d2 hdata
    split at h
    · rename_i hc
      obtain ⟨h1, h2, h3, h4, hs1, h5, h6, hs2, h7, h8⟩ := hc
      simp only [] at h
      split at h
      · cases h
      · rename_i hmo
        split at h
        · cases h
        · rename_i hda
          have b1 := digitVal_le y1 h1
          have b2 := digitVal_le y2 h2
          have b3 := digitVal_le y3 h3
          have b4 := digitVal_le y4 h4
          have b5 := digitVal_le m1 h5
          have b6 := digitVal_le m2 h6
          have b7 := digitVal_le d1 h7
          have b8 := digitVal_le d2 h8
          have hm1 : 1 ≤ digitVal m1 * 10 + digitVal m2 := by omega
          have hm12 : digitVal m1 * 10 + digitVal m2 ≤ 12 := by omega
          rw [daysIn_eq _ _ hm1 hm12] at hda
          refine ⟨digitVal y1 * 1000 + digitVal y2 * 100 + digitVal y3 * 10 + digitVal y4,
            digitVal m1 * 10 + digitVal m2, digitVal d1 * 10 + digitVal d2,
            ⟨by omega, hm1, hm12, by omega, by omega⟩, ?_⟩
          have hs : s = String.mk s.data := rfl
          rw [hs, hdata, hs1, hs2]
          unfold renderDate
          rw [← digit_render y1 h1 _ (by omega), ← digit_render y2 h2 _ (by omega),
            ← digit_render y3 h3 _ (by omega), ← digit_render y4 h4 _ (by omega),
            ← digit_render m1 h5 _ (by omega), ← digit_render m2 h6 _ (by omega),
            ← digit_render d1 h7 _ (by omega), ← digit_render d2 h8 _ (by omega)]
    · cases h
  · cases h

/-- A string that is not the bare date string of a date leaves the zero time. -/
theorem parseDateOrZero_malformed (s : String) (h : ¬ WellFormedDate s) :
    parseDateOrZero s = Time.zero := by
  unfold parseDateOrZero
  cases hp : parseDate s with
  | none => rfl
  | some t => exact absurd (parseDate_some s t hp) h

theorem parseDateOrZero_renderDate (y m d : Nat) (h : ValidDate y m d) :
    parseDateOrZero (renderDate y m d) = midnightUTC y m d := by
  unfold parseDateOrZero
  rw [parseDate_renderDate y m d h]
  rfl

/-- A Whisparr fetch over `n` full pages and a short one: one item per record,
in the order served, with the record's id, the release date as `parseDateOrZero`
reads it, and the zero time as last search. -/
theorem WhisparrV2_GetWanted_run (kind : ListKind) (srv : Oracle (Wanted WhisparrV2Episode))
    (hist : List Request) (n : Nat) (pages : Nat → List WhisparrV2Episode)
    (hserved : ∀ i, i ≤ n →
      pageOf (srv (hist ++ pageRequests kind.path 1 i) (pageRequest kind.path (1 + i)))
        = some (pages i))
    (hfull : ∀ i, i < n → pvrDefaultPageSize ≤ (pages i).length)
    (hshort : (pages n).length < pvrDefaultPageSize)
    (fuel : Nat) (hfuel : n + 1 ≤ fuel) :
    PagedAdapter.whisparrV2.GetWanted kind srv fuel hist
      = some ((((List.range (n + 1)).flatMap pages).map
          (fun episode => ⟨episode.Id, parseDateOrZero episode.AirDateUtc, Time.zero⟩), none),
          hist ++ pageRequests kind.path 1 (n + 1)) := by
  cases kind with
  | missing =>
    have hrun := wantedLoop_run srv "/wanted/missing" (missingErrors "whisparr")
      (fun episode => ⟨episode.Id, parseDateOrZero episode.AirDateUtc, Time.zero⟩)
      n fuel 1 pvrDefaultPageSize [] hist pages (Nat.le_refl _) hserved hfull hshort hfuel
    rw [List.nil_append, flatMap_map_range] at hrun
    exact hrun
  | cutoff =>
    have hrun := wantedLoop_run srv "/wanted/cutoff" (cutoffErrors "whisparr")
      (fun episode => ⟨episode.Id, parseDateOrZero episode.AirDateUtc, Time.zero⟩)
      n fuel 1 pvrDefaultPageSize [] hist pages (Nat.le_refl _) hserved hfull hshort hfuel
    rw [List.nil_append, flatMap_map_range] at hrun
    exact hrun

/-- A string `parseDate` rejects is not the bare date string of a date. -/
theorem not_wellFormed_of_parse_none (s : String) (h : parseDate s = none) :
    ¬ WellFormedDate s := by
  rintro ⟨y, m, d, hv, hs⟩
  rw [hs, parseDate_renderDate y m d hv] at h
  cases h

/-- C21: a Whisparr fetch, wanted-missing or wanted-cutoff, that is served `n`
full pages and a short one returns without error one item per record, in the
order served; the item of a record has the record's id, and when the record's
`releaseDate` is the bare date string `YYYY-MM-DD` of a calendar date, the
item's `AirDateUtc` is midnight UTC of that date. -/
theorem C21_bare_release_date_is_midnight_utc (kind : ListKind)
    (srv : Oracle (Wanted WhisparrV2Episode)) (hist : List Request) (n : Nat)
    (pages : Nat → List WhisparrV2Episode)
    (hserved : ∀ i, i ≤ n →
      pageOf (srv (hist ++ pageRequests kind.path 1 i) (pageRequest kind.path (1 + i)))
        = some (pages i))
    (hfull : ∀ i, i < n → pvrDefaultPageSize ≤ (pages i).length)
    (hshort : (pages n).length < pvrDefaultPageSize)
    (fuel : Nat) (hfuel : n + 1 ≤ fuel) :
    ∃ items, PagedAdapter.whisparrV2.GetWanted kind srv fuel hist
        = some ((items, none), hist ++ pageRequests kind.path 1 (n + 1))
      ∧ List.Forall₂
          (fun (r : WhisparrV2Episode) (x : MediaItem) =>
            x.ItemId = r.Id
            ∧ ∀ y m d, ValidDate y m d → r.AirDateUtc = renderDate y m d →
                x.AirDateUtc = midnightUTC y m d)
          ((List.range (n + 1)).flatMap pages) items := by
  refine ⟨_, WhisparrV2_GetWanted_run kind srv hist n pages hserved hfull hshort fuel hfuel, ?_⟩
  rw [List.forall₂_map_right_iff, List.forall₂_same]
  intro r _
  refine ⟨rfl, ?_⟩
  intro y m d hv hr
  show parseDateOrZero r.AirDateUtc = midnightUTC y m d
  rw [hr]
  exact parseDateOrZero_renderDate y m d hv

/-- Witness of C21: the first record of the Whisparr server with four records
has the release date `2024-02-29`; its item carries midnight UTC of 29 February
2024, which is 63844761600 seconds after midnight of 1 January of the year 1. -/
theorem C21_bare_release_date_is_midnight_utc_witness :
    (∃ items, PagedAdapter.whisparrV2.GetWanted .cutoff fourReleases 1 []
        = some ((items, none), [] ++ pageRequests ListKind.cutoff.path 1 (0 + 1))
      ∧ List.Forall₂
          (fun (r : WhisparrV2Episode) (x : MediaItem) =>
            x.ItemId = r.Id
            ∧ ∀ y m d, ValidDate y m d → r.AirDateUtc = renderDate y m d →
                x.AirDateUtc = midnightUTC y m d)
          ((List.range (0 + 1)).flatMap
            (fun _ => [(⟨1, "2024-02-29", true⟩ : WhisparrV2Episode), ⟨2, "", true⟩,
              ⟨3, "2024-02-29T00:00:00Z", true⟩, ⟨4, "soon", true⟩])) items)
    ∧ ValidDate 2024 2 29 ∧ renderDate 2024 2 29 = "2024-02-29"
    ∧ parseDateOrZero "2024-02-29" = ⟨63844761600, 0⟩ :=
  ⟨C21_bare_release_date_is_midnight_utc .cutoff fourReleases [] 0
      (fun _ => [⟨1, "2024-02-29", true⟩, ⟨2, "", true⟩, ⟨3, "2024-02-29T00:00:00Z", true⟩,
        ⟨4, "soon", true⟩])
      (by
        intro i hi
        obtain rfl : i = 0 := by omega
        rfl)
      (by intro i hi; omega)
      (by decide) 1 (by decide),
    ⟨by decide, by decide, by decide, by decide, by decide⟩, by decide, by decide⟩

/-- C30: a Whisparr fetch, wanted-missing or wanted-cutoff, that is served `n`
full pages and a short one returns without error as many items as there were
records, one per record in the order served; the item of a record has the
record's id, also when the record's `releaseDate` is not the bare date string of
a calendar date, and then its `AirDateUtc` is the zero time. -/
theorem C30_malformed_release_date_gives_zero_time (kind : ListKind)
    (srv : Oracle (Wanted WhisparrV2Episode)) (hist : List Request) (n : Nat)
    (pages : Nat → List WhisparrV2Episode)
    (hserved : ∀ i, i ≤ n →
      pageOf (srv (hist ++ pageRequests kind.path 1 i) (pageRequest kind.path (1 + i)))
        = some (pages i))
    (hfull : ∀ i, i < n → pvrDefaultPageSize ≤ (pages i).length)
    (hshort : (pages n).length < pvrDefaultPageSize)
    (fuel : Nat) (hfuel : n + 1 ≤ fuel) :
    ∃ items, PagedAdapter.whisparrV2.GetWanted kind srv fuel hist
        = some ((items, none), hist ++ pageRequests kind.path 1 (n + 1))
      ∧ items.length = ((List.range (n + 1)).flatMap pages).length
      ∧ List.Forall₂
          (fun (r : WhisparrV2Episode) (x : MediaItem) =>
            x.ItemId = r.Id
            ∧ (¬ WellFormedDate r.AirDateUtc → x.AirDateUtc = Time.zero))
          ((List.range (n + 1)).flatMap pages) items := by
  refine ⟨_, WhisparrV2_GetWanted_run kind srv hist n pages hserved hfull hshort fuel hfuel,
    List.length_map _ _, ?_⟩
  rw [List.forall₂_map_right_iff, List.forall₂_same]
  intro r _
  exact ⟨rfl, fun h => parseDateOrZero_malformed r.AirDateUtc h⟩

/-- Witness of C30: of the four records of the Whisparr server, the one without
a date, the one with a full timestamp and the one with other text come back as
items with their ids and the zero time. -/
theorem C30_malformed_release_date_gives_zero_time_witness :
    (∃ items, PagedAdapter.whisparrV2.GetWanted .missing fourReleases 1 []
        = some ((items, none), [] ++ pageRequests ListKind.missing.path 1 (0 + 1))
      ∧ items.length = ((List.range (0 + 1)).flatMap
            (fun _ => [(⟨1, "2024-02-29", true⟩ : WhisparrV2Episode), ⟨2, "", true⟩,
              ⟨3, "2024-02-29T00:00:00Z", true⟩, ⟨4, "soon", true⟩])).length
      ∧ List.Forall₂
          (fun (r : WhisparrV2Episode) (x : MediaItem) =>
            x.ItemId = r.Id
            ∧ (¬ WellFormedDate r.AirDateUtc → x.AirDateUtc = Time.zero))
          ((List.range (0 + 1)).flatMap
            (fun _ => [(⟨1, "2024-02-29", true⟩ : WhisparrV2Episode), ⟨2, "", true⟩,
              ⟨3, "2024-02-29T00:00:00Z", true⟩, ⟨4, "soon", true⟩])) items)
    ∧ ¬ WellFormedDate "" ∧ ¬ WellFormedDate "2024-02-29T00:00:00Z" ∧ ¬ WellFormedDate "soon"
    ∧ (WhisparrV2.GetWantedMissing fourReleases 1 []).map (fun x => x.1)
        = some ([⟨1, ⟨63844761600, 0⟩, Time.zero⟩, ⟨2, Time.zero, Time.zero⟩,
            ⟨3, Time.zero, Time.zero⟩, ⟨4, Time.zero, Time.zero⟩], none) :=
  ⟨C30_malformed_release_date_gives_zero_time .missing fourReleases [] 0
      (fun _ => [⟨1, "2024-02-29", true⟩, ⟨2, "", true⟩, ⟨3, "2024-02-29T00:00:00Z", true⟩,
        ⟨4, "soon", true⟩])
      (by
        intro i hi
        obtain rfl : i = 0 := by omega
        rfl)
      (by intro i hi; omega)
      (by decide) 1 (by decide),
    not_wellFormed_of_parse_none "" (by decide),
    not_wellFormed_of_parse_none "2024-02-29T00:00:00Z" (by decide),
    not_wellFormed_of_parse_none "soon" (by decide),
    by decide⟩

/-! ## The operations and `Init` -/

theorem getQueueSize_snd (srv : Oracle Queue) (app : String) (hist : List Request) :
    (getQueueSize srv app hist).2 = hist ++ [Request.get "/queue"] := by
  unfold getQueueSize
  simp only []
  split
  · rfl
  · split
    · rfl
    · split <;> rfl

theorem getQueueSize_ok (srv : Oracle Queue) (app : String) (hist : List Request)
    (resp : Response Queue) (q : Queue) (hr : srv hist (Request.get "/queue") = .ok resp)
    (hc : resp.StatusCode = 200) (hj : resp.json = .ok q) :
    (getQueueSize srv app hist).1 = (q.Size, none) := by
  simp [getQueueSize, hr, hc, hj]

theorem PagedAdapter_GetQueueSize_eq (a : PagedAdapter) :
    ∃ app, ∀ srv hist, a.GetQueueSize srv hist = getQueueSize srv app hist := by
  cases a
  · exact ⟨"sonarr", fun _ _ => rfl⟩
  · exact ⟨"lidarr", fun _ _ => rfl⟩
  · exact ⟨"readarr", fun _ _ => rfl⟩
  · exact ⟨"whisparr", fun _ _ => rfl⟩

theorem RadarrV5_GetQueueSize_snd {ι : Type} (srv : Oracle (List ι)) (hist : List Request) :
    (RadarrV5.GetQueueSize srv hist).2 = hist ++ [Request.get "/queue"] := by
  unfold RadarrV5.GetQueueSize
  simp only []
  split
  · rfl
  · split
    · rfl
    · split <;> rfl

theorem RadarrV5_GetQueueSize_ok {ι : Type} (srv : Oracle (List ι)) (hist : List Request)
    (resp : Response (List ι)) (q : List ι) (hr : srv hist (Request.get "/queue") = .ok resp)
    (hc : resp.StatusCode = 200) (hj : resp.json = .ok q) :
    (RadarrV5.GetQueueSize srv hist).1 = ((q.length : Int), none) := by
  simp [RadarrV5.GetQueueSize, hr, hc, hj]

theorem fetchMovies_snd (srv : Oracle (List RadarrV5Movie)) (hist : List Request) :
    (RadarrV5.fetchMovies srv hist).2 = hist ++ [Request.get "/movie"] := by
  unfold RadarrV5.fetchMovies
  simp only []
  split
  · rfl
  · split
    · rfl
    · split <;> rfl

theorem RadarrV5_GetWantedMissing_snd (srv : Oracle (List RadarrV5Movie))
    (hist : List Request) :
    (RadarrV5.GetWantedMissing srv hist).2 = hist ++ [Request.get "/movie"] := by
  have h := fetchMovies_snd srv hist
  unfold RadarrV5.GetWantedMissing
  split <;> rename_i heq <;> rw [heq] at h <;> exact h

theorem RadarrV5_GetWantedCutoff_snd (srv : Oracle (List RadarrV5Movie))
    (hist : List Request) :
    (RadarrV5.GetWantedCutoff srv hist).2 = hist ++ [Request.get "/movie"] := by
  have h := fetchMovies_snd srv hist
  unfold RadarrV5.GetWantedCutoff
  split <;> rename_i heq <;> rw [heq] at h <;> exact h

/-- Whatever the page loop returns, the requests issued before it are still
there, in front. -/
theorem wantedLoop_extends {ρ : Type} (srv : Oracle (Wanted ρ)) (path : String)
    (errs : WantedErrors) (store : ρ → MediaItem) (fuel : Nat) :
    ∀ (page last : Nat) (wanted : List MediaItem) (hist : List Request)
      (res : (List MediaItem × Option String) × List Request),
      wantedLoop srv path errs store fuel page last wanted hist = some res →
      hist <+: res.2 := by
  induction fuel with
  | zero =>
    intro page last wanted hist res h
    by_cases hl : last < pvrDefaultPageSize
    · rw [wantedLoop_stop srv path errs store 0 page last wanted hist hl] at h
      cases h
      exact List.prefix_refl _
    · simp [wantedLoop, hl] at h
  | succ fuel ih =>
    intro page last wanted hist res h
    by_cases hl : last < pvrDefaultPageSize
    · rw [wantedLoop_stop srv path errs store (fuel + 1) page last wanted hist hl] at h
      cases h
      exact List.prefix_refl _
    · have hle : pvrDefaultPageSize ≤ last := Nat.le_of_not_lt hl
      cases hp : pageOf (srv hist (pageRequest path page)) with
      | none =>
        obtain ⟨e, he⟩ := wantedLoop_fail srv path errs store fuel page last wanted hist hle hp
        rw [he] at h
        cases h
        exact List.prefix_append _ _
      | some recs =>
        rw [wantedLoop_step srv path errs store fuel page last wanted hist recs hle hp] at h
        exact List.IsPrefix.trans (List.prefix_append _ _) (ih _ _ _ _ _ h)

/-- A paginated fetch that returns has issued the request for page 1. -/
theorem GetWanted_contacts (a : PagedAdapter) (kind : ListKind)
    (srv : Oracle (Wanted a.Record)) (fuel : Nat) (hist : List Request)
    (res : (List MediaItem × Option String) × List Request)
    (h : a.GetWanted kind srv fuel hist = some res) :
    hist ++ [pageRequest kind.path 1] <+: res.2 := by
  obtain ⟨errs, store, _, hloop⟩ := GetWanted_loop a kind
  rw [hloop] at h
  cases fuel with
  | zero => simp [wantedLoop] at h
  | succ fuel =>
    cases hp : pageOf (srv hist (pageRequest kind.path 1)) with
    | none =>
      obtain ⟨e, he⟩ := wantedLoop_fail srv kind.path errs store fuel 1 pvrDefaultPageSize []
        hist (Nat.le_refl _) hp
      rw [he] at h
      cases h
      exact List.prefix_refl _
    | some recs =>
      rw [wantedLoop_step srv kind.path errs store fuel 1 pvrDefaultPageSize [] hist recs
        (Nat.le_refl _) hp] at h
      exact wantedLoop_extends srv kind.path errs store fuel _ _ _ _ _ h

/-- A paginated fetch whose first page is short returns its records. -/
theorem GetWanted_short (a : PagedAdapter) (kind : ListKind)
    (srv : Oracle (Wanted a.Record)) (fuel : Nat) (hist : List Request) (recs : List a.Record)
    (hp : pageOf (srv hist (pageRequest kind.path 1)) = some recs)
    (hshort : recs.length < pvrDefaultPageSize) :
    ∃ items, a.GetWanted kind srv (fuel + 1) hist
        = some ((items, none), hist ++ [pageRequest kind.path 1])
      ∧ items.map MediaItem.ItemId = recs.map a.recordId := by
  obtain ⟨errs, store, hid, hloop⟩ := GetWanted_loop a kind
  refine ⟨[] ++ recs.map store, ?_, ?_⟩
  · rw [hloop, wantedLoop_step srv kind.path errs store fuel 1 pvrDefaultPageSize [] hist recs
      (Nat.le_refl _) hp, wantedLoop_stop _ _ _ _ _ _ _ _ _ hshort]
  · rw [List.nil_append, List.map_map]
    apply List.map_congr_left
    intro r _
    exact hid r

/-- A paginated fetch whose first page fails returns the error. -/
theorem GetWanted_unusable (a : PagedAdapter) (kind : ListKind)
    (srv : Oracle (Wanted a.Record)) (fuel : Nat) (hist : List Request)
    (hp : pageOf (srv hist (pageRequest kind.path 1)) = none) :
    ∃ e, a.GetWanted kind srv (fuel + 1) hist
      = some (([], some e), hist ++ [pageRequest kind.path 1]) := by
  obtain ⟨errs, store, _, hloop⟩ := GetWanted_loop a kind
  rw [hloop]
  exact wantedLoop_fail srv kind.path errs store fuel 1 pvrDefaultPageSize [] hist
    (Nat.le_refl _) hp

/-- A search that returns has issued its trigger request. -/
theorem SearchMediaItems_contacts (a : Adapter) (table : Char → Bool)
    (cmd : Oracle CommandResponse) (srv : Oracle CommandStatus) (ids : List Int) (fuel : Nat)
    (hist : List Request) (res : (Bool × Option String) × List Request)
    (h : a.SearchMediaItems table cmd srv ids fuel hist = some res) :
    hist ++ [a.triggerRequest ids] <+: res.2 := by
  obtain ⟨name, idsField, hreq, heq⟩ := SearchMediaItems_eq_app a table cmd srv ids fuel hist
  rw [heq] at h
  rw [hreq]
  cases hacc : acceptedId (cmd hist (Request.postCommand "/command" name idsField ids)) with
  | none =>
    obtain ⟨e, he⟩ :=
      searchMediaItems_rejected table cmd srv a.app name idsField ids fuel hist hacc
    rw [he] at h
    cases h
    exact List.prefix_refl _
  | some id =>
    rw [searchMediaItems_accepted table cmd srv a.app name idsField ids fuel hist id hacc] at h
    obtain ⟨j, _, hh, _, _⟩ := monitorLoop_returns table srv a.app id fuel _ res.1 res.2 h
    rw [hh]
    exact List.prefix_append _ _

/-- A search whose trigger is not accepted returns the failure. -/
theorem SearchMediaItems_rejected (a : Adapter) (table : Char → Bool)
    (cmd : Oracle CommandResponse) (srv : Oracle CommandStatus) (ids : List Int) (fuel : Nat)
    (hist : List Request) (hacc : acceptedId (cmd hist (a.triggerRequest ids)) = none) :
    ∃ e, a.SearchMediaItems table cmd srv ids fuel hist
      = some ((false, some e), hist ++ [a.triggerRequest ids]) := by
  obtain ⟨name, idsField, hreq, heq⟩ := SearchMediaItems_eq_app a table cmd srv ids fuel hist
  rw [heq]
  rw [hreq] at hacc ⊢
  exact searchMediaItems_rejected table cmd srv a.app name idsField ids fuel hist hacc

/-- A search whose trigger is accepted and whose first poll reports
"completed" returns success. -/
theorem SearchMediaItems_completed (a : Adapter) (table : Char → Bool)
    (cmd : Oracle CommandResponse) (srv : Oracle CommandStatus) (ids : List Int) (fuel : Nat)
    (hist : List Request) (id : Int) (st : CommandStatus)
    (hacc : acceptedId (cmd hist (a.triggerRequest ids)) = some id)
    (hst : statusOf (srv (hist ++ [a.triggerRequest ids]) (pollRequest id)) = some st)
    (hdone : st.Status = "completed") :
    a.SearchMediaItems table cmd srv ids (fuel + 1) hist
      = some ((true, none), hist ++ [a.triggerRequest ids] ++ [pollRequest id]) := by
  obtain ⟨name, idsField, hreq, heq⟩ :=
    SearchMediaItems_eq_app a table cmd srv ids (fuel + 1) hist
  rw [heq]
  rw [hreq] at hacc hst ⊢
  rw [searchMediaItems_accepted table cmd srv a.app name idsField ids (fuel + 1) hist id hacc,
    monitorLoop_completed table srv a.app id fuel _ st hst hdone]

/-- What a run does first, once its inputs are validated: it calls `Init`, and
when `Init` returns an error it dies there. -/
theorem Run_init_first {σ π : Type} (printTable : Char → Bool)
    (lowerTable : Char → Char) (Config : String → Option config.Pvr)
    (bind : Client → Interface π) (db : Database σ) (clock : Nat → Time)
    (flagDatabaseFile : String) (flagRefreshCache : Bool) (pvrName : String) (st : St σ π)
    (lowerPvrName : String) (pvrConfig : config.Pvr) (client : Client)
    (hparse : parseValidateInputs printTable lowerTable Config pvrName
      = .ok (lowerPvrName, pvrConfig, some client)) :
    (∃ tail, (Run printTable lowerTable Config bind db clock flagDatabaseFile flagRefreshCache
          pvrName st).st.events = st.events ++ Event.Init :: tail)
    ∧ (∀ err p, (bind client).Init st.pvr = Call.done (some err) p →
        Run printTable lowerTable Config bind db clock flagDatabaseFile flagRefreshCache
            pvrName st
          = ⟨Exit.fatal ("Failed initializing pvr object for: " ++ pvrName) (some err),
              ⟨st.db, p, st.clock, st.events ++ [Event.Init]⟩⟩) := by
  constructor
  · unfold Run
    rw [hparse]
    simp only []
    split
    · exact ⟨[], rfl⟩
    · exact ⟨[], rfl⟩
    · exact ⟨[], rfl⟩
    · split
      · exact ⟨_, by simp only [List.append_assoc]; rfl⟩
      · rename_i s hs
        split
        · rename_i exit st1 hr
          obtain ⟨tail, ht⟩ := refreshCache_events db (bind client) flagRefreshCache
            lowerPvrName ⟨s, _, st.clock, st.events ++ [Event.Init]
              ++ [Event.databaseInit flagDatabaseFile]⟩
          rw [hr] at ht
          simp only [] at ht
          exact ⟨_, by rw [ht]; simp only [List.append_assoc]; rfl⟩
        · rename_i st1 hr
          obtain ⟨tail, ht⟩ := refreshCache_events db (bind client) flagRefreshCache
            lowerPvrName ⟨s, _, st.clock, st.events ++ [Event.Init]
              ++ [Event.databaseInit flagDatabaseFile]⟩
          rw [hr] at ht
          obtain ⟨tail2, ht2⟩ := readAndSearch_events db (bind client) clock lowerPvrName st1
          simp only [] at ht
          exact ⟨_, by rw [ht2, ht]; simp only [List.append_assoc]; rfl⟩
  · intro err p hinit
    unfold Run
    rw [hparse]
    simp only []
    rw [hinit]

/-- C12, as stated, fails: the adapters keep no record of `Init`.  On a client
on which `Init` was never called, `GetWantedMissing`, `GetWantedCutoff` and
`SearchMediaItems` contact the server and return without error; after an `Init`
that failed on the version `3.0.10`, `GetQueueSize` asks the server and returns
its queue size. -/
theorem C12_operations_without_init_counterexample :
    SonarrV4.GetWantedMissing threeEpisodes 1 []
        = some (([⟨7, Time.zero, Time.zero⟩, ⟨8, Time.zero, Time.zero⟩,
            ⟨9, Time.zero, Time.zero⟩], none), [pageRequest "/wanted/missing" 1])
    ∧ SonarrV4.GetWantedCutoff threeEpisodes 1 []
        = some (([⟨7, Time.zero, Time.zero⟩, ⟨8, Time.zero, Time.zero⟩,
            ⟨9, Time.zero, Time.zero⟩], none), [pageRequest "/wanted/cutoff" 1])
    ∧ SonarrV4.SearchMediaItems (fun _ => false) (acceptAs 42) (scripted [("completed", "")])
          [7, 8, 9] 1 []
        = some ((true, none), [Adapter.sonarrV4.triggerRequest [7, 8, 9], pollRequest 42])
    ∧ SonarrV4.Init (versionServer "3.0.10") []
        = (Outcome.returned (some "unsupported version of sonarr pvr: 3.0.10"), [statusRequest])
    ∧ SonarrV4.GetQueueSize (queueServer 7) [statusRequest]
        = ((7, none), [statusRequest, Request.get "/queue"]) := by
  refine ⟨by decide, by decide, by decide, by decide, by decide⟩

/-- C12, amended: the adapters keep no record of `Init`, and the driver guards
the other operations instead.  From every request history `hist`, so whether or
not an `Init` went before and whatever it returned, every adapter contacts the
server in each of its operations.  `GetQueueSize` requests `/queue` and returns
the size the server reports.  `GetWantedMissing` and `GetWantedCutoff` of the
paginated adapters never return without having requested page 1, return the
records of a short first page and return the error of a first page that fails;
those of Radarr request `/movie` and return no error when it is served.
`SearchMediaItems` never returns without having sent its trigger, returns the
failure of a trigger that is not accepted and returns success when the first
poll reports "completed".  The driver: a run that gets past the validation of
its inputs calls `Init` before anything else, and when `Init` returns an error
the run dies in `log.Fatal` with `Init` as its only call: cache and clock are
untouched and no other operation of the client is called. -/
theorem C12_adapters_ignore_init_driver_guards {σ π ι : Type} (table : Char → Bool)
    (queue : Oracle Queue) (radarrQueue : Oracle (List ι))
    (movies : Oracle (List RadarrV5Movie)) (cmd : Oracle CommandResponse)
    (status : Oracle CommandStatus) (hist : List Request)
    (printTable : Char → Bool)
    (lowerTable : Char → Char) (Config : String → Option config.Pvr)
    (bind : Client → Interface π) (db : Database σ) (clock : Nat → Time)
    (flagDatabaseFile : String) (flagRefreshCache : Bool) (pvrName : String) (st : St σ π)
    (lowerPvrName : String) (pvrConfig : config.Pvr) (client : Client)
    (hparse : parseValidateInputs printTable lowerTable Config pvrName
      = .ok (lowerPvrName, pvrConfig, some client)) :
    (∀ a : PagedAdapter,
        (a.GetQueueSize queue hist).2 = hist ++ [Request.get "/queue"]
        ∧ ∀ resp q, queue hist (Request.get "/queue") = .ok resp → resp.StatusCode = 200 →
            resp.json = .ok q → (a.GetQueueSize queue hist).1 = (q.Size, none))
    ∧ ((RadarrV5.GetQueueSize radarrQueue hist).2 = hist ++ [Request.get "/queue"]
        ∧ ∀ resp q, radarrQueue hist (Request.get "/queue") = .ok resp →
            resp.StatusCode = 200 → resp.json = .ok q →
            (RadarrV5.GetQueueSize radarrQueue hist).1 = ((q.length : Int), none))
    ∧ (∀ (a : PagedAdapter) (kind : ListKind) (wanted : Oracle (Wanted a.Record))
        (fuel : Nat),
        (∀ res, a.GetWanted kind wanted fuel hist = some res →
            hist ++ [pageRequest kind.path 1] <+: res.2)
        ∧ (∀ recs, pageOf (wanted hist (pageRequest kind.path 1)) = some recs →
            recs.length < pvrDefaultPageSize →
            ∃ items, a.GetWanted kind wanted (fuel + 1) hist
                = some ((items, none), hist ++ [pageRequest kind.path 1])
              ∧ items.map MediaItem.ItemId = recs.map a.recordId)
        ∧ (pageOf (wanted hist (pageRequest kind.path 1)) = none →
            ∃ e, a.GetWanted kind wanted (fuel + 1) hist
              = some (([], some e), hist ++ [pageRequest kind.path 1])))
    ∧ ((RadarrV5.GetWantedMissing movies hist).2 = hist ++ [Request.get "/movie"]
        ∧ (RadarrV5.GetWantedCutoff movies hist).2 = hist ++ [Request.get "/movie"]
        ∧ ∀ resp records, movies hist (Request.get "/movie") = .ok resp →
            resp.StatusCode = 200 → resp.json = .ok records →
            (RadarrV5.GetWantedMissing movies hist).1.2 = none
            ∧ (RadarrV5.GetWantedCutoff movies hist).1.2 = none)
    ∧ (∀ (a : Adapter) (ids : List Int) (fuel : Nat),
        (∀ res, a.SearchMediaItems table cmd status ids fuel hist = some res →
            hist ++ [a.triggerRequest ids] <+: res.2)
        ∧ (acceptedId (cmd hist (a.triggerRequest ids)) = none →
            ∃ e, a.SearchMediaItems table cmd status ids fuel hist
              = some ((false, some e), hist ++ [a.triggerRequest ids]))
        ∧ (∀ id s, acceptedId (cmd hist (a.triggerRequest ids)) = some id →
            statusOf (status (hist ++ [a.triggerRequest ids]) (pollRequest id)) = some s →
            s.Status = "completed" →
            a.SearchMediaItems table cmd status ids (fuel + 1) hist
              = some ((true, none), hist ++ [a.triggerRequest ids] ++ [pollRequest id])))
    ∧ (∃ tail, (Run printTable lowerTable Config bind db clock flagDatabaseFile flagRefreshCache
          pvrName st).st.events = st.events ++ Event.Init :: tail)
    ∧ (∀ err p, (bind client).Init st.pvr = Call.done (some err) p →
        Run printTable lowerTable Config bind db clock flagDatabaseFile flagRefreshCache
            pvrName st
          = ⟨Exit.fatal ("Failed initializing pvr object for: " ++ pvrName) (some err),
              ⟨st.db, p, st.clock, st.events ++ [Event.Init]⟩⟩) := by
  have hrun := Run_init_first printTable lowerTable Config bind db clock flagDatabaseFile
    flagRefreshCache pvrName st lowerPvrName pvrConfig client hparse
  refine ⟨?_, ?_, ?_, ?_, ?_, hrun.1, hrun.2⟩
  · intro a
    obtain ⟨app, happ⟩ := PagedAdapter_GetQueueSize_eq a
    rw [happ]
    exact ⟨getQueueSize_snd queue app hist,
      fun resp q hr hc hj => getQueueSize_ok queue app hist resp q hr hc hj⟩
  · exact ⟨RadarrV5_GetQueueSize_snd radarrQueue hist,
      fun resp q hr hc hj => RadarrV5_GetQueueSize_ok radarrQueue hist resp q hr hc hj⟩
  · intro a kind wanted fuel
    exact ⟨fun res h => GetWanted_contacts a kind wanted fuel hist res h,
      fun recs hp hshort => GetWanted_short a kind wanted fuel hist recs hp hshort,
      fun hp => GetWanted_unusable a kind wanted fuel hist hp⟩
  · refine ⟨RadarrV5_GetWantedMissing_snd movies hist, RadarrV5_GetWantedCutoff_snd movies hist,
      ?_⟩
    intro resp records hr hc hj
    rw [GetWantedMissing_served movies hist resp records hr hc hj,
      GetWantedCutoff_served movies hist resp records hr hc hj]
    exact ⟨rfl, rfl⟩
  · intro a ids fuel
    exact ⟨fun res h => SearchMediaItems_contacts a table cmd status ids fuel hist res h,
      fun hacc => SearchMediaItems_rejected a table cmd status ids fuel hist hacc,
      fun id s hacc hst hdone =>
        SearchMediaItems_completed a table cmd status ids fuel hist id s hacc hst hdone⟩

/-- Witness of C12: after an `Init` that failed on a Sonarr of version `3.0.10`,
so from the history that holds its status request, `GetQueueSize` of the Whisparr
adapter requests `/queue` and the Readarr wanted-cutoff fetch returns the three
episodes served; and the driver against that Sonarr stops at `Init`: the only
request that reaches the server is the one for the system status. -/
theorem C12_adapters_ignore_init_driver_guards_witness :
    (SonarrV4.Init (versionServer "3.0.10") []).2 = [statusRequest]
    ∧ (PagedAdapter.whisparrV2.GetQueueSize (queueServer 7) [statusRequest]).2
        = [statusRequest] ++ [Request.get "/queue"]
    ∧ (∃ items, PagedAdapter.sonarrV4.GetWanted .cutoff threeEpisodes (0 + 1) [statusRequest]
          = some ((items, none), [statusRequest] ++ [pageRequest ListKind.cutoff.path 1])
        ∧ items.map MediaItem.ItemId
          = (episodesFrom 7 3).map (PagedAdapter.recordId .sonarrV4))
    ∧ Run (fun _ => false) (fun c => c) tvConfig (bindSonarr "3.0.10") specDatabase tick
          "vault.db" true "tv" ⟨cacheWithIds [1, 2, 3], [], 0, []⟩
        = ⟨Exit.fatal ("Failed initializing pvr object for: " ++ "tv")
            (some "unsupported version of sonarr pvr: 3.0.10"),
            ⟨cacheWithIds [1, 2, 3], [statusRequest], 0, [] ++ [Event.Init]⟩⟩ :=
  have h := C12_adapters_ignore_init_driver_guards (fun _ => false) (queueServer 7)
    (fun _ _ => (.error "no such server" : Reply (List Unit))) movieServer (acceptAs 42)
    (scripted [("completed", "")]) [statusRequest]
    (fun _ => false) (fun c => c) tvConfig
    (bindSonarr "3.0.10") specDatabase tick "vault.db" true "tv"
    ⟨cacheWithIds [1, 2, 3], [], 0, []⟩ "tv" (sampleConfig "sonarr_v4")
    (Client.NewSonarrV4 "tv" (sampleConfig "sonarr_v4")) rfl
  ⟨by decide, (h.1 .whisparrV2).1,
    (h.2.2.1 .sonarrV4 .cutoff threeEpisodes 0).2.1 (episodesFrom 7 3) rfl (by decide),
    h.2.2.2.2.2.2 "unsupported version of sonarr pvr: 3.0.10" [statusRequest] rfl⟩

end Wantarr
